import Mathlib

/-! # Xray-core dispatcher: a shallow embedding

The definitions below transcribe `app/dispatcher/default.go`, the feature
registry and life cycle of `core/xray.go`, the command codec of
`proxy/vmess/encoding/commands.go` and `VLessInboundConfig.Build` of
`infra/conf/vless.go`.  Go strings are `String`, byte slices are `List Nat`,
a nil-able value is an `Option`, a Go `(value, error)` pair is a pair whose
second component is `Option GoError`, and a Go panic is the outer `none` of an
`Option` result.  Diagnostic `newError(...).WriteToLog(...)` lines change no
state that is modelled here and are left out.
-/

namespace Xray

/-! ## Values shared by the packages -/

/-- Go error values.  The three named errors are the package-level variables the
dispatcher compares against or returns, `EOF` is `io.EOF`, `newError msg` is an
error made by `newError(msg)`, and every other error value is `other n`. -/
inductive GoError
  | ErrNoClue
  | errSniffingTimeout
  | errUnknownContent
  | EOF
  | newError (msg : String)
  | other (n : Nat)
deriving DecidableEq, Repr

/-- Values of `reflect.Type`, as far as `core/xray.go` inspects them. -/
inductive RType
  | named (name : String)
  | ptr (elem : RType)
deriving DecidableEq, Repr

/-- The function `reflect.PtrTo`. -/
def PtrTo (t : RType) : RType := RType.ptr t

/-- The value `*gonet.IPNet`; only its `Contains` method is used. -/
structure IPNet where
  Contains : List Nat → Bool

/-- A `net.Address`: an IP (its bytes) or a domain name. -/
inductive Address
  | ip (bytes : List Nat)
  | domain (name : String)
deriving DecidableEq, Repr

/-- The test `a.Family().IsIP()`. -/
def Address.IsIP : Address → Bool
  | Address.ip _ => true
  | Address.domain _ => false

/-- The method `a.IP()`; Go panics on a domain address. -/
def Address.IP : Address → Option (List Nat)
  | Address.ip b => some b
  | Address.domain _ => none

/-- The enumeration `net.Network`. -/
inductive Network
  | Unknown
  | TCP
  | UDP
  | UNIX
deriving DecidableEq, Repr

/-- The struct `net.Destination`. -/
structure Destination where
  Address : Address
  Port : Nat
  Network : Network
deriving DecidableEq, Repr

/-! ## core/xray.go: features and resolutions -/

/-- A registered `features.Feature`, described by what the core observes of it. -/
structure Feature where
  /-- an identifier of the object -/
  ident : Nat
  /-- the value `reflect.TypeOf(f.Type())` -/
  typeOfType : RType
  /-- the types `pt` with `reflect.TypeOf(f).AssignableTo(pt)` -/
  ifaces : List RType
  /-- the method `GetFakeIPRange` of a `dns.FakeDNSEngine` -/
  GetFakeIPRange : IPNet
  /-- what `f.Start()` returns -/
  Start : Option GoError
  /-- what `f.Close()` returns -/
  Close : Option GoError

/-- The test `reflect.TypeOf(f).AssignableTo(pt)`. -/
def Feature.AssignableTo (f : Feature) (pt : RType) : Bool :=
  decide (pt ∈ f.ifaces)

/-- A callback handed to `RequireFeatures`: its parameter types and the error its
call returns (the last result of type `error`, `none` when nil or absent). -/
structure Callback where
  ident : Nat
  In : List RType
  Call : List Feature → Option GoError

/-- The struct `resolution`. -/
structure resolution where
  deps : List RType
  callback : Callback

/-- The function `getFeature`: the first feature whose `Type()` has type `t`. -/
def getFeature : List Feature → RType → Option Feature
  | [], _ => none
  | f :: rest, t => if f.typeOfType = t then some f else getFeature rest t

/-- First loop of `resolution.resolve`: the features of the dependencies, or
`none` as soon as one is not registered. -/
def resolveDeps (allFeatures : List Feature) : List RType → Option (List Feature)
  | [] => some []
  | d :: ds =>
    match getFeature allFeatures d with
    | none => none
    | some f =>
      match resolveDeps allFeatures ds with
      | none => none
      | some fs => some (f :: fs)

/-- Second loop of `resolution.resolve`: for every parameter type the first of
`fs` assignable to it, a parameter with none being skipped. -/
def resolveInput (fs : List Feature) : List RType → List Feature
  | [] => []
  | pt :: pts =>
    match fs.find? (fun f => f.AssignableTo pt) with
    | some f => f :: resolveInput fs pts
    | none => resolveInput fs pts

/-- What a call of `resolution.resolve` did: the returned pair and the arguments
the callback was called with (`[]` when it was not called). -/
structure Resolved where
  finished : Bool
  err : Option GoError
  input : List Feature

/-- The method `resolution.resolve`; `none` is the panic
"Can't get all input parameters". -/
def resolution.resolve (r : resolution) (allFeatures : List Feature) : Option Resolved :=
  match resolveDeps allFeatures r.deps with
  | none => some { finished := false, err := none, input := [] }
  | some fs =>
    let input := resolveInput fs r.callback.In
    if input.length ≠ r.callback.In.length then none
    else some { finished := true, err := r.callback.Call input, input := input }

/-- The struct `Instance` (without its mutex and context). -/
structure Instance where
  features : List Feature
  featureResolutions : List resolution
  running : Bool

/-- What `Instance.RequireFeatures` returns, with the instance afterwards and the
arguments of the callback when it was called at once. -/
structure Required where
  err : Option GoError
  inst : Instance
  called : Option (List Feature)

/-- The method `Instance.RequireFeatures`; `none` is a panic of `resolve`. -/
def Instance.RequireFeatures (s : Instance) (callback : Callback) : Option Required :=
  let featureTypes := callback.In.map PtrTo
  let r : resolution := { deps := featureTypes, callback := callback }
  match r.resolve s.features with
  | none => none
  | some res =>
    if res.finished then some { err := res.err, inst := s, called := some res.input }
    else some { err := none,
                inst := { s with featureResolutions := s.featureResolutions ++ [r] },
                called := none }

/-- A call of a callback: the callback and its arguments. -/
structure Fired where
  callback : Callback
  input : List Feature

/-- What the loop of `AddFeature` over the pending resolutions did: the error
it returned from the function with, if any, the value of `pendingResolutions`
when it ended, and the callbacks it called, in order. -/
structure Rerun where
  err : Option GoError
  pending : List resolution
  fired : List Fired

/-- The loop of `Instance.AddFeature` over `s.featureResolutions`; `none` is a
panic of `resolve`. -/
def rerunLoop (allFeatures : List Feature) : List resolution → Option Rerun
  | [] => some { err := none, pending := [], fired := [] }
  | r :: rs =>
    match r.resolve allFeatures with
    | none => none
    | some res =>
      if res.finished ∧ res.err ≠ none then
        some { err := res.err, pending := [],
               fired := [{ callback := r.callback, input := res.input }] }
      else
        match rerunLoop allFeatures rs with
        | none => none
        | some out =>
          if !res.finished then some { out with pending := r :: out.pending }
          else
            some { out with
              fired := { callback := r.callback, input := res.input } :: out.fired }

/-- What a call of `Instance.AddFeature` returned and did: the returned error,
the instance afterwards, the features whose `Start` it called and the callbacks
it called, in order. -/
structure Added where
  err : Option GoError
  inst : Instance
  started : List Feature
  fired : List Fired

/-- The method `Instance.AddFeature`; `none` is a panic of `resolve`.  A nil
slice is `[]`. -/
def Instance.AddFeature (s : Instance) (feature : Feature) : Option Added :=
  let s : Instance := { s with features := s.features ++ [feature] }
  if s.running then
    some { err := none, inst := s, started := [feature], fired := [] }
  else if s.featureResolutions.isEmpty then
    some { err := none, inst := s, started := [], fired := [] }
  else
    match rerunLoop s.features s.featureResolutions with
    | none => none
    | some out =>
      match out.err with
      | some e => some { err := some e, inst := s, started := [], fired := out.fired }
      | none =>
        let pendingResolutions := out.pending
        if pendingResolutions.length = 0 then
          some { err := none, inst := { s with featureResolutions := [] },
                 started := [], fired := out.fired }
        else if pendingResolutions.length < s.featureResolutions.length then
          some { err := none, inst := { s with featureResolutions := pendingResolutions },
                 started := [], fired := out.fired }
        else some { err := none, inst := s, started := [], fired := out.fired }

/-- The method `Instance.GetFeature`, on the type of its argument. -/
def Instance.GetFeature (s : Instance) (featureType : RType) : Option Feature :=
  getFeature s.features featureType

/-- The loop of `Instance.Start`: the features whose `Start` was called, in
order, and the error the loop returned with, if any. -/
def startLoop : List Feature → List Feature × Option GoError
  | [] => ([], none)
  | f :: rest =>
    match f.Start with
    | some err => ([f], some err)
    | none => (f :: (startLoop rest).1, (startLoop rest).2)

/-- What a call of `Instance.Start` returned and did. -/
structure Started where
  err : Option GoError
  inst : Instance
  started : List Feature

/-- The method `Instance.Start`. -/
def Instance.Start (s : Instance) : Started :=
  let s : Instance := { s with running := true }
  { err := (startLoop s.features).2, inst := s, started := (startLoop s.features).1 }

/-- The loop of `Instance.Close`: the features whose `Close` was called, in
order, and the value of `errors` at the end. -/
def closeLoop : List Feature → List Feature × List GoError
  | [] => ([], [])
  | f :: rest =>
    match f.Close with
    | some err => (f :: (closeLoop rest).1, err :: (closeLoop rest).2)
    | none => (f :: (closeLoop rest).1, (closeLoop rest).2)

/-- What a call of `Instance.Close` returned and did. -/
structure Closed where
  err : Option GoError
  inst : Instance
  closed : List Feature

/-- The method `Instance.Close`; the error it makes is
`newError("failed to close all features")`, whose base holds the collected
errors. -/
def Instance.Close (s : Instance) : Closed :=
  let s : Instance := { s with running := false }
  let errors := (closeLoop s.features).2
  { err := if errors.length > 0 then some (GoError.newError "failed to close all features")
           else none,
    inst := s,
    closed := (closeLoop s.features).1 }

/-! ## core/xray.go: initInstanceWithConfig and New -/

/-- The type `reflect.TypeOf(dns.ClientType())`. -/
def dnsClientType : RType := PtrTo (RType.named "dns.Client")

/-- The type `reflect.TypeOf(policy.ManagerType())`. -/
def policyManagerType : RType := PtrTo (RType.named "policy.Manager")

/-- The type `reflect.TypeOf(routing.RouterType())`. -/
def routerType : RType := PtrTo (RType.named "routing.Router")

/-- The type `reflect.TypeOf(stats.ManagerType())`. -/
def statsManagerType : RType := PtrTo (RType.named "stats.Manager")

/-- The type `reflect.TypeOf(inbound.ManagerType())`. -/
def inboundManagerType : RType := PtrTo (RType.named "inbound.Manager")

/-- The type `reflect.TypeOf(outbound.ManagerType())`. -/
def outboundManagerType : RType := PtrTo (RType.named "outbound.Manager")

/-- Modelled from the spec: the default implementations `localdns.New()`,
`policy.DefaultManager{}`, `routing.DefaultRouter{}` and `stats.NoopManager{}`,
whose code is outside the embedded files: "no-op/identity implementations" of
the feature kind they are the default for, so a feature whose `Type()` is that
kind and that implements its interface, and whose `Start` and `Close` return
nil. -/
def defaultFeature (ident : Nat) (name : String) : Feature :=
  { ident := ident
    typeOfType := PtrTo (RType.named name)
    ifaces := [RType.named name]
    GetFakeIPRange := { Contains := fun _ => false }
    Start := none
    Close := none }

/-- An entry of `essentialFeatures`: the fields `Type` (as a `reflect.Type`) and
`Instance`. -/
structure Essential where
  typ : RType
  inst : Feature

/-- The table `essentialFeatures` of `initInstanceWithConfig`. -/
def essentialFeatures : List Essential :=
  [{ typ := dnsClientType, inst := defaultFeature 101 "dns.Client" },
   { typ := policyManagerType, inst := defaultFeature 102 "policy.Manager" },
   { typ := routerType, inst := defaultFeature 103 "routing.Router" },
   { typ := statsManagerType, inst := defaultFeature 104 "stats.Manager" }]

/-- What `CreateObject(server, settings)` returned for an app setting: the object
when it is a `features.Feature`, the error, and the server afterwards (the
creator is given the server in its context and may call `core.RequireFeatures`
on it). -/
structure Created where
  feature : Option Feature
  err : Option GoError
  inst : Instance

/-- An entry of `config.App`: the error of `GetInstance()` and the run of
`CreateObject` on its settings (`none` is a panic). -/
structure AppSettings where
  GetInstance : Option GoError
  CreateObject : Instance → Option Created

/-- What `CreateObject(server, config)` returned for a handler config: the
object, as a number, when it is a handler of the kind asked for, the error, and
the server afterwards. -/
structure HandlerCreated where
  handler : Option Nat
  err : Option GoError
  inst : Instance

/-- An `InboundHandlerConfig` or `OutboundHandlerConfig`: the run of
`CreateObject` on it (`none` is a panic). -/
structure HandlerConfig where
  CreateObject : Instance → Option HandlerCreated

/-- The struct `Config`: what `config.Transport.Apply()` returns, and the three
lists. -/
structure Config where
  TransportApply : Option GoError
  App : List AppSettings
  Inbound : List HandlerConfig
  Outbound : List HandlerConfig

/-- The `AddHandler` methods of the registered `inbound.Manager` and
`outbound.Manager`: the error returned for a handler, given the handlers added
before. -/
structure HandlerManagers where
  AddInbound : List Nat → Nat → Option GoError
  AddOutbound : List Nat → Nat → Option GoError

/-- The first loop of `initInstanceWithConfig`, over `config.App`: the error it
returned from the function with, if any, and the server afterwards. -/
def appLoop : List AppSettings → Instance → Option (Option GoError × Instance)
  | [], server => some (none, server)
  | appSettings :: rest, server =>
    match appSettings.GetInstance with
    | some err => some (some err, server)
    | none =>
      match appSettings.CreateObject server with
      | none => none
      | some obj =>
        match obj.err with
        | some err => some (some err, obj.inst)
        | none =>
          match obj.feature with
          | none => appLoop rest obj.inst
          | some feature =>
            match obj.inst.AddFeature feature with
            | none => none
            | some out =>
              match out.err with
              | some err => some (some err, out.inst)
              | none => appLoop rest out.inst

/-- The second loop of `initInstanceWithConfig`, over `essentialFeatures`. -/
def essentialLoop : List Essential → Instance → Option (Option GoError × Instance)
  | [], server => some (none, server)
  | f :: rest, server =>
    match server.GetFeature f.typ with
    | some _ => essentialLoop rest server
    | none =>
      match server.AddFeature f.inst with
      | none => none
      | some out =>
        match out.err with
        | some err => some (some err, out.inst)
        | none => essentialLoop rest out.inst

/-- The function `AddInboundHandler` (with `inbound`) and `AddOutboundHandler`
(with `inbound` false): the returned error, the server afterwards and the
handlers the manager holds afterwards; `none` is a panic, as the type assertion
on a missing manager is. -/
def AddHandler (mgr : HandlerManagers) (inbound : Bool) (server : Instance)
    (added : List Nat) (config : HandlerConfig) :
    Option (Option GoError × Instance × List Nat) :=
  match server.GetFeature (if inbound then inboundManagerType else outboundManagerType) with
  | none => none
  | some manager =>
    if !manager.AssignableTo
        (RType.named (if inbound then "inbound.Manager" else "outbound.Manager")) then none
    else
      match config.CreateObject server with
      | none => none
      | some raw =>
        match raw.err with
        | some err => some (some err, raw.inst, added)
        | none =>
          match raw.handler with
          | none =>
            some (some (GoError.newError
              (if inbound then "not an InboundHandler" else "not an OutboundHandler")),
              raw.inst, added)
          | some handler =>
            match (if inbound then mgr.AddInbound added handler
                   else mgr.AddOutbound added handler) with
            | some err => some (some err, raw.inst, added)
            | none => some (none, raw.inst, added ++ [handler])

/-- The functions `addInboundHandlers` and `addOutboundHandlers`. -/
def addHandlers (mgr : HandlerManagers) (inbound : Bool) :
    List HandlerConfig → Instance → List Nat → Option (Option GoError × Instance × List Nat)
  | [], server, added => some (none, server, added)
  | config :: rest, server, added =>
    match AddHandler mgr inbound server added config with
    | none => none
    | some (some err, server, added) => some (some err, server, added)
    | some (none, server, added) => addHandlers mgr inbound rest server added

/-- What `initInstanceWithConfig` returned and did: the returned pair, the
server afterwards and the handlers added to the inbound and to the outbound
manager. -/
structure Inited where
  done : Bool
  err : Option GoError
  server : Instance
  inbound : List Nat
  outbound : List Nat

/-- The end of `initInstanceWithConfig`, from `addInboundHandlers` on. -/
def initHandlers (mgr : HandlerManagers) (config : Config) (server : Instance) :
    Option Inited :=
  match addHandlers mgr true config.Inbound server [] with
  | none => none
  | some (some err, server, inb) =>
    some { done := true, err := some err, server := server, inbound := inb, outbound := [] }
  | some (none, server, inb) =>
    match addHandlers mgr false config.Outbound server [] with
    | none => none
    | some (some err, server, outb) =>
      some { done := true, err := some err, server := server, inbound := inb,
             outbound := outb }
    | some (none, server, outb) =>
      some { done := false, err := none, server := server, inbound := inb, outbound := outb }

/-- The function `initInstanceWithConfig`; `none` is a panic.  The value stored
in the context of the server and the warning about transport settings are left
out; of `internet.InitSystemDialer` the type assertion of the DNS client is
kept. -/
def initInstanceWithConfig (mgr : HandlerManagers) (config : Config) (server : Instance) :
    Option Inited :=
  match config.TransportApply with
  | some err =>
    some { done := true, err := some err, server := server, inbound := [], outbound := [] }
  | none =>
    match appLoop config.App server with
    | none => none
    | some (some err, server) =>
      some { done := true, err := some err, server := server, inbound := [], outbound := [] }
    | some (none, server) =>
      match essentialLoop essentialFeatures server with
      | none => none
      | some (some err, server) =>
        some { done := true, err := some err, server := server, inbound := [],
               outbound := [] }
      | some (none, server) =>
        match server.GetFeature dnsClientType with
        | none => none
        | some client =>
          if !client.AssignableTo (RType.named "dns.Client") then none
          else if !server.featureResolutions.isEmpty then
            some { done := true,
                   err := some (GoError.newError "not all dependency are resolved."),
                   server := server, inbound := [], outbound := [] }
          else initHandlers mgr config server

/-- The instance `&Instance{ctx: context.Background()}` that `New` makes. -/
def newInstance : Instance :=
  { features := [], featureResolutions := [], running := false }

/-- The function `New`: the instance, nil when the initialisation is done with
an error, and the error; `none` is a panic. -/
def New (mgr : HandlerManagers) (config : Config) : Option (Option Instance × Option GoError) :=
  match initInstanceWithConfig mgr config newInstance with
  | none => none
  | some r => if r.done then some (none, r.err) else some (some r.server, none)

/-! ## app/dispatcher/default.go: shouldOverride -/

/-- A `SniffResult`: its `Protocol()` and `Domain()`, and its
`ProtocolForDomainResult()` when it implements `SnifferResultComposite`. -/
structure SniffResult where
  Protocol : String
  Domain : String
  ProtocolForDomainResult : Option String
deriving DecidableEq, Repr

/-- The struct `session.SniffingRequest`. -/
structure SniffingRequest where
  ExcludeForDomain : List String
  OverrideDestinationForProtocol : List String
  Enabled : Bool
  MetadataOnly : Bool
deriving DecidableEq, Repr

/-- Functions called by the dispatcher whose code is outside the embedded files. -/
structure Lib where
  /-- the function `strings.ToLower` -/
  ToLower : String → String
  /-- the function `net.ParseAddress` -/
  ParseAddress : String → Address
  /-- the method `net.Destination.IsValid` -/
  IsValid : Destination → Bool
  /-- the function `CompositeResult` of the sniffer file -/
  CompositeResult : Option SniffResult → Option SniffResult → SniffResult
  /-- the constant `buf.Size` -/
  Size : Nat

/-- The function `strings.HasPrefix`. -/
def HasPrefix (s p : String) : Bool := p.data.isPrefixOf s.data

/-- The parameter type of the callback in `shouldOverride`. -/
def fakeDNSEngineType : RType := RType.named "dns.FakeDNSEngine"

/-- The callback `func(fdns dns.FakeDNSEngine) { fakeDNSEngine = fdns }`; it
returns nothing. -/
def fakeDNSCallback : Callback :=
  { ident := 0, In := [fakeDNSEngineType], Call := fun _ => none }

/-- The protocol string of `shouldOverride`. -/
def protocolString (result : SniffResult) : String :=
  match result.ProtocolForDomainResult with
  | some p => p
  | none => result.Protocol

/-- The fakedns condition inside the second loop of `shouldOverride`. -/
def fakeDNSHit (fakeDNSEngine : Option Feature) (proto p : String)
    (destination : Destination) : Bool :=
  match fakeDNSEngine with
  | none => false
  | some e =>
    proto != "bittorrent" && p == "fakedns" && destination.Address.IsIP &&
      (match destination.Address.IP with
       | some ip => e.GetFakeIPRange.Contains ip
       | none => false)

/-- The second loop of `shouldOverride`, over `OverrideDestinationForProtocol`. -/
def overrideLoop (fakeDNSEngine : Option Feature) (proto : String)
    (destination : Destination) : List String → Bool
  | [] => false
  | p :: ps =>
    if HasPrefix proto p then true
    else if fakeDNSHit fakeDNSEngine proto p destination then true
    else overrideLoop fakeDNSEngine proto destination ps

/-- The first loop of `shouldOverride`, over `ExcludeForDomain`: true when it
returns false from the function. -/
def excludeLoop (lib : Lib) (domain : String) : List String → Bool
  | [] => false
  | d :: ds => if lib.ToLower domain = d then true else excludeLoop lib domain ds

/-- The function `shouldOverride`, on the instance found in the context: the
returned boolean and the instance afterwards; `none` is a panic. -/
def shouldOverride (lib : Lib) (s : Instance) (result : SniffResult)
    (request : SniffingRequest) (destination : Destination) : Option (Bool × Instance) :=
  let domain := result.Domain
  if excludeLoop lib domain request.ExcludeForDomain then some (false, s)
  else
    match s.RequireFeatures fakeDNSCallback with
    | none => none
    | some rq =>
      let fakeDNSEngine : Option Feature := rq.called.bind List.head?
      some (overrideLoop fakeDNSEngine (protocolString result) destination
              request.OverrideDestinationForProtocol, rq.inst)

/-! ## app/dispatcher/default.go: cachedReader -/

/-- The bytes of a `buf.Buffer`. -/
abbrev Buffer := List Nat

/-- A `buf.MultiBuffer`: a sequence of buffers; nil is `[]`. -/
abbrev MultiBuffer := List Buffer

/-- The byte stream a multi-buffer stands for. -/
def bytesOf (mb : MultiBuffer) : List Nat := mb.flatten

/-- Modelled from the spec: `MultiBuffer.IsEmpty` of the buffer package, "empty
iff every contained Buffer has zero length". -/
def IsEmpty (mb : MultiBuffer) : Bool := mb.all (fun b => b.isEmpty)

/-- Modelled from the spec: `buf.MergeMulti` of the buffer package, the append
of the second sequence of buffers to the first. -/
def MergeMulti (dest src : MultiBuffer) : MultiBuffer := dest ++ src

/-- Modelled from the spec: `MultiBuffer.Copy` of the buffer package, which
"copies the first cap(out) bytes of the cache into out without draining the
cache"; the result is the bytes written to a slice of `n` bytes. -/
def Copy (mb : MultiBuffer) (n : Nat) : List Nat := (bytesOf mb).take n

/-- The `pipe.Reader` under a cached reader, described by the results its
successive reads return; each is the pair `(mb, err)` of one read call. -/
structure PipeReader where
  reads : List (MultiBuffer × Option GoError)

/-- Modelled from the spec: a read of the pipe (`ReadMultiBuffer` or
`ReadMultiBufferTimeout`) returns the next result of the pipe; when none is
left it returns no data and `io.EOF`. -/
def PipeReader.ReadMultiBuffer (p : PipeReader) :
    (MultiBuffer × Option GoError) × PipeReader :=
  match p.reads with
  | [] => (([], some GoError.EOF), p)
  | x :: rest => (x, { reads := rest })

/-- The byte stream the pipe still produces. -/
def PipeReader.stream (p : PipeReader) : List Nat :=
  (p.reads.map (fun x => bytesOf x.1)).flatten

/-- The struct `cachedReader` (without its mutex). -/
structure cachedReader where
  reader : PipeReader
  cache : MultiBuffer

/-- The method `cachedReader.Cache(b)`: the reader afterwards and the content of
`b` afterwards. -/
def cachedReader.Cache (lib : Lib) (r : cachedReader) : cachedReader × Buffer :=
  let (res, reader) := r.reader.ReadMultiBuffer
  let mb := res.1
  let cache := if !IsEmpty mb then MergeMulti r.cache mb else r.cache
  ({ reader := reader, cache := cache }, Copy cache lib.Size)

/-- The method `cachedReader.readInternal`; a nil cache is `[]`, which
`IsEmpty` holds of. -/
def cachedReader.readInternal (r : cachedReader) : Option MultiBuffer × cachedReader :=
  if !IsEmpty r.cache then (some r.cache, { r with cache := [] })
  else (none, r)

/-- The method `cachedReader.ReadMultiBuffer`. -/
def cachedReader.ReadMultiBuffer (r : cachedReader) :
    (MultiBuffer × Option GoError) × cachedReader :=
  match r.readInternal with
  | (some mb, r1) => ((mb, none), r1)
  | (none, r1) =>
    let (res, reader) := r1.reader.ReadMultiBuffer
    (res, { r1 with reader := reader })

/-- The method `cachedReader.ReadMultiBufferTimeout`. -/
def cachedReader.ReadMultiBufferTimeout (r : cachedReader) :
    (MultiBuffer × Option GoError) × cachedReader :=
  match r.readInternal with
  | (some mb, r1) => ((mb, none), r1)
  | (none, r1) =>
    let (res, reader) := r1.reader.ReadMultiBuffer
    (res, { r1 with reader := reader })

/-- A call made on a cached reader. -/
inductive ReaderCall
  | Cache
  | ReadMultiBuffer
  | ReadMultiBufferTimeout
deriving DecidableEq, Repr

/-- A sequential run of calls on a cached reader: the multi-buffers the read
calls returned, in order, and the reader afterwards. -/
def runCalls (lib : Lib) : List ReaderCall → cachedReader → List MultiBuffer × cachedReader
  | [], r => ([], r)
  | ReaderCall.Cache :: cs, r => runCalls lib cs (r.Cache lib).1
  | ReaderCall.ReadMultiBuffer :: cs, r =>
    let (res, r1) := r.ReadMultiBuffer
    let (out, r2) := runCalls lib cs r1
    (res.1 :: out, r2)
  | ReaderCall.ReadMultiBufferTimeout :: cs, r =>
    let (res, r1) := r.ReadMultiBufferTimeout
    let (out, r2) := runCalls lib cs r1
    (res.1 :: out, r2)

/-! ## app/dispatcher/default.go: sniffer -/

/-- The sniffer object `NewSniffer(ctx)` returns: what its `SniffMetadata`
returns, and what its `Sniff` returns on a payload given the payloads of its
earlier calls. -/
structure Sniffer where
  SniffMetadata : Option SniffResult × Option GoError
  Sniff : List (List Nat) → List Nat → Option SniffResult × Option GoError

/-- What the payload loop of `sniffer` has done so far. -/
structure SniffState where
  /-- the cached reader; `none` is a nil pointer -/
  cReader : Option cachedReader
  /-- the payloads handed to `Sniff`, in order -/
  sniffed : List (List Nat)
  /-- the number of calls of `cachedReader.Cache` -/
  cacheCalls : Nat

/-- The loop of the function literal in `sniffer`.  `done k` is the state of
`ctx.Done()` at the select of the iteration entered with `totalAttempt = k`:
`some e` when the context is done, `e` being `ctx.Err()`.  The payload buffer
is its bytes: it is empty when it has none and full when it has `buf.Size` of
them.  `fuel` bounds the number of iterations; `none` is a nil-pointer panic or
the end of the fuel. -/
def contentLoop (lib : Lib) (done : Nat → Option GoError) (sn : Sniffer) :
    Nat → Nat → SniffState → Option ((Option SniffResult × Option GoError) × SniffState)
  | 0, _, _ => none
  | fuel + 1, totalAttempt, st =>
    match done totalAttempt with
    | some e => some ((none, some e), st)
    | none =>
      let totalAttempt := totalAttempt + 1
      if totalAttempt > 2 then some ((none, some GoError.errSniffingTimeout), st)
      else
        match st.cReader with
        | none => none
        | some cReader =>
          let (cReader, payload) := cReader.Cache lib
          let st1 : SniffState :=
            { cReader := some cReader, sniffed := st.sniffed, cacheCalls := st.cacheCalls + 1 }
          if payload ≠ [] then
            let (result, err) := sn.Sniff st.sniffed payload
            let st2 : SniffState := { st1 with sniffed := st.sniffed ++ [payload] }
            if err ≠ some GoError.ErrNoClue then some ((result, err), st2)
            else if payload.length = lib.Size then
              some ((none, some GoError.errUnknownContent), st2)
            else contentLoop lib done sn fuel totalAttempt st2
          else if payload.length = lib.Size then
            some ((none, some GoError.errUnknownContent), st1)
          else contentLoop lib done sn fuel totalAttempt st1

/-- What a call of `sniffer` returned and did. -/
structure SniffRun where
  result : Option SniffResult
  err : Option GoError
  state : SniffState

/-- The function `sniffer`; the loop is given fuel 3, which it never uses up. -/
def sniffer (lib : Lib) (done : Nat → Option GoError) (sn : Sniffer)
    (cReader : Option cachedReader) (metadataOnly : Bool) : Option SniffRun :=
  let st0 : SniffState := { cReader := cReader, sniffed := [], cacheCalls := 0 }
  let (metaresult, metadataErr) := sn.SniffMetadata
  if metadataOnly then some { result := metaresult, err := metadataErr, state := st0 }
  else
    match contentLoop lib done sn 3 0 st0 with
    | none => none
    | some ((contentResult, contentErr), st) =>
      if contentErr ≠ none ∧ metadataErr = none then
        some { result := metaresult, err := none, state := st }
      else if contentErr = none ∧ metadataErr = none then
        some { result := some (lib.CompositeResult metaresult contentResult),
               err := none, state := st }
      else some { result := contentResult, err := contentErr, state := st }

/-! ## app/dispatcher/default.go: links and getLink -/

/-- The two pipes `getLink` creates. -/
inductive PipeId
  | uplink
  | downlink
deriving DecidableEq, Repr

/-- A `stats.Counter`. -/
structure Counter where
  ident : Nat
deriving DecidableEq, Repr

/-- A `buf.Writer` of a link: the writer of a pipe or a `SizeStatWriter`. -/
inductive Writer
  | pipe (id : PipeId)
  | SizeStatWriter (Counter : Counter) (Writer : Writer)
deriving DecidableEq, Repr

/-- A `buf.Reader` of a link: the reader of a pipe or a `cachedReader` on it. -/
inductive Reader
  | pipe (id : PipeId)
  | cachedReader (id : PipeId)
deriving DecidableEq, Repr

/-- The struct `transport.Link`. -/
structure Link where
  Reader : Reader
  Writer : Writer
deriving DecidableEq, Repr

/-- The struct `protocol.MemoryUser`, its fields used here. -/
structure MemoryUser where
  Email : String
  Level : Nat
deriving DecidableEq, Repr

/-- The struct `session.Inbound`, its fields used here. -/
structure Inbound where
  Tag : String
  User : Option MemoryUser
deriving DecidableEq, Repr

/-- The struct `session.Outbound`, its field used here. -/
structure Outbound where
  Target : Destination
deriving DecidableEq, Repr

/-- The struct `session.Content`, its fields used here. -/
structure Content where
  Protocol : String
  SniffingRequest : SniffingRequest
  SkipRoutePick : Bool
deriving DecidableEq, Repr

/-- The struct `log.AccessMessage`: its `Detour` and, as one value, the rest. -/
structure AccessMessage where
  Detour : String
  rest : String
deriving DecidableEq, Repr

/-- What the dispatcher reads from and stores in a `context.Context`. -/
structure Context where
  /-- the instance `core.MustFromContext(ctx)` -/
  server : Instance
  /-- the value `session.InboundFromContext(ctx)` -/
  inbound : Option Inbound
  /-- the value `session.OutboundFromContext(ctx)` -/
  outbound : Option Outbound
  /-- the value `session.ContentFromContext(ctx)` -/
  content : Option Content
  /-- the value `log.AccessMessageFromContext(ctx)` -/
  accessMessage : Option AccessMessage
  /-- the state of `ctx.Done()` at the successive selects of `sniffer` -/
  done : Nat → Option GoError

/-- The flags `policy.Stats` of a policy. -/
structure PolicyStats where
  UserUplink : Bool
  UserDownlink : Bool
deriving DecidableEq, Repr

/-- A `policy.Session`, its field used here. -/
structure Policy where
  Stats : PolicyStats
deriving DecidableEq, Repr

/-- A `policy.Manager`. -/
structure PolicyManager where
  ForLevel : Nat → Policy

/-- A `stats.Manager` as `stats.GetOrRegisterCounter` sees it: the names asked
of it so far, oldest first, and its answer to a name given the earlier ones
(`none` is a nil counter). -/
structure StatsManager where
  requested : List String
  respond : List String → String → Option Counter

/-- The function `stats.GetOrRegisterCounter(m, name)`, its first result. -/
def GetOrRegisterCounter (m : StatsManager) (name : String) : Option Counter × StatsManager :=
  (m.respond m.requested name, { m with requested := m.requested ++ [name] })

/-- An `outbound.Handler`. -/
structure Handler where
  ident : Nat
  Tag : String
deriving DecidableEq, Repr

/-- An `outbound.Manager`. -/
structure OutboundManager where
  GetHandler : String → Option Handler
  GetDefaultHandler : Option Handler

/-- A `routing.Route`, its outbound tag. -/
structure Route where
  OutboundTag : String
deriving DecidableEq, Repr

/-- A `routing.Router`: what `PickRoute` returns on a routing context. -/
structure Router where
  PickRoute : Context → Except GoError Route

/-- The struct `DefaultDispatcher`; a nil router is `none`. -/
structure DefaultDispatcher where
  ohm : OutboundManager
  router : Option Router
  policy : PolicyManager
  stats : StatsManager

/-- The method `DefaultDispatcher.getLink`: the inbound link, the outbound link
and the stats manager afterwards.  The two pipes are new ones, whatever the pipe
options of the context. -/
def DefaultDispatcher.getLink (d : DefaultDispatcher) (ctx : Context) :
    Link × Link × StatsManager :=
  let inboundLink : Link := { Reader := Reader.pipe PipeId.downlink, Writer := Writer.pipe PipeId.uplink }
  let outboundLink : Link := { Reader := Reader.pipe PipeId.uplink, Writer := Writer.pipe PipeId.downlink }
  let user : Option MemoryUser :=
    match ctx.inbound with
    | some sessionInbound => sessionInbound.User
    | none => none
  match user with
  | none => (inboundLink, outboundLink, d.stats)
  | some user =>
    if user.Email.length > 0 then
      let p := d.policy.ForLevel user.Level
      let (inboundLink, stats) :=
        if p.Stats.UserUplink then
          let name := "user>>>" ++ user.Email ++ ">>>traffic>>>uplink"
          match GetOrRegisterCounter d.stats name with
          | (some c, stats) =>
            ({ inboundLink with Writer := Writer.SizeStatWriter c inboundLink.Writer }, stats)
          | (none, stats) => (inboundLink, stats)
        else (inboundLink, d.stats)
      let (outboundLink, stats) :=
        if p.Stats.UserDownlink then
          let name := "user>>>" ++ user.Email ++ ">>>traffic>>>downlink"
          match GetOrRegisterCounter stats name with
          | (some c, stats) =>
            ({ outboundLink with Writer := Writer.SizeStatWriter c outboundLink.Writer }, stats)
          | (none, stats) => (outboundLink, stats)
        else (outboundLink, stats)
      (inboundLink, outboundLink, stats)
    else (inboundLink, outboundLink, d.stats)

/-! ## app/dispatcher/default.go: routedDispatch and Dispatch -/

/-- The calls `routedDispatch` makes on its collaborators, in order. -/
inductive Event
  | PickRoute
  | GetHandler (tag : String)
  | GetDefaultHandler
  | Close (w : Writer)
  | Interrupt (r : Reader)
  | Record (m : AccessMessage)
  | HandlerDispatch (h : Handler) (link : Link)
deriving DecidableEq, Repr

/-- The inbound tag `routing_session.AsRoutingContext(ctx).GetInboundTag()`: the
tag of the inbound session, `""` without one. -/
def GetInboundTag (ctx : Context) : String :=
  match ctx.inbound with
  | some i => i.Tag
  | none => ""

/-- What a call of `routedDispatch` did: the value of `handler` and of
`isPickRoute` when it ended, the access message of the context afterwards, and
its calls. -/
structure Routed where
  handler : Option Handler
  isPickRoute : Bool
  accessMessage : Option AccessMessage
  events : List Event

/-- The variable `skipRoutePick` of `routedDispatch`. -/
def skipRoutePick (ctx : Context) : Bool :=
  match ctx.content with
  | some content => content.SkipRoutePick
  | none => false

/-- The first part of `routedDispatch`, up to the end of the router block: the
value of `handler`, of `isPickRoute`, and the calls made. -/
def routePick (d : DefaultDispatcher) (ctx : Context) : Option Handler × Bool × List Event :=
  match d.router with
  | none => (none, false, [])
  | some router =>
    if !skipRoutePick ctx then
      match router.PickRoute ctx with
      | Except.ok route =>
        let outTag := route.OutboundTag
        match d.ohm.GetHandler outTag with
        | some h => (some h, true, [Event.PickRoute, Event.GetHandler outTag])
        | none => (none, true, [Event.PickRoute, Event.GetHandler outTag])
      | Except.error _ => (none, false, [Event.PickRoute])
    else (none, false, [])

/-- The detour `routedDispatch` writes for a handler tag that is not empty. -/
def detourOf (isPickRoute : Bool) (inTag tag : String) : String :=
  if isPickRoute then
    if inTag ≠ "" then inTag ++ " -> " ++ tag else tag
  else
    if inTag ≠ "" then inTag ++ " >> " ++ tag else tag

/-- The method `DefaultDispatcher.routedDispatch`. -/
def DefaultDispatcher.routedDispatch (d : DefaultDispatcher) (ctx : Context) (link : Link)
    (_destination : Destination) : Routed :=
  let inTag := GetInboundTag ctx
  let (handler, isPickRoute, ev) := routePick d ctx
  let (handler, ev) :=
    match handler with
    | some h => (some h, ev)
    | none => (d.ohm.GetDefaultHandler, ev ++ [Event.GetDefaultHandler])
  match handler with
  | none =>
    { handler := none, isPickRoute := isPickRoute, accessMessage := ctx.accessMessage,
      events := ev ++ [Event.Close link.Writer, Event.Interrupt link.Reader] }
  | some handler =>
    match ctx.accessMessage with
    | some accessMessage =>
      let accessMessage :=
        if handler.Tag ≠ "" then
          { accessMessage with Detour := detourOf isPickRoute inTag handler.Tag }
        else accessMessage
      { handler := some handler, isPickRoute := isPickRoute,
        accessMessage := some accessMessage,
        events := ev ++ [Event.Record accessMessage, Event.HandlerDispatch handler link] }
    | none =>
      { handler := some handler, isPickRoute := isPickRoute, accessMessage := none,
        events := ev ++ [Event.HandlerDispatch handler link] }

/-- A call of `routedDispatch` made by `Dispatch`: its arguments and what it did. -/
structure RoutedCall where
  ctx : Context
  link : Link
  destination : Destination
  routed : Routed

/-- What a call of `Dispatch` did, its goroutine run to its end: the returned
link, the `session.Outbound` and the `session.Content` of the context at the
end, the stats manager afterwards, the run of `sniffer` if any, and the calls
of `routedDispatch`. -/
structure Dispatched where
  inbound : Link
  ob : Outbound
  content : Content
  stats : StatsManager
  sniff : Option SniffRun
  calls : List RoutedCall

/-- The tail shared by the branches of `Dispatch`: the call of `routedDispatch`
on the context with its outbound record and content as they are now. -/
def dispatchTail (d : DefaultDispatcher) (ctx : Context) (inbound outbound : Link)
    (stats : StatsManager) (ob : Outbound) (content : Content) (server : Instance)
    (sniff : Option SniffRun) (destination : Destination) : Dispatched :=
  let ctx : Context :=
    { ctx with outbound := some ob, content := some content, server := server }
  { inbound := inbound, ob := ob, content := content, stats := stats, sniff := sniff,
    calls := [{ ctx := ctx, link := outbound, destination := destination,
                routed := d.routedDispatch ctx outbound destination }] }

/-- The statements of `Dispatch` after a call of `sniffer`, the same in both
sniffing branches: on a nil error `content.Protocol` is set and, when
`shouldOverride` holds, the address of the destination and the target of the
outbound record are replaced; then `routedDispatch` is called.  `none` is a
panic (a nil result without error, or a panic of `shouldOverride`). -/
def afterSniff (lib : Lib) (d : DefaultDispatcher) (ctx : Context) (inbound outbound : Link)
    (stats : StatsManager) (ob : Outbound) (content : Content) (run : SniffRun)
    (destination : Destination) : Option Dispatched :=
  if run.err = none then
    match run.result with
    | none => none
    | some result =>
      let content := { content with Protocol := result.Protocol }
      match shouldOverride lib ctx.server result content.SniffingRequest destination with
      | none => none
      | some (true, server) =>
        let domain := result.Domain
        let destination := { destination with Address := lib.ParseAddress domain }
        let ob := { ob with Target := destination }
        some (dispatchTail d ctx inbound outbound stats ob content server (some run) destination)
      | some (false, server) =>
        some (dispatchTail d ctx inbound outbound stats ob content server (some run) destination)
  else
    some (dispatchTail d ctx inbound outbound stats ob content ctx.server (some run) destination)

/-- The zero value `new(session.Content)`. -/
def newContent : Content :=
  { Protocol := "",
    SniffingRequest :=
      { ExcludeForDomain := [], OverrideDestinationForProtocol := [],
        Enabled := false, MetadataOnly := false },
    SkipRoutePick := false }

/-- The content record `Dispatch` works on: the one of the context, or a new one
when the context has none. -/
def contentOf (ctx : Context) : Content :=
  match ctx.content with
  | some c => c
  | none => newContent

/-- The method `DefaultDispatcher.Dispatch`, for the sniffer `sn` that
`NewSniffer(ctx)` returns and the reads `uplink` of the uplink pipe; `none` is a
panic. -/
def DefaultDispatcher.Dispatch (lib : Lib) (sn : Sniffer) (uplink : PipeReader)
    (d : DefaultDispatcher) (ctx : Context) (destination : Destination) : Option Dispatched :=
  if !lib.IsValid destination then none
  else
    let ob : Outbound := { Target := destination }
    let ctx : Context := { ctx with outbound := some ob }
    let (inbound, outbound, stats) := d.getLink ctx
    let content : Content := contentOf ctx
    let ctx : Context := { ctx with content := some content }
    let sniffingRequest := content.SniffingRequest
    if !sniffingRequest.Enabled then
      some (dispatchTail d ctx inbound outbound stats ob content ctx.server none destination)
    else if destination.Network ≠ Network.TCP then
      match sniffer lib ctx.done sn none true with
      | none => none
      | some run => afterSniff lib d ctx inbound outbound stats ob content run destination
    else
      let cReader : cachedReader := { reader := uplink, cache := [] }
      let outbound : Link := { outbound with Reader := Reader.cachedReader PipeId.uplink }
      match sniffer lib ctx.done sn (some cReader) sniffingRequest.MetadataOnly with
      | none => none
      | some run => afterSniff lib d ctx inbound outbound stats ob content run destination

/-! ## Observations on runs -/

/-- Whether an event is a call of a handler's `Dispatch`. -/
def Event.isHandlerDispatch : Event → Bool
  | Event.HandlerDispatch _ _ => true
  | _ => false

/-- Whether an event acts on the link or the access log: every event but the
queries of the router and of the handler registry. -/
def Event.isEffect : Event → Bool
  | Event.PickRoute => false
  | Event.GetHandler _ => false
  | Event.GetDefaultHandler => false
  | _ => true

/-- The call of `sniffer` that `Dispatch` makes when sniffing is enabled:
metadata only and without a reader when the network is not TCP, and otherwise
in the requested mode with a new cached reader on the uplink pipe. -/
def dispatchSniffer (lib : Lib) (sn : Sniffer) (uplink : PipeReader) (ctx : Context)
    (request : SniffingRequest) (destination : Destination) : Option SniffRun :=
  if destination.Network ≠ Network.TCP then sniffer lib ctx.done sn none true
  else sniffer lib ctx.done sn (some { reader := uplink, cache := [] }) request.MetadataOnly

/-- The sniffing request `Dispatch` reads from the context. -/
def requestOf (ctx : Context) : SniffingRequest := (contentOf ctx).SniffingRequest

/-- Whether every one of the feature types `deps` is registered among
`allFeatures`. -/
def depsRegistered (allFeatures : List Feature) (deps : List RType) : Bool :=
  (resolveDeps allFeatures deps).isSome

/-- Whether a feature registered under a pointer type `*T` is assignable to
`T`, as a feature is whose `Type()` names an interface it implements. -/
def Feature.wellTyped (f : Feature) : Bool :=
  match f.typeOfType with
  | RType.ptr t => f.AssignableTo t
  | RType.named _ => true

/-- Whether a resolution is one that `RequireFeatures` makes: its dependencies
are the pointer types of the parameter types of its callback. -/
def resolution.made (r : resolution) : Bool :=
  decide (r.deps = r.callback.In.map PtrTo)

/-- A call made on an instance by its user. -/
inductive InstanceCall
  | RequireFeatures (callback : Callback)
  | AddFeature (feature : Feature)

/-- A sequential run of `RequireFeatures` and `AddFeature` calls on an instance,
the caller going on whatever error a call returns: the instance afterwards and
the calls of callbacks made, in order; `none` is a panic. -/
def runInstanceCalls : List InstanceCall → Instance → Option (Instance × List Fired)
  | [], s => some (s, [])
  | InstanceCall.RequireFeatures cb :: cs, s =>
    match s.RequireFeatures cb with
    | none => none
    | some rq =>
      match runInstanceCalls cs rq.inst with
      | none => none
      | some (s1, fired) =>
        some (s1,
          (match rq.called with
           | some input => [{ callback := cb, input := input }]
           | none => []) ++ fired)
  | InstanceCall.AddFeature f :: cs, s =>
    match s.AddFeature f with
    | none => none
    | some out =>
      match runInstanceCalls cs out.inst with
      | none => none
      | some (s1, fired) => some (s1, out.fired ++ fired)

/-- The callbacks passed to `RequireFeatures` in a sequence of calls. -/
def requiredCallbacks : List InstanceCall → List Callback
  | [] => []
  | InstanceCall.RequireFeatures cb :: cs => cb :: requiredCallbacks cs
  | InstanceCall.AddFeature _ :: cs => requiredCallbacks cs

/-- The features passed to `AddFeature` in a sequence of calls. -/
def addedFeatures : List InstanceCall → List Feature
  | [] => []
  | InstanceCall.RequireFeatures _ :: cs => addedFeatures cs
  | InstanceCall.AddFeature f :: cs => f :: addedFeatures cs

/-! ## Concrete inputs -/

/-- Lower-casing of the ASCII letters, on which `strings.ToLower` agrees. -/
def asciiLower (s : String) : String := String.mk (s.data.map Char.toLower)

/-- A library for the examples: ASCII lower-casing, every address parsed as a
domain name, a destination valid when its network is known, a composite result
that takes its protocol from the second result and its domain from the first,
and buffers of 8 bytes. -/
def exampleLib : Lib :=
  { ToLower := asciiLower
    ParseAddress := fun s => Address.domain s
    IsValid := fun d => decide (d.Network ≠ Network.Unknown)
    CompositeResult := fun a b =>
      { Protocol := (b.map (fun r => r.Protocol)).getD ""
        Domain := (a.map (fun r => r.Domain)).getD ""
        ProtocolForDomainResult := some ((a.map (fun r => r.Protocol)).getD "") }
    Size := 8 }

/-- A FakeDNS engine feature whose pool is 198.18.0.0/16. -/
def exampleEngine : Feature :=
  { ident := 7
    typeOfType := PtrTo fakeDNSEngineType
    ifaces := [fakeDNSEngineType]
    GetFakeIPRange := { Contains := fun ip => decide (ip.length = 4 ∧ ip.take 2 = [198, 18]) }
    Start := none
    Close := none }

/-- An instance with no feature. -/
def emptyInstance : Instance :=
  { features := [], featureResolutions := [], running := false }

/-- An instance whose only feature is the FakeDNS engine. -/
def engineInstance : Instance :=
  { features := [exampleEngine], featureResolutions := [], running := false }

/-- The handler tagged `proxy`. -/
def proxyHandler : Handler := { ident := 1, Tag := "proxy" }

/-- The handler tagged `direct`. -/
def directHandler : Handler := { ident := 2, Tag := "direct" }

/-- A dispatcher whose router sends everything to `proxy`, whose registry holds
`proxy` and the default handler `direct`, whose policy counts both directions
and whose stats manager registers every counter it is asked for. -/
def exampleDispatcher : DefaultDispatcher :=
  { ohm :=
      { GetHandler := fun tag => if tag = "proxy" then some proxyHandler else none
        GetDefaultHandler := some directHandler }
    router := some { PickRoute := fun _ => Except.ok { OutboundTag := "proxy" } }
    policy := { ForLevel := fun _ => { Stats := { UserUplink := true, UserDownlink := true } } }
    stats := { requested := [], respond := fun earlier _ => some { ident := earlier.length } } }

/-- An access message with an empty detour. -/
def exampleMessage : AccessMessage := { Detour := "", rest := "accepted" }

/-- A context of the inbound `socks-in` with the user `a@b`, sniffing enabled
with override for `tls`, and an access message; the context is never done. -/
def exampleContext : Context :=
  { server := emptyInstance
    inbound := some { Tag := "socks-in", User := some { Email := "a@b", Level := 0 } }
    outbound := none
    content := some
      { Protocol := ""
        SniffingRequest :=
          { ExcludeForDomain := [], OverrideDestinationForProtocol := ["tls"],
            Enabled := true, MetadataOnly := false }
        SkipRoutePick := false }
    accessMessage := some exampleMessage
    done := fun _ => none }

/-- The outbound link of a dispatch, before sniffing. -/
def exampleLink : Link :=
  { Reader := Reader.pipe PipeId.uplink, Writer := Writer.pipe PipeId.downlink }

/-- The destination 1.2.3.4:443 on TCP. -/
def exampleDestination : Destination :=
  { Address := Address.ip [1, 2, 3, 4], Port := 443, Network := Network.TCP }

/-- The result of a TLS classifier that found the name `example.org`. -/
def tlsResult : SniffResult :=
  { Protocol := "tls", Domain := "example.org", ProtocolForDomainResult := none }

/-- A sniffer whose metadata classifiers fail and whose payload classifiers
find `tlsResult` in every payload. -/
def exampleSniffer : Sniffer :=
  { SniffMetadata := (none, some (GoError.other 1))
    Sniff := fun _ _ => (some tlsResult, none) }

/-- An uplink pipe whose first read returns three bytes. -/
def examplePipe : PipeReader := { reads := [([[22, 3, 1]], none)] }

/-- The run of `sniffer` on `examplePipe` with `exampleSniffer`. -/
def exampleRun : SniffRun :=
  { result := some tlsResult
    err := none
    state :=
      { cReader := some { reader := { reads := [] }, cache := [[22, 3, 1]] }
        sniffed := [[22, 3, 1]]
        cacheCalls := 1 } }

/-- The empty instance after `shouldOverride` queued its callback. -/
def queuedInstance : Instance :=
  { features := []
    featureResolutions := [{ deps := [PtrTo fakeDNSEngineType], callback := fakeDNSCallback }]
    running := false }

/-- A dispatcher without router and without any outbound handler. -/
def bareDispatcher : DefaultDispatcher :=
  { ohm := { GetHandler := fun _ => none, GetDefaultHandler := none }
    router := none
    policy := { ForLevel := fun _ => { Stats := { UserUplink := false, UserDownlink := false } } }
    stats := { requested := [], respond := fun _ _ => none } }

/-- A context without inbound, content or access message. -/
def bareContext : Context :=
  { server := emptyInstance
    inbound := none
    outbound := none
    content := none
    accessMessage := none
    done := fun _ => none }

/-- A sniffer whose metadata classifiers and payload classifiers both find
`tlsResult`. -/
def bothSniffer : Sniffer :=
  { SniffMetadata := (some tlsResult, none)
    Sniff := fun _ _ => (some tlsResult, none) }

/-- A sniffer whose metadata classifiers fail and whose payload classifiers
never have a clue. -/
def cluelessSniffer : Sniffer :=
  { SniffMetadata := (none, some (GoError.other 1))
    Sniff := fun _ _ => (none, some GoError.ErrNoClue) }

/-- A feature of the given identifier and type name whose `Start` and `Close`
return the given errors; it implements the interface of that name. -/
def plainFeature (ident : Nat) (name : String) (start close : Option GoError) : Feature :=
  { ident := ident
    typeOfType := PtrTo (RType.named name)
    ifaces := [RType.named name]
    GetFakeIPRange := { Contains := fun _ => false }
    Start := start
    Close := close }

/-- An instance with three features, the second of which fails to start and to
close. -/
def threeFeatures : Instance :=
  { features :=
      [plainFeature 1 "dns.Client" none none,
       plainFeature 2 "routing.Router" (some (GoError.other 5)) (some (GoError.other 6)),
       plainFeature 3 "stats.Manager" none none]
    featureResolutions := []
    running := false }

/-- A callback with one parameter of type `dns.Client` that returns nil. -/
def clientCallback : Callback :=
  { ident := 1, In := [RType.named "dns.Client"], Call := fun _ => none }

/-- A callback with one parameter of type `dns.Client` that returns an error. -/
def failingCallback : Callback :=
  { ident := 2, In := [RType.named "dns.Client"], Call := fun _ => some (GoError.other 9) }

/-- A running instance without features on which `clientCallback` is pending. -/
def runningPending : Instance :=
  { features := []
    featureResolutions := [{ deps := [dnsClientType], callback := clientCallback }]
    running := true }

/-- An instance, not running, without features on which `clientCallback` is
pending. -/
def stoppedPending : Instance :=
  { features := []
    featureResolutions := [{ deps := [dnsClientType], callback := clientCallback }]
    running := false }

/-- A running instance without features and without pending resolutions. -/
def runningInstance : Instance :=
  { features := [], featureResolutions := [], running := true }

/-- Two callbacks for the DNS client are required, the second of which returns
an error; then a DNS client and a router are added. -/
def failingCalls : List InstanceCall :=
  [InstanceCall.RequireFeatures clientCallback,
   InstanceCall.RequireFeatures failingCallback,
   InstanceCall.AddFeature (plainFeature 1 "dns.Client" none none),
   InstanceCall.AddFeature (plainFeature 2 "routing.Router" none none)]

/-- A callback for the DNS client is required, then a DNS client is added. -/
def dependencyCalls : List InstanceCall :=
  [InstanceCall.RequireFeatures clientCallback,
   InstanceCall.AddFeature (plainFeature 1 "dns.Client" none none)]

/-- An app setting whose object is the given feature, its creator leaving the
server as it is. -/
def featureApp (f : Feature) : AppSettings :=
  { GetInstance := none
    CreateObject := fun server => some { feature := some f, err := none, inst := server } }

/-- An app setting whose creator passes the given callback to
`core.RequireFeatures`, as the creator of the dispatcher does, and whose object
is not a feature. -/
def requiringApp (cb : Callback) : AppSettings :=
  { GetInstance := none
    CreateObject := fun server =>
      (server.RequireFeatures cb).map
        (fun rq => { feature := none, err := rq.err, inst := rq.inst }) }

/-- Handler managers that accept every handler. -/
def acceptingManagers : HandlerManagers :=
  { AddInbound := fun _ _ => none, AddOutbound := fun _ _ => none }

/-- A configuration whose only app is a router and that has no handler. -/
def routerConfig : Config :=
  { TransportApply := none
    App := [featureApp (plainFeature 1 "routing.Router" none none)]
    Inbound := []
    Outbound := [] }

/-- A callback with one parameter of type `inbound.Manager` that returns nil. -/
def managerCallback : Callback :=
  { ident := 3, In := [RType.named "inbound.Manager"], Call := fun _ => none }

/-- A configuration whose only app requires an inbound manager, which no app
provides. -/
def unresolvedConfig : Config :=
  { TransportApply := none
    App := [requiringApp managerCallback]
    Inbound := []
    Outbound := [] }

/-- An instance, not running, without features on which `clientCallback` and
then `failingCallback` are pending for the DNS client. -/
def failingPending : Instance :=
  { features := []
    featureResolutions :=
      [{ deps := [dnsClientType], callback := clientCallback },
       { deps := [dnsClientType], callback := failingCallback }]
    running := false }

/-- A round of the payload loop of `sniffer` ends without a result: the payload
is empty, so that `Sniff` is not called, or `Sniff`, called on it after the
payloads `sniffed`, returns `common.ErrNoClue`. -/
def roundWithoutResult (sn : Sniffer) (sniffed : List (List Nat)) (payload : List Nat) : Prop :=
  payload = [] ∨ (sn.Sniff sniffed payload).2 = some GoError.ErrNoClue

/-- The payloads handed to `Sniff` after a round on `payload`. -/
def sniffedAfter (sniffed : List (List Nat)) (payload : List Nat) : List (List Nat) :=
  if payload ≠ [] then sniffed ++ [payload] else sniffed

/-- A pipe whose first read returns eight bytes, as many as the buffer of
`exampleLib` holds. -/
def fullPipe : PipeReader := { reads := [([[1, 2, 3, 4, 5, 6, 7, 8]], none)] }

/-- The example context with `example.org` excluded from the override for
`tls`. -/
def excludingContext : Context :=
  { exampleContext with
    content := some
      { Protocol := ""
        SniffingRequest :=
          { ExcludeForDomain := ["example.org"], OverrideDestinationForProtocol := ["tls"],
            Enabled := true, MetadataOnly := false }
        SkipRoutePick := false } }

/-- A dispatcher whose router sends everything to `missing`, a tag under which
the registry holds no handler; its default handler is `direct`. -/
def missingTagDispatcher : DefaultDispatcher :=
  { exampleDispatcher with
    router := some { PickRoute := fun _ => Except.ok { OutboundTag := "missing" } } }

/-- A dispatcher whose router finds no rule; its default handler is `direct`. -/
def noRuleDispatcher : DefaultDispatcher :=
  { exampleDispatcher with
    router := some { PickRoute := fun _ => Except.error (GoError.other 3) } }

/-! ## proxy/vmess/encoding/commands.go -/

/-- The variable `ErrCommandTypeMismatch`. -/
def ErrCommandTypeMismatch : GoError := GoError.newError "Command type mismatch."

/-- The variable `ErrUnknownCommand`. -/
def ErrUnknownCommand : GoError := GoError.newError "Unknown command."

/-- The variable `ErrCommandTooLarge`. -/
def ErrCommandTooLarge : GoError := GoError.newError "Command too large."

/-- The struct `protocol.CommandSwitchAccount`: `Host` is nil or an address,
`Port` and `AlterIds` are 16-bit, `ID` is the 16 bytes of a UUID, `Level` is
32-bit and `ValidMin` is a byte. -/
structure CommandSwitchAccount where
  Host : Option Address
  Port : Nat
  ID : List Nat
  AlterIds : Nat
  Level : Nat
  ValidMin : Nat
deriving DecidableEq, Repr

/-- Whether the fields of a command are in the ranges of their Go types. -/
def CommandSwitchAccount.inRange (cmd : CommandSwitchAccount) : Bool :=
  decide (cmd.Port < 65536) && decide (cmd.ID.length = 16) &&
    decide (cmd.AlterIds < 65536) && decide (cmd.Level < 4294967296) &&
    decide (cmd.ValidMin < 256)

/-- A value passed as `command interface{}` that is not nil: a
`*protocol.CommandSwitchAccount` or a value of another type. -/
inductive Command
  | switchAccount (cmd : CommandSwitchAccount)
  | other
deriving DecidableEq, Repr

/-- The functions of other packages that the command codec calls, on bytes:
`Authenticate` of this package's `auth.go`, `Address.String` followed by the
conversion to bytes, `net.ParseAddress` of the string of some bytes,
`serial.WriteUint16` (the bytes it writes), `net.PortFromBytes`, and
`uuid.ParseBytes` (its first result). -/
structure WireLib where
  Authenticate : List Nat → Nat
  AddressString : Address → List Nat
  ParseAddress : List Nat → Address
  WriteUint16 : Nat → List Nat
  PortFromBytes : List Nat → Nat
  ParseBytes : List Nat → List Nat

/-- The slice expression `data[lo:hi]`, for `lo ≤ hi ≤ len(data)`. -/
def slice (data : List Nat) (lo hi : Nat) : List Nat := (data.drop lo).take (hi - lo)

/-- The function `binary.BigEndian.Uint16` on a slice of two bytes. -/
def BigEndianUint16 (b : List Nat) : Nat := b.getD 0 0 * 256 + b.getD 1 0

/-- The function `binary.BigEndian.Uint32` on a slice of four bytes. -/
def BigEndianUint32 (b : List Nat) : Nat :=
  b.getD 0 0 * 16777216 + b.getD 1 0 * 65536 + b.getD 2 0 * 256 + b.getD 3 0

/-- The method `CommandSwitchAccountFactory.Marshal` on a writer that accepts
every write: the returned error and the content of the writer afterwards. -/
def CommandSwitchAccountFactory.Marshal (wire : WireLib) (command : Command)
    (writer : List Nat) : Option GoError × List Nat :=
  match command with
  | Command.other => (some ErrCommandTypeMismatch, writer)
  | Command.switchAccount cmd =>
    let hostStr : List Nat :=
      match cmd.Host with
      | some h => wire.AddressString h
      | none => []
    let writer := writer ++ [hostStr.length % 256]
    let writer := if hostStr.length > 0 then writer ++ hostStr else writer
    let writer := writer ++ wire.WriteUint16 cmd.Port
    let idBytes := cmd.ID
    let writer := writer ++ idBytes
    let writer := writer ++ wire.WriteUint16 cmd.AlterIds
    let writer := writer ++ [cmd.Level % 256]
    let writer := writer ++ [cmd.ValidMin]
    (none, writer)

/-- The function `MarshalCommand` on a writer that accepts every write: the
returned error and the content of the writer afterwards; a nil `command` is
`none`.  `Authenticate` returns a 32-bit value.  The buffer is the bytes
written to it: a buffer cut at its capacity, which is above 255 bytes, is
refused as too large like the bytes it was cut from. -/
def MarshalCommand (wire : WireLib) (command : Option Command) (writer : List Nat) :
    Option GoError × List Nat :=
  match command with
  | none => (some ErrUnknownCommand, writer)
  | some Command.other => (some ErrUnknownCommand, writer)
  | some (Command.switchAccount cmd) =>
    let cmdID := 1
    match CommandSwitchAccountFactory.Marshal wire (Command.switchAccount cmd) [] with
    | (some err, _) => (some err, writer)
    | (none, buffer) =>
      let auth := wire.Authenticate buffer % 4294967296
      let length := buffer.length + 4
      if length > 255 then (some ErrCommandTooLarge, writer)
      else
        (none,
          writer ++ [cmdID, length % 256, auth / 16777216 % 256, auth / 65536 % 256,
            auth / 256 % 256, auth % 256] ++ buffer)

/-- The method `CommandSwitchAccountFactory.Unmarshal`: the returned pair;
`none` is an index-out-of-range panic. -/
def CommandSwitchAccountFactory.Unmarshal (wire : WireLib) (data : List Nat) :
    Option (Option CommandSwitchAccount × Option GoError) :=
  if data.length = 0 then some (none, some (GoError.newError "insufficient length."))
  else
    match data[0]? with
    | none => none
    | some lenHost =>
      if data.length < lenHost + 1 then
        some (none, some (GoError.newError "insufficient length."))
      else
        let Host : Option Address :=
          if lenHost > 0 then some (wire.ParseAddress (slice data 1 (1 + lenHost))) else none
        let portStart := 1 + lenHost
        if data.length < portStart + 2 then
          some (none, some (GoError.newError "insufficient length."))
        else
          let Port := wire.PortFromBytes (slice data portStart (portStart + 2))
          let idStart := portStart + 2
          if data.length < idStart + 16 then
            some (none, some (GoError.newError "insufficient length."))
          else
            let ID := wire.ParseBytes (slice data idStart (idStart + 16))
            let alterIDStart := idStart + 16
            if data.length < alterIDStart + 2 then
              some (none, some (GoError.newError "insufficient length."))
            else
              let AlterIds := BigEndianUint16 (slice data alterIDStart (alterIDStart + 2))
              let levelStart := alterIDStart + 2
              if data.length < levelStart + 1 then
                some (none, some (GoError.newError "insufficient length."))
              else
                match data[levelStart]? with
                | none => none
                | some Level =>
                  let timeStart := levelStart + 1
                  if data.length < timeStart then
                    some (none, some (GoError.newError "insufficient length."))
                  else
                    match data[timeStart]? with
                    | none => none
                    | some ValidMin =>
                      some (some { Host := Host, Port := Port, ID := ID,
                                   AlterIds := AlterIds, Level := Level,
                                   ValidMin := ValidMin }, none)

/-- The function `UnmarshalCommand`: the returned pair; `none` is a panic. -/
def UnmarshalCommand (wire : WireLib) (cmdID : Nat) (data : List Nat) :
    Option (Option CommandSwitchAccount × Option GoError) :=
  if data.length ≤ 4 then some (none, some (GoError.newError "insufficient length"))
  else
    let expectedAuth := wire.Authenticate (data.drop 4) % 4294967296
    let actualAuth := BigEndianUint32 (slice data 0 4)
    if expectedAuth ≠ actualAuth then some (none, some (GoError.newError "invalid auth"))
    else if cmdID = 1 then CommandSwitchAccountFactory.Unmarshal wire (data.drop 4)
    else some (none, some ErrUnknownCommand)

/-- A codec library for the examples: the checksum is the sum of the bytes, the
string of a domain address is its name, that of an IP address its bytes, every
string parses as a domain name, 16-bit values are two big-endian bytes, and
16 bytes make the UUID of these bytes. -/
def exampleWire : WireLib :=
  { Authenticate := fun b => b.sum
    AddressString := fun a =>
      match a with
      | Address.domain name => name.data.map Char.toNat
      | Address.ip b => b
    ParseAddress := fun b => Address.domain (String.mk (b.map Char.ofNat))
    WriteUint16 := fun v => [v / 256 % 256, v % 256]
    PortFromBytes := BigEndianUint16
    ParseBytes := fun b => b }

/-- A command for the host `a.io` and the port 1234. -/
def exampleCommand : CommandSwitchAccount :=
  { Host := some (Address.domain "a.io")
    Port := 1234
    ID := [1, 2, 3, 4, 5, 6, 7, 8, 9, 10, 11, 12, 13, 14, 15, 16]
    AlterIds := 1024
    Level := 128
    ValidMin := 16 }

/-- A body without host that ends after the level byte: 22 bytes, which lack
the byte of `ValidMin`. -/
def truncatedBody : List Nat :=
  [0, 4, 210, 1, 2, 3, 4, 5, 6, 7, 8, 9, 10, 11, 12, 13, 14, 15, 16, 4, 0, 128]

/-- The bytes of `truncatedBody` behind their checksum under `exampleWire`,
which is 482. -/
def truncatedCommand : List Nat := [0, 0, 1, 226] ++ truncatedBody

/-- The serialised body of a command: what `CommandSwitchAccountFactory.Marshal`
writes to the empty buffer of `MarshalCommand`. -/
def serialisedBody (wire : WireLib) (cmd : CommandSwitchAccount) : List Nat :=
  (CommandSwitchAccountFactory.Marshal wire (Command.switchAccount cmd) []).2

/-- The four big-endian bytes of a 32-bit value. -/
def bigEndianBytes32 (v : Nat) : List Nat :=
  [v / 16777216 % 256, v / 65536 % 256, v / 256 % 256, v % 256]

/-- The bytes `MarshalCommand` writes for `exampleCommand` under `exampleWire`:
the command identifier 1, the length 31, the checksum 861, and the body. -/
def exampleCommandBytes : List Nat :=
  [1, 31, 0, 0, 3, 93, 4, 97, 46, 105, 111, 4, 210, 1, 2, 3, 4, 5, 6, 7, 8, 9, 10, 11, 12,
   13, 14, 15, 16, 4, 0, 128, 16]

/-! ## infra/conf/vless.go: VLessInboundConfig.Build -/

/-- The functions and constants of other packages that `Build` uses:
whether `strconv.Atoi` returns a nil error on a string, whether
`net.SplitHostPort` does, the value of `runtime.GOOS`, and the length of
`syscall.RawSockaddrUnix{}.Path`. -/
structure ConfLib where
  Atoi : String → Bool
  SplitHostPort : String → Bool
  GOOS : String
  SockaddrPathLen : Nat

/-- The field `Dest json.RawMessage` of a fallback, by what `json.Unmarshal`
makes of it: `uint16 i` when decoding it into a `uint16` succeeds with `i`, and
`other s` when that fails, `s` being the string the decoding into a string
leaves (empty when it fails too). -/
inductive RawDest
  | uint16 (i : Nat)
  | other (s : String)
deriving DecidableEq, Repr

/-- The struct `VLessInboundFallback`. -/
structure VLessInboundFallback where
  Name : String
  Alpn : String
  Path : String
  Type_ : String
  Dest : RawDest
  Xver : Nat
deriving DecidableEq, Repr

/-- The struct `inbound.Fallback`. -/
structure Fallback where
  Name : String
  Alpn : String
  Path : String
  Type_ : String
  Dest : String
  Xver : Nat
deriving DecidableEq, Repr

/-- An entry of `Clients`, by what the decoders make of it: the errors of the
two calls of `json.Unmarshal` and of `uuid.ParseString`, and the flow and the
encryption of the decoded account. -/
structure RawClient where
  userErr : Option GoError
  accountErr : Option GoError
  idErr : Option GoError
  Flow : String
  Encryption : String
deriving DecidableEq, Repr

/-- The struct `VLessInboundConfig`; a nil `Fallback` is `none`. -/
structure VLessInboundConfig where
  Clients : List RawClient
  Decryption : String
  Fallback : Option VLessInboundFallback
  Fallbacks : List VLessInboundFallback
deriving DecidableEq, Repr

/-- The struct `inbound.Config`; a user is stood for by the entry it was
decoded from. -/
structure InboundConfig where
  Clients : List RawClient
  Decryption : String
  Fallbacks : List Fallback
deriving DecidableEq, Repr

/-- The error of a path that does not start with a slash. -/
def errFallbackPath : GoError :=
  GoError.newError "VLESS fallbacks: \"path\" must be empty or start with \"/\""

/-- The error of a fallback whose type stays empty. -/
def errFallbackDest : GoError :=
  GoError.newError "VLESS fallbacks: please fill in a valid value for every \"dest\""

/-- The error of a fallback whose `xver` exceeds 2. -/
def errFallbackXver : GoError :=
  GoError.newError
    "VLESS fallbacks: invalid PROXY protocol version, \"xver\" only accepts 0, 1, 2"

/-- The body of the loop over `c.Clients`: the error it returns with, if any. -/
def buildClient (rawUser : RawClient) : Option GoError :=
  match rawUser.userErr with
  | some _ => some (GoError.newError "VLESS clients: invalid user")
  | none =>
    match rawUser.accountErr with
    | some _ => some (GoError.newError "VLESS clients: invalid user")
    | none =>
      match rawUser.idErr with
      | some err => some err
      | none =>
        if rawUser.Flow = "" ∨ rawUser.Flow = "xtls-rprx-origin" ∨
            rawUser.Flow = "xtls-rprx-direct" then
          if rawUser.Encryption ≠ "" then
            some (GoError.newError
              "VLESS clients: \"encryption\" should not in inbound settings")
          else none
        else if rawUser.Flow = "xtls-rprx-splice" then
          some (GoError.newError ("VLESS clients: inbound doesn't support " ++
            "\"xtls-rprx-splice\" in this version, please use \"xtls-rprx-direct\" instead"))
        else
          some (GoError.newError ("VLESS clients: \"flow\" doesn't support \"" ++
            rawUser.Flow ++ "\" in this version"))

/-- The loop over `c.Clients`: the first error, if any. -/
def clientsLoop : List RawClient → Option GoError
  | [] => none
  | rawUser :: rest =>
    match buildClient rawUser with
    | some err => some err
    | none => clientsLoop rest

/-- The body of the first loop over `c.Fallbacks`: the `inbound.Fallback`
appended to `config.Fallbacks`. -/
def decodeFallback (fb : VLessInboundFallback) : Fallback :=
  let s : String :=
    match fb.Dest with
    | RawDest.uint16 i => toString i
    | RawDest.other s => s
  { Name := fb.Name, Alpn := fb.Alpn, Path := fb.Path, Type_ := fb.Type_, Dest := s,
    Xver := fb.Xver }

/-- The first byte of a string that is not empty. -/
def firstByte (s : String) : Option Char := s.data.head?

/-- The characters of a string that lie within its first `n` bytes, and the
number of bytes of these `n` that are left over; a character that the `n`-th
byte cuts is the replacement character, which stands for its bytes up to the
cut. -/
def takeBytes : Nat → List Char → List Char × Nat
  | n, [] => ([], n)
  | n, c :: cs =>
    if c.utf8Size ≤ n then
      (c :: (takeBytes (n - c.utf8Size) cs).1, (takeBytes (n - c.utf8Size) cs).2)
    else if n = 0 then ([], 0)
    else ([Char.ofNat 65533], 0)

/-- The `dest` of a unix fallback after the case `'@', '/'`: on linux and
android a dest that starts with two `@` is replaced by the bytes that follow
its first byte, cut or padded with zero bytes to the length of a socket path. -/
def unixDest (lib : ConfLib) (dest : String) : String :=
  if firstByte dest = some '@' ∧ dest.utf8ByteSize > 1 ∧
      (dest.data.drop 1).head? = some '@' ∧
      (lib.GOOS = "linux" ∨ lib.GOOS = "android") then
    let tail := takeBytes lib.SockaddrPathLen (dest.data.drop 1)
    String.mk (tail.1 ++ List.replicate tail.2 (Char.ofNat 0))
  else dest

/-- The `dest` of a fallback after the first statement of the default case: a
dest that `strconv.Atoi` accepts gets the address `127.0.0.1` before it. -/
def tcpDest (lib : ConfLib) (dest : String) : String :=
  if lib.Atoi dest then "127.0.0.1:" ++ dest else dest

/-- The body of the second loop of `Build`, over `config.Fallbacks`: the
fallback afterwards, or the error the loop returns with. -/
def buildFallback (lib : ConfLib) (fb : Fallback) : Except GoError Fallback :=
  if fb.Path ≠ "" ∧ firstByte fb.Path ≠ some '/' then Except.error errFallbackPath
  else
    let fb : Fallback :=
      if fb.Type_ = "" ∧ fb.Dest ≠ "" then
        if fb.Dest = "serve-ws-none" then { fb with Type_ := "serve" }
        else if firstByte fb.Dest = some '@' ∨ firstByte fb.Dest = some '/' then
          { fb with Type_ := "unix", Dest := unixDest lib fb.Dest }
        else
          let fb : Fallback := { fb with Dest := tcpDest lib fb.Dest }
          if lib.SplitHostPort fb.Dest then { fb with Type_ := "tcp" } else fb
      else fb
    if fb.Type_ = "" then Except.error errFallbackDest
    else if fb.Xver > 2 then Except.error errFallbackXver
    else Except.ok fb

/-- The second loop of `Build`: the fallbacks afterwards, or its error. -/
def fallbackLoop (lib : ConfLib) : List Fallback → Except GoError (List Fallback)
  | [] => Except.ok []
  | fb :: rest =>
    match buildFallback lib fb with
    | Except.error err => Except.error err
    | Except.ok fb1 =>
      match fallbackLoop lib rest with
      | Except.error err => Except.error err
      | Except.ok out => Except.ok (fb1 :: out)

/-- The method `VLessInboundConfig.Build`. -/
def VLessInboundConfig.Build (lib : ConfLib) (c : VLessInboundConfig) :
    Except GoError InboundConfig :=
  match clientsLoop c.Clients with
  | some err => Except.error err
  | none =>
    if c.Decryption ≠ "none" then
      Except.error (GoError.newError
        "VLESS settings: please add/set \"decryption\":\"none\" to every settings")
    else
      match c.Fallback with
      | some _ =>
        Except.error (GoError.newError ("VLESS settings: please use " ++
          "\"fallbacks\":[\x7b\x7d] instead of \"fallback\":\x7b\x7d"))
      | none =>
        match fallbackLoop lib (c.Fallbacks.map decodeFallback) with
        | Except.error err => Except.error err
        | Except.ok fallbacks =>
          Except.ok { Clients := c.Clients, Decryption := c.Decryption,
                      Fallbacks := fallbacks }

/-- Whether the path of a fallback passes the first check of the second loop:
it is empty or starts with a slash. -/
def pathAccepted (fb : Fallback) : Bool :=
  decide (fb.Path = "") || decide (firstByte fb.Path = some '/')

/-- The function `strconv.Atoi` with 64-bit integers, as to whether it returns
a nil error: the string is an optional sign before decimal digits, at least
one, whose value fits. -/
def goAtoi (s : String) : Bool :=
  let neg := s.data.head? = some '-'
  let digits :=
    match s.data with
    | '+' :: r => r
    | '-' :: r => r
    | r => r
  let n : Nat := digits.foldl (fun a c => a * 10 + (c.toNat - 48)) 0
  !digits.isEmpty && digits.all Char.isDigit &&
    (if neg then decide (n ≤ 9223372036854775808) else decide (n < 9223372036854775808))

/-- The function `net.SplitHostPort` of the Go library, as to whether it
returns a nil error: there is a colon; a string that starts with `[` has its
first `]` right before the last colon; otherwise nothing before the last colon
is a colon; and no other bracket occurs. -/
def goSplitHostPort (s : String) : Bool :=
  let cs := s.data
  match (cs.reverse.indexOf? ':').map (fun r => cs.length - 1 - r) with
  | none => false
  | some i =>
    if cs.head? = some '[' then
      match cs.indexOf? ']' with
      | none => false
      | some e =>
        if e + 1 = cs.length then false
        else if e + 1 = i then
          !(cs.drop 1).contains '[' && !(cs.drop (e + 1)).contains ']'
        else false
    else
      !(cs.take i).contains ':' && !cs.contains '[' && !cs.contains ']'

/-- The library of a 64-bit linux build. -/
def linuxConf : ConfLib :=
  { Atoi := goAtoi, SplitHostPort := goSplitHostPort, GOOS := "linux", SockaddrPathLen := 108 }

/-- A fallback without type, path or name for the given `dest`. -/
def fallbackTo (dest : RawDest) : VLessInboundFallback :=
  { Name := "", Alpn := "", Path := "", Type_ := "", Dest := dest, Xver := 0 }

/-- A configuration without clients whose fallbacks are the given ones. -/
def fallbackConfig (fbs : List VLessInboundFallback) : VLessInboundConfig :=
  { Clients := [], Decryption := "none", Fallback := none, Fallbacks := fbs }

/-- The example context with `content.SkipRoutePick` set. -/
def skippingContext : Context :=
  { exampleContext with
    content := some
      { Protocol := ""
        SniffingRequest :=
          { ExcludeForDomain := [], OverrideDestinationForProtocol := ["tls"],
            Enabled := true, MetadataOnly := false }
        SkipRoutePick := true } }

/-- The host `CommandSwitchAccountFactory.Unmarshal` reads from the body that
`Marshal` writes for a command: nil when the host of the command is nil or its
string is empty, and otherwise what `net.ParseAddress` makes of that string. -/
def hostReadBack (wire : WireLib) (cmd : CommandSwitchAccount) : Option Address :=
  match cmd.Host with
  | none => none
  | some h =>
    if (wire.AddressString h).length > 0 then
      some (wire.ParseAddress (wire.AddressString h))
    else none

/-- The example command with the empty domain name as its host, which is not
nil. -/
def emptyHostCommand : CommandSwitchAccount :=
  { exampleCommand with Host := some (Address.domain "") }

/-- The bytes `MarshalCommand` writes for `emptyHostCommand` under
`exampleWire`: the command identifier 1, the length 27, the checksum 498, and
the body, whose host has the length 0. -/
def emptyHostCommandBytes : List Nat :=
  [1, 27, 0, 0, 1, 242, 0, 4, 210, 1, 2, 3, 4, 5, 6, 7, 8, 9, 10, 11, 12,
   13, 14, 15, 16, 4, 0, 128, 16]

/-! ## Theorems -/

theorem excludeLoop_iff (lib : Lib) (domain : String) (l : List String) :
    excludeLoop lib domain l = true ↔ lib.ToLower domain ∈ l := by
  induction l with
  | nil => simp [excludeLoop]
  | cons d ds ih =>
    unfold excludeLoop
    by_cases h : lib.ToLower domain = d
    · simp [h]
    · simp [h, ih]

theorem fakeDNSHit_iff (eng : Option Feature) (proto p : String) (destination : Destination) :
    fakeDNSHit eng proto p destination = true ↔
      p = "fakedns" ∧ ∃ e, eng = some e ∧ proto ≠ "bittorrent" ∧
        ∃ ip, destination.Address = Address.ip ip ∧ e.GetFakeIPRange.Contains ip = true := by
  cases eng with
  | none => simp [fakeDNSHit]
  | some e =>
    cases hA : destination.Address with
    | ip b => simp [fakeDNSHit, hA, Address.IsIP, Address.IP]; tauto
    | domain n => simp [fakeDNSHit, hA, Address.IsIP, Address.IP]

theorem overrideLoop_iff (eng : Option Feature) (proto : String) (destination : Destination)
    (l : List String) :
    overrideLoop eng proto destination l = true ↔
      ∃ p ∈ l, HasPrefix proto p = true ∨ fakeDNSHit eng proto p destination = true := by
  induction l with
  | nil => simp [overrideLoop]
  | cons p ps ih =>
    unfold overrideLoop
    by_cases h1 : HasPrefix proto p = true
    · simp [h1]
    · by_cases h2 : fakeDNSHit eng proto p destination = true
      · simp [h2]
      · simp [h1, h2, ih]

/-- What `RequireFeatures` does with the callback of `shouldOverride`. -/
theorem RequireFeatures_fakeDNS (s : Instance) :
    s.RequireFeatures fakeDNSCallback =
      match getFeature s.features (PtrTo fakeDNSEngineType) with
      | none =>
        some { err := none,
               inst := { s with featureResolutions := s.featureResolutions ++
                 [{ deps := [PtrTo fakeDNSEngineType], callback := fakeDNSCallback }] },
               called := none }
      | some f =>
        if f.AssignableTo fakeDNSEngineType then
          some { err := none, inst := s, called := some [f] }
        else none := by
  cases h : getFeature s.features (PtrTo fakeDNSEngineType) with
  | none =>
    simp [Instance.RequireFeatures, resolution.resolve, resolveDeps, fakeDNSCallback, h]
  | some f =>
    by_cases ha : f.AssignableTo fakeDNSEngineType = true
    · simp [Instance.RequireFeatures, resolution.resolve, resolveDeps, resolveInput,
        fakeDNSCallback, h, ha, List.find?]
    · simp [Instance.RequireFeatures, resolution.resolve, resolveDeps, resolveInput,
        fakeDNSCallback, h, ha, List.find?]

/-- C1: on an instance whose feature registered under the FakeDNS engine type
implements that interface, `shouldOverride` returns, and it returns true if and
only if the lower-cased sniffed domain equals no entry of `ExcludeForDomain` and
some entry `p` of `OverrideDestinationForProtocol` is a prefix of the protocol
string, or is "fakedns" while a FakeDNS engine is registered, the protocol string
is not "bittorrent" and the destination address is an IP inside the range of the
engine; the protocol string is `ProtocolForDomainResult()` for a composite
result and `Protocol()` otherwise. -/
theorem shouldOverride_true_iff (lib : Lib) (s : Instance) (result : SniffResult)
    (request : SniffingRequest) (destination : Destination)
    (hreg : ∀ f, getFeature s.features (PtrTo fakeDNSEngineType) = some f →
      f.AssignableTo fakeDNSEngineType = true) :
    (∃ b s1, shouldOverride lib s result request destination = some (b, s1) ∧
      (b = true ↔
        (∀ d ∈ request.ExcludeForDomain, lib.ToLower result.Domain ≠ d) ∧
        ∃ p ∈ request.OverrideDestinationForProtocol,
          HasPrefix (protocolString result) p = true ∨
          (p = "fakedns" ∧
            ∃ e, getFeature s.features (PtrTo fakeDNSEngineType) = some e ∧
              protocolString result ≠ "bittorrent" ∧
              ∃ ip, destination.Address = Address.ip ip ∧
                e.GetFakeIPRange.Contains ip = true))) ∧
    (∀ p, result.ProtocolForDomainResult = some p → protocolString result = p) ∧
    (result.ProtocolForDomainResult = none → protocolString result = result.Protocol) := by
  refine ⟨?_, ?_, ?_⟩
  · unfold shouldOverride
    by_cases hex : excludeLoop lib result.Domain request.ExcludeForDomain = true
    · refine ⟨false, s, by simp [hex], ?_⟩
      have hmem := (excludeLoop_iff lib result.Domain request.ExcludeForDomain).1 hex
      constructor
      · intro h; cases h
      · rintro ⟨h, -⟩
        exact absurd rfl (h _ hmem)
    · have hnot : ∀ d ∈ request.ExcludeForDomain, lib.ToLower result.Domain ≠ d := by
        intro d hd heq
        exact hex ((excludeLoop_iff lib result.Domain request.ExcludeForDomain).2 (heq ▸ hd))
      rw [RequireFeatures_fakeDNS]
      cases hg : getFeature s.features (PtrTo fakeDNSEngineType) with
      | none =>
        refine ⟨overrideLoop none (protocolString result) destination
          request.OverrideDestinationForProtocol, _, by simp [hex]; rfl, ?_⟩
        simp only [Option.bind, overrideLoop_iff, fakeDNSHit_iff]
        constructor
        · rintro ⟨p, hp, h⟩
          refine ⟨hnot, p, hp, ?_⟩
          rcases h with h | ⟨_, e, he, _⟩
          · exact Or.inl h
          · cases he
        · rintro ⟨-, p, hp, h⟩
          refine ⟨p, hp, ?_⟩
          rcases h with h | ⟨_, e, he, _⟩
          · exact Or.inl h
          · cases he
      | some f =>
        have ha := hreg f hg
        refine ⟨overrideLoop (some f) (protocolString result) destination
          request.OverrideDestinationForProtocol, s, by simp [hex, ha], ?_⟩
        simp only [Option.bind, List.head?, overrideLoop_iff, fakeDNSHit_iff]
        constructor
        · rintro ⟨p, hp, h⟩
          refine ⟨hnot, p, hp, ?_⟩
          rcases h with h | ⟨h1, e, he, h2⟩
          · exact Or.inl h
          · cases he
            exact Or.inr ⟨h1, f, rfl, h2⟩
        · rintro ⟨-, p, hp, h⟩
          refine ⟨p, hp, ?_⟩
          rcases h with h | ⟨h1, e, he, h2⟩
          · exact Or.inl h
          · cases he
            exact Or.inr ⟨h1, f, rfl, h2⟩
  · intro p hp
    simp [protocolString, hp]
  · intro hp
    simp [protocolString, hp]

/-- The statement of C1 at the instance with the example engine, a TLS result for
`foo.example`, the override list `["fakedns"]` and the destination
198.18.3.7:443. -/
theorem shouldOverride_true_iff_witness :
    (∃ b s1, shouldOverride exampleLib engineInstance
        { Protocol := "tls", Domain := "foo.example", ProtocolForDomainResult := none }
        { ExcludeForDomain := [], OverrideDestinationForProtocol := ["fakedns"],
          Enabled := true, MetadataOnly := false }
        { Address := Address.ip [198, 18, 3, 7], Port := 443, Network := Network.TCP }
          = some (b, s1) ∧
      (b = true ↔
        (∀ d ∈ ([] : List String), exampleLib.ToLower "foo.example" ≠ d) ∧
        ∃ p ∈ ["fakedns"],
          HasPrefix (protocolString
            { Protocol := "tls", Domain := "foo.example", ProtocolForDomainResult := none })
            p = true ∨
          (p = "fakedns" ∧
            ∃ e, getFeature engineInstance.features (PtrTo fakeDNSEngineType) = some e ∧
              protocolString
                { Protocol := "tls", Domain := "foo.example", ProtocolForDomainResult := none }
                ≠ "bittorrent" ∧
              ∃ ip, Address.ip [198, 18, 3, 7] = Address.ip ip ∧
                e.GetFakeIPRange.Contains ip = true))) ∧
    (shouldOverride exampleLib engineInstance
        { Protocol := "tls", Domain := "foo.example", ProtocolForDomainResult := none }
        { ExcludeForDomain := [], OverrideDestinationForProtocol := ["fakedns"],
          Enabled := true, MetadataOnly := false }
        { Address := Address.ip [198, 18, 3, 7], Port := 443, Network := Network.TCP }).map
      Prod.fst = some true :=
  ⟨(shouldOverride_true_iff exampleLib engineInstance
      { Protocol := "tls", Domain := "foo.example", ProtocolForDomainResult := none }
      { ExcludeForDomain := [], OverrideDestinationForProtocol := ["fakedns"],
        Enabled := true, MetadataOnly := false }
      { Address := Address.ip [198, 18, 3, 7], Port := 443, Network := Network.TCP }
      (by
        intro f hf
        have h : f = exampleEngine := by
          simpa [getFeature, engineInstance, exampleEngine] using hf.symm
        subst h
        decide)).1,
   by decide⟩

/-- C2, the claim as stated fails: the exclude list holds `Example.com`, equal
to the sniffed domain `example.com` up to letter case, and `shouldOverride`
returns true. -/
theorem shouldOverride_mixed_case_entry :
    asciiLower "Example.com" = asciiLower "example.com" ∧
    "Example.com" ∈ ["Example.com"] ∧
    (shouldOverride exampleLib emptyInstance
        { Protocol := "tls", Domain := "example.com", ProtocolForDomainResult := none }
        { ExcludeForDomain := ["Example.com"], OverrideDestinationForProtocol := ["tls"],
          Enabled := true, MetadataOnly := false }
        { Address := Address.ip [1, 2, 3, 4], Port := 443, Network := Network.TCP }).map
      Prod.fst = some true := by
  refine ⟨by decide, by decide, by decide⟩

/-- C2, amended: when the exclude list contains an entry equal to the lower-cased
sniffed domain, `shouldOverride` returns false and leaves the instance as it
was, for every protocol, override list, destination and instance. -/
theorem shouldOverride_excluded (lib : Lib) (s : Instance) (result : SniffResult)
    (request : SniffingRequest) (destination : Destination)
    (h : lib.ToLower result.Domain ∈ request.ExcludeForDomain) :
    shouldOverride lib s result request destination = some (false, s) := by
  unfold shouldOverride
  simp [(excludeLoop_iff lib result.Domain request.ExcludeForDomain).2 h]

/-- The amended C2 at the sniffed domain `Secret.Internal` and the exclude list
`["secret.internal"]`. -/
theorem shouldOverride_excluded_witness :
    exampleLib.ToLower "Secret.Internal" ∈ ["secret.internal"] ∧
    shouldOverride exampleLib engineInstance
        { Protocol := "tls", Domain := "Secret.Internal", ProtocolForDomainResult := none }
        { ExcludeForDomain := ["secret.internal"], OverrideDestinationForProtocol := ["tls"],
          Enabled := true, MetadataOnly := false }
        { Address := Address.ip [1, 2, 3, 4], Port := 443, Network := Network.TCP }
      = some (false, engineInstance) :=
  ⟨by decide,
   shouldOverride_excluded exampleLib engineInstance
     { Protocol := "tls", Domain := "Secret.Internal", ProtocolForDomainResult := none }
     { ExcludeForDomain := ["secret.internal"], OverrideDestinationForProtocol := ["tls"],
       Enabled := true, MetadataOnly := false }
     { Address := Address.ip [1, 2, 3, 4], Port := 443, Network := Network.TCP }
     (by decide)⟩

/-! ### routedDispatch -/

theorem routePick_skip (d : DefaultDispatcher) (ctx : Context)
    (h : skipRoutePick ctx = true) : routePick d ctx = (none, false, []) := by
  unfold routePick
  cases d.router <;> simp [h]

theorem routePick_events_not_effect (d : DefaultDispatcher) (ctx : Context) :
    ∀ e ∈ (routePick d ctx).2.2, e.isEffect = false := by
  unfold routePick
  cases d.router with
  | none => simp
  | some router =>
    by_cases hs : skipRoutePick ctx = true
    · simp [hs]
    · simp only [hs]
      cases router.PickRoute ctx with
      | error e => simp [Event.isEffect]
      | ok route =>
        cases hg : d.ohm.GetHandler route.OutboundTag <;> simp [hg, Event.isEffect]

theorem skipRoutePick_true_iff (ctx : Context) :
    skipRoutePick ctx = true ↔ ∃ c, ctx.content = some c ∧ c.SkipRoutePick = true := by
  unfold skipRoutePick
  cases ctx.content with
  | none => simp
  | some c => simp

theorem skipRoutePick_false_iff (ctx : Context) :
    skipRoutePick ctx = false ↔ ∀ c, ctx.content = some c → c.SkipRoutePick = false := by
  unfold skipRoutePick
  cases ctx.content with
  | none => simp
  | some c => simp

/-- C4: `routedDispatch` ends with `handler` set as follows.  When the context
has a content whose `SkipRoutePick` is set, `PickRoute` is not called, whatever
the router, and the handler is the default handler of the registry.  When the
context has no content or its `SkipRoutePick` is not set: with a router whose
`PickRoute` succeeds, `PickRoute` is called and the handler is the registry's
handler for the returned outbound tag when there is one and the default handler
when there is none; when `PickRoute` returns an error the handler is the
default handler; and without router the handler is the default handler. -/
theorem routedDispatch_handler (d : DefaultDispatcher) (ctx : Context) (link : Link)
    (destination : Destination) :
    (∀ c, ctx.content = some c → c.SkipRoutePick = true →
      Event.PickRoute ∉ (d.routedDispatch ctx link destination).events ∧
      (d.routedDispatch ctx link destination).handler = d.ohm.GetDefaultHandler) ∧
    (∀ router route h, d.router = some router →
      (∀ c, ctx.content = some c → c.SkipRoutePick = false) →
      router.PickRoute ctx = Except.ok route →
      d.ohm.GetHandler route.OutboundTag = some h →
      Event.PickRoute ∈ (d.routedDispatch ctx link destination).events ∧
      (d.routedDispatch ctx link destination).handler = some h) ∧
    (∀ router route, d.router = some router →
      (∀ c, ctx.content = some c → c.SkipRoutePick = false) →
      router.PickRoute ctx = Except.ok route →
      d.ohm.GetHandler route.OutboundTag = none →
      Event.PickRoute ∈ (d.routedDispatch ctx link destination).events ∧
      (d.routedDispatch ctx link destination).handler = d.ohm.GetDefaultHandler) ∧
    (∀ router e, d.router = some router →
      (∀ c, ctx.content = some c → c.SkipRoutePick = false) →
      router.PickRoute ctx = Except.error e →
      Event.PickRoute ∈ (d.routedDispatch ctx link destination).events ∧
      (d.routedDispatch ctx link destination).handler = d.ohm.GetDefaultHandler) ∧
    (d.router = none →
      Event.PickRoute ∉ (d.routedDispatch ctx link destination).events ∧
      (d.routedDispatch ctx link destination).handler = d.ohm.GetDefaultHandler) := by
  refine ⟨?_, ?_, ?_, ?_, ?_⟩
  · intro c hc hsk
    have hs : skipRoutePick ctx = true := (skipRoutePick_true_iff ctx).2 ⟨c, hc, hsk⟩
    unfold DefaultDispatcher.routedDispatch
    rw [routePick_skip d ctx hs]
    cases hd : d.ohm.GetDefaultHandler with
    | none => simp
    | some h => cases ctx.accessMessage <;> simp
  · intro router route h hr hc hp hg
    have hs : skipRoutePick ctx = false := (skipRoutePick_false_iff ctx).2 hc
    unfold DefaultDispatcher.routedDispatch routePick
    simp only [hr, hs, hp, hg]
    cases ctx.accessMessage <;> simp
  · intro router route hr hc hp hg
    have hs : skipRoutePick ctx = false := (skipRoutePick_false_iff ctx).2 hc
    unfold DefaultDispatcher.routedDispatch routePick
    simp only [hr, hs, hp, hg]
    cases hd : d.ohm.GetDefaultHandler with
    | none => simp
    | some h => cases ctx.accessMessage <;> simp
  · intro router e hr hc hp
    have hs : skipRoutePick ctx = false := (skipRoutePick_false_iff ctx).2 hc
    unfold DefaultDispatcher.routedDispatch routePick
    simp only [hr, hs, hp]
    cases hd : d.ohm.GetDefaultHandler with
    | none => simp
    | some h => cases ctx.accessMessage <;> simp
  · intro hr
    unfold DefaultDispatcher.routedDispatch routePick
    simp only [hr]
    cases hd : d.ohm.GetDefaultHandler with
    | none => simp
    | some h => cases ctx.accessMessage <;> simp

/-- The statement of C4 at the example dispatcher, whose router picks `proxy`
and whose registry has a handler for it: on the example context, whose content
does not set `SkipRoutePick`, that handler is selected; on the same context
with `SkipRoutePick` set, `PickRoute` is not called and the default handler
`direct` is selected. -/
theorem routedDispatch_handler_witness :
    (exampleDispatcher.routedDispatch exampleContext exampleLink exampleDestination).handler =
      some proxyHandler ∧
    (skippingContext.content.map (fun c => c.SkipRoutePick)) = some true ∧
    Event.PickRoute ∉
      (exampleDispatcher.routedDispatch skippingContext exampleLink exampleDestination).events ∧
    (exampleDispatcher.routedDispatch skippingContext exampleLink exampleDestination).handler =
      some directHandler :=
  ⟨((routedDispatch_handler exampleDispatcher exampleContext exampleLink
      exampleDestination).2.1
     { PickRoute := fun _ => Except.ok { OutboundTag := "proxy" } } { OutboundTag := "proxy" }
     proxyHandler rfl
     (by
       intro c hc
       cases hc
       rfl) rfl rfl).2,
   rfl,
   ((routedDispatch_handler exampleDispatcher skippingContext exampleLink
      exampleDestination).1 _ rfl rfl).1,
   ((routedDispatch_handler exampleDispatcher skippingContext exampleLink
      exampleDestination).1 _ rfl rfl).2⟩

theorem routePick_filter_effect (d : DefaultDispatcher) (ctx : Context) :
    (routePick d ctx).2.2.filter Event.isEffect = [] := by
  rw [List.filter_eq_nil_iff]
  intro e he
  simp [routePick_events_not_effect d ctx e he]

theorem routePick_filter_dispatch (d : DefaultDispatcher) (ctx : Context) :
    (routePick d ctx).2.2.filter Event.isHandlerDispatch = [] := by
  rw [List.filter_eq_nil_iff]
  intro e he
  have h := routePick_events_not_effect d ctx e he
  cases e <;> simp_all [Event.isEffect, Event.isHandlerDispatch]

theorem routePick_no_close (d : DefaultDispatcher) (ctx : Context) (w : Writer) :
    Event.Close w ∉ (routePick d ctx).2.2 := by
  intro he
  have h := routePick_events_not_effect d ctx _ he
  simp [Event.isEffect] at h

theorem routePick_no_interrupt (d : DefaultDispatcher) (ctx : Context) (r : Reader) :
    Event.Interrupt r ∉ (routePick d ctx).2.2 := by
  intro he
  have h := routePick_events_not_effect d ctx _ he
  simp [Event.isEffect] at h

theorem routePick_no_record (d : DefaultDispatcher) (ctx : Context) (m : AccessMessage) :
    Event.Record m ∉ (routePick d ctx).2.2 := by
  intro he
  have h := routePick_events_not_effect d ctx _ he
  simp [Event.isEffect] at h

theorem routePick_no_dispatch (d : DefaultDispatcher) (ctx : Context) (h : Handler) (l : Link) :
    Event.HandlerDispatch h l ∉ (routePick d ctx).2.2 := by
  intro he
  have h := routePick_events_not_effect d ctx _ he
  simp [Event.isEffect] at h

/-- C5: `routedDispatch` ends with no handler exactly when the router block
selected none and the registry has no default handler; then its only acts on
the link and the access log are the close of `link.Writer` followed by the
interrupt of `link.Reader`, so that no record is emitted and no handler's
`Dispatch` is called.  When it ends with a handler, the calls of `Dispatch` are
the one call on that handler with the given link, and no writer is closed and
no reader interrupted. -/
theorem routedDispatch_link (d : DefaultDispatcher) (ctx : Context) (link : Link)
    (destination : Destination) :
    ((d.routedDispatch ctx link destination).handler = none ↔
      (routePick d ctx).1 = none ∧ d.ohm.GetDefaultHandler = none) ∧
    ((d.routedDispatch ctx link destination).handler = none →
      (d.routedDispatch ctx link destination).events.filter Event.isEffect =
        [Event.Close link.Writer, Event.Interrupt link.Reader] ∧
      (∀ m, Event.Record m ∉ (d.routedDispatch ctx link destination).events) ∧
      (∀ h l, Event.HandlerDispatch h l ∉ (d.routedDispatch ctx link destination).events)) ∧
    (∀ h, (d.routedDispatch ctx link destination).handler = some h →
      (d.routedDispatch ctx link destination).events.filter Event.isHandlerDispatch =
        [Event.HandlerDispatch h link] ∧
      (∀ w, Event.Close w ∉ (d.routedDispatch ctx link destination).events) ∧
      (∀ r, Event.Interrupt r ∉ (d.routedDispatch ctx link destination).events)) := by
  have hE := routePick_filter_effect d ctx
  have hD := routePick_filter_dispatch d ctx
  have hC := routePick_no_close d ctx
  have hI := routePick_no_interrupt d ctx
  have hR := routePick_no_record d ctx
  have hH := routePick_no_dispatch d ctx
  unfold DefaultDispatcher.routedDispatch
  rcases hrp : routePick d ctx with ⟨h0, b, ev⟩
  rw [hrp] at hE hD hC hI hR hH
  simp only at hE hD hC hI hR hH
  cases h0 with
  | some h1 =>
    cases hm : ctx.accessMessage with
    | none =>
      simp [List.filter_append, hD, hC, hI, Event.isHandlerDispatch]
    | some m =>
      simp [List.filter_append, hD, hC, hI, Event.isHandlerDispatch]
  | none =>
    cases hd : d.ohm.GetDefaultHandler with
    | none =>
      simp [List.filter_append, hE, hR, hH, Event.isEffect]
    | some h1 =>
      cases hm : ctx.accessMessage with
      | none =>
        simp [List.filter_append, hD, hC, hI, Event.isHandlerDispatch]
      | some m =>
        simp [List.filter_append, hD, hC, hI, Event.isHandlerDispatch]

/-- The statement of C5 at a dispatcher without any handler: the link is closed
and interrupted and nothing else is done with it. -/
theorem routedDispatch_link_witness :
    (bareDispatcher.routedDispatch bareContext exampleLink exampleDestination).handler = none ∧
    (bareDispatcher.routedDispatch bareContext exampleLink exampleDestination).events.filter
        Event.isEffect =
      [Event.Close (Writer.pipe PipeId.downlink), Event.Interrupt (Reader.pipe PipeId.uplink)] :=
  ⟨rfl,
   ((routedDispatch_link bareDispatcher bareContext exampleLink exampleDestination).2.1 rfl).1⟩

theorem routePick_isPickRoute (d : DefaultDispatcher) (ctx : Context) :
    (routePick d ctx).2.1 = true ↔
      ∃ router route, d.router = some router ∧ skipRoutePick ctx = false ∧
        router.PickRoute ctx = Except.ok route := by
  unfold routePick
  cases hr : d.router with
  | none => simp
  | some router =>
    by_cases hs : skipRoutePick ctx = true
    · simp [hs]
    · cases hp : router.PickRoute ctx with
      | error e => simp [hs, hp]
      | ok route =>
        cases hg : d.ohm.GetHandler route.OutboundTag <;> simp [hs, hp, hg]

theorem routedDispatch_isPickRoute (d : DefaultDispatcher) (ctx : Context) (link : Link)
    (destination : Destination) :
    (d.routedDispatch ctx link destination).isPickRoute = (routePick d ctx).2.1 := by
  unfold DefaultDispatcher.routedDispatch
  rcases routePick d ctx with ⟨h0, b, ev⟩
  cases h0 with
  | some h1 => cases ctx.accessMessage <;> simp
  | none =>
    cases d.ohm.GetDefaultHandler with
    | none => simp
    | some h1 => cases ctx.accessMessage <;> simp

/-- C6: with an access message attached and a selected handler of non-empty tag
`T`, `routedDispatch` records the message with its detour set, the rest of it
unchanged: to `inTag ++ " -> " ++ T` when the router returned a route and the
inbound tag is not empty, to `inTag ++ " >> " ++ T` when the router returned
none (no router, router skipped, or router error) and the inbound tag is not
empty, and to `T` when the inbound tag is empty. -/
theorem routedDispatch_detour (d : DefaultDispatcher) (ctx : Context) (link : Link)
    (destination : Destination) (m : AccessMessage) (h : Handler)
    (hm : ctx.accessMessage = some m)
    (hh : (d.routedDispatch ctx link destination).handler = some h)
    (ht : h.Tag ≠ "") :
    ((d.routedDispatch ctx link destination).isPickRoute = true ↔
      ∃ router route, d.router = some router ∧ skipRoutePick ctx = false ∧
        router.PickRoute ctx = Except.ok route) ∧
    ∃ m1, (d.routedDispatch ctx link destination).accessMessage = some m1 ∧
      Event.Record m1 ∈ (d.routedDispatch ctx link destination).events ∧
      m1.rest = m.rest ∧
      ((d.routedDispatch ctx link destination).isPickRoute = true → GetInboundTag ctx ≠ "" →
        m1.Detour = GetInboundTag ctx ++ " -> " ++ h.Tag) ∧
      ((d.routedDispatch ctx link destination).isPickRoute = false → GetInboundTag ctx ≠ "" →
        m1.Detour = GetInboundTag ctx ++ " >> " ++ h.Tag) ∧
      (GetInboundTag ctx = "" → m1.Detour = h.Tag) := by
  refine ⟨by rw [routedDispatch_isPickRoute, routePick_isPickRoute], ?_⟩
  revert hh
  unfold DefaultDispatcher.routedDispatch
  rcases routePick d ctx with ⟨h0, b, ev⟩
  cases h0 with
  | some h1 =>
    simp only [hm]
    intro hh
    cases hh
    refine ⟨_, rfl, by simp, ?_⟩
    simp only [ht, ne_eq, not_false_eq_true, if_true, detourOf]
    cases b <;> by_cases hin : GetInboundTag ctx = "" <;> simp [hin]
  | none =>
    cases hd : d.ohm.GetDefaultHandler with
    | none => simp
    | some h1 =>
      simp only [hm]
      intro hh
      cases hh
      refine ⟨_, rfl, by simp, ?_⟩
      simp only [ht, ne_eq, not_false_eq_true, if_true, detourOf]
      cases b <;> by_cases hin : GetInboundTag ctx = "" <;> simp [hin]

/-- The statement of C6 at the example dispatcher: the router returns the route
`proxy`, the inbound tag is `socks-in`, and the recorded detour is
`socks-in -> proxy`. -/
theorem routedDispatch_detour_witness :
    exampleContext.accessMessage = some exampleMessage ∧
    (exampleDispatcher.routedDispatch exampleContext exampleLink exampleDestination).handler =
      some proxyHandler ∧
    proxyHandler.Tag ≠ "" ∧
    ∃ m1, (exampleDispatcher.routedDispatch exampleContext exampleLink
        exampleDestination).accessMessage = some m1 ∧
      m1.Detour = "socks-in -> proxy" := by
  obtain ⟨hp, m1, h1, _, _, h4, _, _⟩ :=
    routedDispatch_detour exampleDispatcher exampleContext exampleLink exampleDestination
      exampleMessage proxyHandler rfl rfl (by decide)
  refine ⟨rfl, rfl, by decide, m1, h1, ?_⟩
  exact (h4 (by rfl) (by decide)).trans (by decide)

/-! ### cachedReader -/

theorem bytesOf_append (a b : MultiBuffer) : bytesOf (a ++ b) = bytesOf a ++ bytesOf b := by
  simp [bytesOf]

theorem bytesOf_of_IsEmpty (mb : MultiBuffer) (h : IsEmpty mb = true) : bytesOf mb = [] := by
  induction mb with
  | nil => rfl
  | cons b rest ih =>
    simp only [IsEmpty, List.all_cons, Bool.and_eq_true, List.isEmpty_iff] at h
    have ih1 := ih (by simpa [IsEmpty] using h.2)
    simp only [bytesOf] at ih1
    simp [bytesOf, h.1, ih1]

theorem pipe_read_stream (p : PipeReader) :
    bytesOf p.ReadMultiBuffer.1.1 ++ p.ReadMultiBuffer.2.stream = p.stream := by
  unfold PipeReader.ReadMultiBuffer PipeReader.stream
  cases h : p.reads with
  | nil => simp [bytesOf, h]
  | cons x rest => simp

/-- The bytes a cached reader still has to deliver: its cache, then the pipe. -/
theorem Cache_keeps_bytes (lib : Lib) (r : cachedReader) :
    bytesOf (r.Cache lib).1.cache ++ (r.Cache lib).1.reader.stream =
      bytesOf r.cache ++ r.reader.stream := by
  have hp := pipe_read_stream r.reader
  unfold cachedReader.Cache
  by_cases he : IsEmpty r.reader.ReadMultiBuffer.1.1 = true
  · have hb := bytesOf_of_IsEmpty _ he
    rw [hb] at hp
    simp only [he, Bool.not_true, Bool.false_eq_true, if_false]
    simpa using hp
  · simp only [he, Bool.not_eq_true', Bool.not_eq_true, if_true, MergeMulti]
    simp only [Bool.not_eq_true] at he
    simp only [he, Bool.not_false, if_true, bytesOf_append, List.append_assoc]
    rw [hp]

theorem Cache_extends_cache (lib : Lib) (r : cachedReader) :
    ∃ mb, (r.Cache lib).1.cache = r.cache ++ mb := by
  unfold cachedReader.Cache
  by_cases he : IsEmpty r.reader.ReadMultiBuffer.1.1 = true
  · exact ⟨[], by simp [he]⟩
  · simp only [Bool.not_eq_true] at he
    exact ⟨r.reader.ReadMultiBuffer.1.1, by simp [he, MergeMulti]⟩

theorem Read_keeps_bytes (r : cachedReader) :
    bytesOf r.ReadMultiBuffer.1.1 ++ (bytesOf r.ReadMultiBuffer.2.cache ++
        r.ReadMultiBuffer.2.reader.stream) =
      bytesOf r.cache ++ r.reader.stream := by
  have hp := pipe_read_stream r.reader
  unfold cachedReader.ReadMultiBuffer cachedReader.readInternal
  by_cases he : IsEmpty r.cache = true
  · have hb := bytesOf_of_IsEmpty _ he
    simp only [he, Bool.not_true, Bool.false_eq_true, if_false, hb, List.nil_append]
    exact hp
  · simp only [Bool.not_eq_true] at he
    simp [he, bytesOf]

theorem ReadTimeout_eq (r : cachedReader) : r.ReadMultiBufferTimeout = r.ReadMultiBuffer := rfl

theorem runCalls_keeps_bytes (lib : Lib) (calls : List ReaderCall) :
    ∀ r : cachedReader,
      ((runCalls lib calls r).1.map bytesOf).flatten ++
          (bytesOf (runCalls lib calls r).2.cache ++ (runCalls lib calls r).2.reader.stream) =
        bytesOf r.cache ++ r.reader.stream := by
  induction calls with
  | nil => intro r; simp [runCalls]
  | cons c cs ih =>
    intro r
    cases c with
    | Cache =>
      simp only [runCalls]
      rw [ih, Cache_keeps_bytes]
    | ReadMultiBuffer =>
      simp only [runCalls, List.map_cons, List.flatten_cons, List.append_assoc]
      rw [ih, Read_keeps_bytes]
    | ReadMultiBufferTimeout =>
      simp only [runCalls, List.map_cons, List.flatten_cons, List.append_assoc, ReadTimeout_eq]
      rw [ih, Read_keeps_bytes]

/-- C7: for every pipe and every sequence of `Cache`, `ReadMultiBuffer` and
`ReadMultiBufferTimeout` calls on a new cached reader over it, the bytes the
read calls returned, followed by the bytes in the cache and the bytes the pipe
has not yet delivered, are the byte stream of the pipe; so the returned bytes
are a prefix of that stream.  And a call of `Cache` keeps every buffer of the
cache, adding buffers only at its end. -/
theorem cachedReader_delivers_stream (lib : Lib) (pipe : PipeReader) (calls : List ReaderCall) :
    ((runCalls lib calls { reader := pipe, cache := [] }).1.map bytesOf).flatten ++
        (bytesOf (runCalls lib calls { reader := pipe, cache := [] }).2.cache ++
          (runCalls lib calls { reader := pipe, cache := [] }).2.reader.stream) =
      pipe.stream ∧
    ((runCalls lib calls { reader := pipe, cache := [] }).1.map bytesOf).flatten <+:
      pipe.stream ∧
    (∀ r : cachedReader, ∃ mb, (r.Cache lib).1.cache = r.cache ++ mb) ∧
    (∀ r : cachedReader, bytesOf r.cache <+: bytesOf (r.Cache lib).1.cache) := by
  have h := runCalls_keeps_bytes lib calls { reader := pipe, cache := [] }
  simp only [bytesOf, List.flatten_nil, List.nil_append] at h
  refine ⟨by simpa [bytesOf] using h, ⟨_, by simpa [bytesOf] using h⟩, ?_, ?_⟩
  · intro r
    exact Cache_extends_cache lib r
  · intro r
    obtain ⟨mb, hmb⟩ := Cache_extends_cache lib r
    exact ⟨bytesOf mb, by rw [hmb, bytesOf_append]⟩

/-! ### sniffer -/

/-- The payload loop returns whenever its reader is not nil and the fuel covers
the attempts that are left. -/
theorem contentLoop_returns (lib : Lib) (done : Nat → Option GoError) (sn : Sniffer) :
    ∀ (fuel totalAttempt : Nat) (st : SniffState), st.cReader.isSome = true →
      2 ≤ totalAttempt + fuel →
      ∃ res st1, contentLoop lib done sn (fuel + 1) totalAttempt st = some (res, st1) := by
  intro fuel
  induction fuel with
  | zero =>
    intro totalAttempt st _ hle
    unfold contentLoop
    cases done totalAttempt with
    | some e => exact ⟨_, _, rfl⟩
    | none =>
      have h : totalAttempt + 1 > 2 := by omega
      simp only [h, if_true]
      exact ⟨_, _, rfl⟩
  | succ fuel ih =>
    intro totalAttempt st hst hle
    unfold contentLoop
    cases done totalAttempt with
    | some e => exact ⟨_, _, rfl⟩
    | none =>
      by_cases h : totalAttempt + 1 > 2
      · simp only [h, if_true]
        exact ⟨_, _, rfl⟩
      · simp only [h, if_false]
        cases hc : st.cReader with
        | none => simp [hc] at hst
        | some cReader =>
          simp only
          rcases cReader.Cache lib with ⟨cr1, payload⟩
          simp only
          rcases sn.Sniff st.sniffed payload with ⟨result, err⟩
          have hrec1 := ih (totalAttempt + 1)
            { cReader := some cr1, sniffed := st.sniffed ++ [payload],
              cacheCalls := st.cacheCalls + 1 } rfl (by omega)
          have hrec2 := ih (totalAttempt + 1)
            { cReader := some cr1, sniffed := st.sniffed,
              cacheCalls := st.cacheCalls + 1 } rfl (by omega)
          repeat' split
          all_goals first
            | exact ⟨_, _, rfl⟩
            | exact hrec1
            | exact hrec2

/-- C8: in payload mode, on a reader that is not nil, the payload loop returns a
pair `(cres, cerr)` and `sniffer` returns: the composite of the metadata and
payload results with no error when both errors are nil; the metadata result
with no error when only the metadata error is nil; the payload result with no
error when only the payload error is nil; and the payload result with the
payload error, an error, when neither is nil. -/
theorem sniffer_payload_mode (lib : Lib) (done : Nat → Option GoError) (sn : Sniffer)
    (cReader : cachedReader) :
    ∃ cres cerr st,
      contentLoop lib done sn 3 0 { cReader := some cReader, sniffed := [], cacheCalls := 0 } =
        some ((cres, cerr), st) ∧
      ∃ run, sniffer lib done sn (some cReader) false = some run ∧ run.state = st ∧
        (sn.SniffMetadata.2 = none → cerr = none →
          run.result = some (lib.CompositeResult sn.SniffMetadata.1 cres) ∧ run.err = none) ∧
        (sn.SniffMetadata.2 = none → cerr ≠ none →
          run.result = sn.SniffMetadata.1 ∧ run.err = none) ∧
        (sn.SniffMetadata.2 ≠ none → cerr = none →
          run.result = cres ∧ run.err = none) ∧
        (sn.SniffMetadata.2 ≠ none → cerr ≠ none →
          run.result = cres ∧ run.err = cerr ∧ run.err ≠ none) := by
  obtain ⟨⟨cres, cerr⟩, st, hloop⟩ :=
    contentLoop_returns lib done sn 2 0
      { cReader := some cReader, sniffed := [], cacheCalls := 0 } rfl (by omega)
  refine ⟨cres, cerr, st, hloop, ?_⟩
  unfold sniffer
  rcases hmeta : sn.SniffMetadata with ⟨mr, me⟩
  simp only [hloop, Bool.false_eq_true, if_false]
  cases me with
  | none =>
    cases cerr with
    | none => exact ⟨_, rfl, rfl, by simp⟩
    | some e => exact ⟨_, rfl, rfl, by simp⟩
  | some e0 =>
    cases cerr with
    | none => exact ⟨_, rfl, rfl, by simp⟩
    | some e => exact ⟨_, rfl, rfl, by simp⟩

/-- The statement of C8 at a sniffer whose metadata and payload classifiers both
succeed: the result is the composite of the two results. -/
theorem sniffer_payload_mode_witness :
    ∃ run, sniffer exampleLib (fun _ => none) bothSniffer
        (some { reader := examplePipe, cache := [] }) false = some run ∧
      run.result = some (exampleLib.CompositeResult (some tlsResult) (some tlsResult)) ∧
      run.err = none := by
  obtain ⟨cres, cerr, st, hloop, run, hrun, _, h1, _, _, _⟩ :=
    sniffer_payload_mode exampleLib (fun _ => none) bothSniffer
      { reader := examplePipe, cache := [] }
  have hval : contentLoop exampleLib (fun _ => none) bothSniffer 3 0
      { cReader := some { reader := examplePipe, cache := [] }, sniffed := [], cacheCalls := 0 } =
      some ((some tlsResult, none), exampleRun.state) := rfl
  rw [hval] at hloop
  simp only [Option.some.injEq, Prod.mk.injEq] at hloop
  obtain ⟨⟨hres, herr⟩, _⟩ := hloop
  obtain ⟨h2, h3⟩ := h1 rfl herr.symm
  exact ⟨run, hrun, by rw [h2, ← hres]; rfl, h3⟩

/-- C9: with `metadataOnly` true, `sniffer` returns the result and the error of
`SniffMetadata`, and it has called neither `Cache` nor `Sniff`: the reader,
whatever its pipe holds, is as it was, nil or not. -/
theorem sniffer_metadata_only (lib : Lib) (done : Nat → Option GoError) (sn : Sniffer)
    (cReader : Option cachedReader) :
    sniffer lib done sn cReader true =
      some { result := sn.SniffMetadata.1, err := sn.SniffMetadata.2,
             state := { cReader := cReader, sniffed := [], cacheCalls := 0 } } := by
  unfold sniffer
  rcases sn.SniffMetadata with ⟨mr, me⟩
  simp

/-! ### getLink -/

theorem length_pos_iff_ne_empty (s : String) : s.length > 0 ↔ s ≠ "" := by
  rcases s with ⟨l⟩
  cases l with
  | nil => simp [String.length]
  | cons c cs => simp [String.length, String.ext_iff]

/-- C10: for a context whose inbound user has a non-empty email, the writer of
the inbound link is the uplink pipe's writer wrapped with the counter `c` exactly
when the policy of the user's level enables `UserUplink` and the stats manager,
asked for `"user>>>" ++ email ++ ">>>traffic>>>uplink"`, yields `c`, and is the
bare pipe writer otherwise; likewise for the writer of the outbound link with
`UserDownlink` and `"user>>>" ++ email ++ ">>>traffic>>>downlink"`; and the
manager is asked for these names and no other.  Without an inbound, without a
user or with an empty email both writers are the bare pipe writers and the
manager is asked nothing. -/
theorem getLink_counters (d : DefaultDispatcher) (ctx : Context) :
    (∀ inb user, ctx.inbound = some inb → inb.User = some user → user.Email ≠ "" →
      (∀ c, (d.getLink ctx).1.Writer = Writer.SizeStatWriter c (Writer.pipe PipeId.uplink) ↔
        ((d.policy.ForLevel user.Level).Stats.UserUplink = true ∧
          (GetOrRegisterCounter d.stats
            ("user>>>" ++ user.Email ++ ">>>traffic>>>uplink")).1 = some c)) ∧
      (¬ ((d.policy.ForLevel user.Level).Stats.UserUplink = true ∧
          ∃ c, (GetOrRegisterCounter d.stats
            ("user>>>" ++ user.Email ++ ">>>traffic>>>uplink")).1 = some c) →
        (d.getLink ctx).1.Writer = Writer.pipe PipeId.uplink) ∧
      (∀ c, (d.getLink ctx).2.1.Writer =
          Writer.SizeStatWriter c (Writer.pipe PipeId.downlink) ↔
        ((d.policy.ForLevel user.Level).Stats.UserDownlink = true ∧
          (GetOrRegisterCounter
            (if (d.policy.ForLevel user.Level).Stats.UserUplink = true then
              (GetOrRegisterCounter d.stats
                ("user>>>" ++ user.Email ++ ">>>traffic>>>uplink")).2
             else d.stats)
            ("user>>>" ++ user.Email ++ ">>>traffic>>>downlink")).1 = some c)) ∧
      (¬ ((d.policy.ForLevel user.Level).Stats.UserDownlink = true ∧
          ∃ c, (GetOrRegisterCounter
            (if (d.policy.ForLevel user.Level).Stats.UserUplink = true then
              (GetOrRegisterCounter d.stats
                ("user>>>" ++ user.Email ++ ">>>traffic>>>uplink")).2
             else d.stats)
            ("user>>>" ++ user.Email ++ ">>>traffic>>>downlink")).1 = some c) →
        (d.getLink ctx).2.1.Writer = Writer.pipe PipeId.downlink) ∧
      (d.getLink ctx).2.2.requested =
        d.stats.requested ++
          (if (d.policy.ForLevel user.Level).Stats.UserUplink = true then
            ["user>>>" ++ user.Email ++ ">>>traffic>>>uplink"] else []) ++
          (if (d.policy.ForLevel user.Level).Stats.UserDownlink = true then
            ["user>>>" ++ user.Email ++ ">>>traffic>>>downlink"] else [])) ∧
    ((ctx.inbound = none ∨ (∃ inb, ctx.inbound = some inb ∧ inb.User = none) ∨
        (∃ inb user, ctx.inbound = some inb ∧ inb.User = some user ∧ user.Email = "")) →
      (d.getLink ctx).1.Writer = Writer.pipe PipeId.uplink ∧
      (d.getLink ctx).2.1.Writer = Writer.pipe PipeId.downlink ∧
      (d.getLink ctx).2.2 = d.stats) := by
  constructor
  · intro inb user hin hu he
    have hlen : user.Email.length > 0 := (length_pos_iff_ne_empty _).2 he
    unfold DefaultDispatcher.getLink
    simp only [hin, hu, hlen, if_true, GetOrRegisterCounter]
    cases hup : (d.policy.ForLevel user.Level).Stats.UserUplink
    · cases hdown : (d.policy.ForLevel user.Level).Stats.UserDownlink
      · simp
      · cases h2 : d.stats.respond d.stats.requested
            ("user>>>" ++ user.Email ++ ">>>traffic>>>downlink") <;>
          simp [h2, eq_comm]
    · cases h1 : d.stats.respond d.stats.requested
          ("user>>>" ++ user.Email ++ ">>>traffic>>>uplink")
      all_goals
        cases hdown : (d.policy.ForLevel user.Level).Stats.UserDownlink
        · simp [h1, eq_comm]
        · cases h3 : d.stats.respond
              (d.stats.requested ++ ["user>>>" ++ user.Email ++ ">>>traffic>>>uplink"])
              ("user>>>" ++ user.Email ++ ">>>traffic>>>downlink") <;>
            simp [h1, h3, eq_comm]
  · intro h
    unfold DefaultDispatcher.getLink
    rcases h with h | ⟨inb, hin, hu⟩ | ⟨inb, user, hin, hu, he⟩
    · simp [h]
    · simp [hin, hu]
    · simp [hin, hu, he]

/-- The statement of C10 at the example context, whose user is `a@b`: the
inbound writer is wrapped with the counter the manager yields for the uplink
name. -/
theorem getLink_counters_witness :
    (GetOrRegisterCounter exampleDispatcher.stats "user>>>a@b>>>traffic>>>uplink").1 =
      some { ident := 0 } ∧
    (exampleDispatcher.getLink exampleContext).1.Writer =
      Writer.SizeStatWriter { ident := 0 } (Writer.pipe PipeId.uplink) :=
  ⟨rfl,
   (((getLink_counters exampleDispatcher exampleContext).1
      { Tag := "socks-in", User := some { Email := "a@b", Level := 0 } }
      { Email := "a@b", Level := 0 } rfl rfl (by decide)).1 { ident := 0 }).2 ⟨rfl, rfl⟩⟩

/-! ### Dispatch -/

theorem afterSniff_override (lib : Lib) (d : DefaultDispatcher) (ctx : Context)
    (inbound outbound : Link) (stats : StatsManager) (ob : Outbound) (content : Content)
    (run : SniffRun) (destination : Destination) (r : SniffResult) (s1 : Instance)
    (herr : run.err = none) (hres : run.result = some r)
    (hso : shouldOverride lib ctx.server r content.SniffingRequest destination =
      some (true, s1)) :
    afterSniff lib d ctx inbound outbound stats ob content run destination =
      some (dispatchTail d ctx inbound outbound stats
        { ob with Target := { destination with Address := lib.ParseAddress r.Domain } }
        { content with Protocol := r.Protocol } s1 (some run)
        { destination with Address := lib.ParseAddress r.Domain }) := by
  unfold afterSniff
  simp only [herr, hres, if_true, hso]

theorem afterSniff_keep (lib : Lib) (d : DefaultDispatcher) (ctx : Context)
    (inbound outbound : Link) (stats : StatsManager) (ob : Outbound) (content : Content)
    (run : SniffRun) (destination : Destination) (out : Dispatched)
    (h : afterSniff lib d ctx inbound outbound stats ob content run destination = some out)
    (hn : ¬ ∃ r s1, run.err = none ∧ run.result = some r ∧
      shouldOverride lib ctx.server r content.SniffingRequest destination = some (true, s1)) :
    ∃ content1 server1,
      out = dispatchTail d ctx inbound outbound stats ob content1 server1 (some run)
        destination := by
  unfold afterSniff at h
  by_cases herr : run.err = none
  · simp only [herr, if_true] at h
    cases hres : run.result with
    | none => simp [hres] at h
    | some r =>
      simp only [hres] at h
      cases hso : shouldOverride lib ctx.server r content.SniffingRequest destination with
      | none => simp [hso] at h
      | some bs =>
        rcases bs with ⟨b, s1⟩
        cases b with
        | true => exact absurd ⟨r, s1, herr, hres, hso⟩ hn
        | false =>
          simp only [hso, Option.some.injEq] at h
          exact ⟨_, _, h.symm⟩
  · simp only [herr, if_false, Option.some.injEq] at h
    exact ⟨_, _, h.symm⟩

/-- C3: when the destination is valid and the override applies (sniffing is
enabled, the sniffer call of `Dispatch` returns a result without error and
`shouldOverride` returns true on it), `Dispatch` calls `routedDispatch` once,
with a destination whose address is the parsed sniffed domain and whose port and
network are those of the destination passed to `Dispatch`, and this destination
is the target of the outbound session record.  In every `Dispatch` that returns
and in which the override does not apply, `routedDispatch` is called once with
the destination passed to `Dispatch`, which is also the target of the record. -/
theorem Dispatch_destination (lib : Lib) (sn : Sniffer) (uplink : PipeReader)
    (d : DefaultDispatcher) (ctx : Context) (destination : Destination) :
    (∀ run r s1, lib.IsValid destination = true → (requestOf ctx).Enabled = true →
      dispatchSniffer lib sn uplink ctx (requestOf ctx) destination = some run →
      run.err = none → run.result = some r →
      shouldOverride lib ctx.server r (requestOf ctx) destination = some (true, s1) →
      ∃ out call, d.Dispatch lib sn uplink ctx destination = some out ∧
        out.calls = [call] ∧
        call.destination.Address = lib.ParseAddress r.Domain ∧
        call.destination.Port = destination.Port ∧
        call.destination.Network = destination.Network ∧
        out.ob.Target = call.destination ∧
        call.ctx.outbound = some out.ob) ∧
    (∀ out, d.Dispatch lib sn uplink ctx destination = some out →
      ¬ ((requestOf ctx).Enabled = true ∧
        ∃ run r s1, dispatchSniffer lib sn uplink ctx (requestOf ctx) destination = some run ∧
          run.err = none ∧ run.result = some r ∧
          shouldOverride lib ctx.server r (requestOf ctx) destination = some (true, s1)) →
      ∃ call, out.calls = [call] ∧ call.destination = destination ∧
        out.ob.Target = destination ∧ call.ctx.outbound = some out.ob) := by
  have hc : contentOf { ctx with outbound := some { Target := destination } } =
      contentOf ctx := rfl
  constructor
  · intro run r s1 hv hen hsn herr hres hso
    unfold DefaultDispatcher.Dispatch
    unfold requestOf at hen hsn hso
    unfold dispatchSniffer at hsn
    have hen1 : ¬ ((!(contentOf ctx).SniffingRequest.Enabled) = true) := by simp [hen]
    have hv1 : ¬ ((!lib.IsValid destination) = true) := by simp [hv]
    rw [if_neg hv1]
    simp only [hc]
    rw [if_neg hen1]
    by_cases hnet : destination.Network ≠ Network.TCP
    · rw [if_pos hnet] at hsn
      rw [if_pos hnet, hsn]
      exact ⟨_, _, afterSniff_override lib d
        { ctx with outbound := some { Target := destination }, content := some (contentOf ctx) }
        _ _ _ { Target := destination } (contentOf ctx) run destination r s1
        herr hres hso, rfl, rfl, rfl, rfl, rfl, rfl⟩
    · rw [if_neg hnet] at hsn
      rw [if_neg hnet, hsn]
      exact ⟨_, _, afterSniff_override lib d
        { ctx with outbound := some { Target := destination }, content := some (contentOf ctx) }
        _ _ _ { Target := destination } (contentOf ctx) run destination r s1
        herr hres hso, rfl, rfl, rfl, rfl, rfl, rfl⟩
  · intro out h hn
    unfold DefaultDispatcher.Dispatch at h
    by_cases hv : lib.IsValid destination = true
    · have hv1 : ¬ ((!lib.IsValid destination) = true) := by simp [hv]
      rw [if_neg hv1] at h
      simp only [hc] at h
      unfold requestOf dispatchSniffer at hn
      by_cases hen : (contentOf ctx).SniffingRequest.Enabled = true
      · have hen1 : ¬ ((!(contentOf ctx).SniffingRequest.Enabled) = true) := by simp [hen]
        rw [if_neg hen1] at h
        by_cases hnet : destination.Network ≠ Network.TCP
        · rw [if_pos hnet] at h hn
          cases hsn : sniffer lib ctx.done sn none true with
          | none => simp [hsn] at h
          | some run =>
            simp only [hsn] at h
            obtain ⟨c1, s1, hout⟩ := afterSniff_keep lib d _ _ _ _ _ _ run destination
              out h (by
                rintro ⟨r, s2, herr, hres, hso⟩
                exact hn ⟨hen, run, r, s2, hsn, herr, hres, hso⟩)
            subst hout
            exact ⟨_, rfl, rfl, rfl, rfl⟩
        · rw [if_neg hnet] at h hn
          cases hsn : sniffer lib ctx.done sn (some { reader := uplink, cache := [] })
              (contentOf ctx).SniffingRequest.MetadataOnly with
          | none => simp [hsn] at h
          | some run =>
            simp only [hsn] at h
            obtain ⟨c1, s1, hout⟩ := afterSniff_keep lib d _ _ _ _ _ _ run destination
              out h (by
                rintro ⟨r, s2, herr, hres, hso⟩
                exact hn ⟨hen, run, r, s2, hsn, herr, hres, hso⟩)
            subst hout
            exact ⟨_, rfl, rfl, rfl, rfl⟩
      · have hen1 : (!(contentOf ctx).SniffingRequest.Enabled) = true := by simpa using hen
        rw [if_pos hen1] at h
        simp only [Option.some.injEq] at h
        subst h
        exact ⟨_, rfl, rfl, rfl, rfl⟩
    · simp [hv] at h

/-- The statement of C3 at two dispatches.  In the first the payload sniffer
finds TLS with the name `example.org`, the request overrides for `tls`, and the
destination 1.2.3.4:443 is handed on as `example.org:443` on TCP.  In the second
the context has no content, so sniffing is off, and the destination is handed
on as it is. -/
theorem Dispatch_destination_witness :
    (∃ out call,
      exampleDispatcher.Dispatch exampleLib exampleSniffer examplePipe exampleContext
        exampleDestination = some out ∧
      out.calls = [call] ∧
      call.destination.Address = Address.domain "example.org" ∧
      call.destination.Port = 443 ∧
      call.destination.Network = Network.TCP ∧
      out.ob.Target = call.destination) ∧
    (∃ out call,
      exampleDispatcher.Dispatch exampleLib exampleSniffer examplePipe bareContext
        exampleDestination = some out ∧
      out.calls = [call] ∧ call.destination = exampleDestination) := by
  constructor
  · obtain ⟨out, call, h1, h2, h3, h4, h5, h6, _⟩ :=
      (Dispatch_destination exampleLib exampleSniffer examplePipe exampleDispatcher
        exampleContext exampleDestination).1 exampleRun tlsResult queuedInstance
        rfl rfl rfl rfl rfl rfl
    exact ⟨out, call, h1, h2, h3, h4, h5, h6⟩
  · obtain ⟨out, hout⟩ := Option.isSome_iff_exists.1
      (show (exampleDispatcher.Dispatch exampleLib exampleSniffer examplePipe bareContext
        exampleDestination).isSome = true from rfl)
    obtain ⟨call, h1, h2, _⟩ :=
      (Dispatch_destination exampleLib exampleSniffer examplePipe exampleDispatcher
        bareContext exampleDestination).2 out hout (fun h => absurd h.1 (by decide))
    exact ⟨out, call, hout, h1, h2⟩

theorem afterSniff_error (lib : Lib) (d : DefaultDispatcher) (ctx : Context)
    (inbound outbound : Link) (stats : StatsManager) (ob : Outbound) (content : Content)
    (run : SniffRun) (destination : Destination) (herr : run.err ≠ none) :
    afterSniff lib d ctx inbound outbound stats ob content run destination =
      some (dispatchTail d ctx inbound outbound stats ob content ctx.server (some run)
        destination) := by
  unfold afterSniff
  rw [if_neg herr]

theorem sniffer_returns (lib : Lib) (done : Nat → Option GoError) (sn : Sniffer)
    (cReader : cachedReader) (metadataOnly : Bool) :
    ∃ run, sniffer lib done sn (some cReader) metadataOnly = some run := by
  obtain ⟨⟨cres, cerr⟩, st, hloop⟩ :=
    contentLoop_returns lib done sn 2 0
      { cReader := some cReader, sniffed := [], cacheCalls := 0 } rfl (by omega)
  unfold sniffer
  rcases sn.SniffMetadata with ⟨mr, me⟩
  cases metadataOnly with
  | true => exact ⟨_, rfl⟩
  | false =>
    simp only [hloop, Bool.false_eq_true, if_false]
    repeat' split
    all_goals exact ⟨_, rfl⟩

theorem sniffer_nil_reader (lib : Lib) (done : Nat → Option GoError) (sn : Sniffer) :
    ∃ run, sniffer lib done sn none true = some run := by
  unfold sniffer
  rcases sn.SniffMetadata with ⟨mr, me⟩
  exact ⟨_, rfl⟩

theorem dispatchSniffer_returns (lib : Lib) (sn : Sniffer) (uplink : PipeReader)
    (ctx : Context) (request : SniffingRequest) (destination : Destination) :
    ∃ run, dispatchSniffer lib sn uplink ctx request destination = some run := by
  unfold dispatchSniffer
  by_cases hnet : destination.Network ≠ Network.TCP
  · rw [if_pos hnet]
    exact sniffer_nil_reader lib ctx.done sn
  · rw [if_neg hnet]
    exact sniffer_returns lib ctx.done sn _ _

/-- C11: for a valid destination and a context with sniffing enabled, the
sniffer call of `Dispatch` returns, and when it returns an error, whichever it
is, `Dispatch` returns too: `routedDispatch` is called exactly once, with the
destination passed to `Dispatch`, the target of the outbound record is that
destination, the content record (its `Protocol` included) is the one `Dispatch`
started with, and the instance is as it was. -/
theorem Dispatch_sniff_error (lib : Lib) (sn : Sniffer) (uplink : PipeReader)
    (d : DefaultDispatcher) (ctx : Context) (destination : Destination)
    (hv : lib.IsValid destination = true) (hen : (requestOf ctx).Enabled = true) :
    ∃ run, dispatchSniffer lib sn uplink ctx (requestOf ctx) destination = some run ∧
      (run.err ≠ none →
        ∃ out call, d.Dispatch lib sn uplink ctx destination = some out ∧
          out.calls = [call] ∧
          call.destination = destination ∧
          out.ob.Target = destination ∧
          out.content = contentOf ctx ∧
          call.ctx.content = some (contentOf ctx) ∧
          call.ctx.server = ctx.server) := by
  obtain ⟨run, hsn⟩ := dispatchSniffer_returns lib sn uplink ctx (requestOf ctx) destination
  refine ⟨run, hsn, ?_⟩
  intro herr
  have hc : contentOf { ctx with outbound := some { Target := destination } } =
      contentOf ctx := rfl
  unfold DefaultDispatcher.Dispatch
  unfold requestOf at hen hsn
  unfold dispatchSniffer at hsn
  have hen1 : ¬ ((!(contentOf ctx).SniffingRequest.Enabled) = true) := by simp [hen]
  have hv1 : ¬ ((!lib.IsValid destination) = true) := by simp [hv]
  rw [if_neg hv1]
  simp only [hc]
  rw [if_neg hen1]
  by_cases hnet : destination.Network ≠ Network.TCP
  · rw [if_pos hnet] at hsn
    rw [if_pos hnet, hsn]
    exact ⟨_, _, afterSniff_error lib d
      { ctx with outbound := some { Target := destination }, content := some (contentOf ctx) }
      _ _ _ { Target := destination } (contentOf ctx) run destination herr,
      rfl, rfl, rfl, rfl, rfl, rfl⟩
  · rw [if_neg hnet] at hsn
    rw [if_neg hnet, hsn]
    exact ⟨_, _, afterSniff_error lib d
      { ctx with outbound := some { Target := destination }, content := some (contentOf ctx) }
      _ _ _ { Target := destination } (contentOf ctx) run destination herr,
      rfl, rfl, rfl, rfl, rfl, rfl⟩

/-- The statement of C11 at a dispatch whose sniffer never has a clue: sniffing
ends with the timeout error and the destination 1.2.3.4:443 is handed on as it
is, the protocol of the content staying empty. -/
theorem Dispatch_sniff_error_witness :
    exampleLib.IsValid exampleDestination = true ∧
    (requestOf exampleContext).Enabled = true ∧
    ∃ run out call,
      dispatchSniffer exampleLib cluelessSniffer examplePipe exampleContext
        (requestOf exampleContext) exampleDestination = some run ∧
      run.err = some GoError.errSniffingTimeout ∧
      exampleDispatcher.Dispatch exampleLib cluelessSniffer examplePipe exampleContext
        exampleDestination = some out ∧
      out.calls = [call] ∧ call.destination = exampleDestination ∧
      out.content.Protocol = "" := by
  obtain ⟨run, hrun, h⟩ :=
    Dispatch_sniff_error exampleLib cluelessSniffer examplePipe exampleDispatcher
      exampleContext exampleDestination rfl rfl
  have hval : dispatchSniffer exampleLib cluelessSniffer examplePipe exampleContext
      (requestOf exampleContext) exampleDestination =
      some { result := none, err := some GoError.errSniffingTimeout,
             state := { cReader := some { reader := { reads := [] }, cache := [[22, 3, 1]] },
                        sniffed := [[22, 3, 1], [22, 3, 1]], cacheCalls := 2 } } := rfl
  rw [hval] at hrun
  have hr := (Option.some.inj hrun).symm
  subst hr
  obtain ⟨out, call, h1, h2, h3, _, h5, _, _⟩ := h (by simp)
  exact ⟨rfl, rfl, _, out, call, hval, rfl, h1, h2, h3, by rw [h5]; rfl⟩

/-! ### Instance.Start and Instance.Close -/

theorem startLoop_first_error (l : List Feature) :
    ∀ (k : Nat) (f : Feature) (e : GoError), l[k]? = some f → f.Start = some e →
      (∀ i g, i < k → l[i]? = some g → g.Start = none) →
      startLoop l = (l.take (k + 1), some e) := by
  induction l with
  | nil => intro k f e h; simp at h
  | cons a rest ih =>
    intro k f e hk hf hbefore
    cases k with
    | zero =>
      simp only [List.getElem?_cons_zero, Option.some.injEq] at hk
      subst hk
      simp [startLoop, hf]
    | succ k =>
      have ha : a.Start = none := hbefore 0 a (by omega) (by simp)
      have hrec := ih k f e (by simpa using hk) hf (by
        intro i g hi hg
        exact hbefore (i + 1) g (by omega) (by simpa using hg))
      simp [startLoop, ha, hrec]

theorem startLoop_no_error (l : List Feature) (h : ∀ f ∈ l, f.Start = none) :
    startLoop l = (l, none) := by
  induction l with
  | nil => rfl
  | cons a rest ih =>
    have ha : a.Start = none := h a (by simp)
    have hrec := ih (fun f hf => h f (by simp [hf]))
    simp [startLoop, ha, hrec]

/-- C15: `Instance.Start` sets `running` and keeps the features; when the
feature at position `k` of the registration order is the first whose `Start`
returns an error, `Instance.Start` returns that error and the features started
are those up to and including position `k`, each once and in registration
order, none after it; when no `Start` returns an error, every feature is
started once, in registration order, and `Instance.Start` returns nil. -/
theorem Start_in_order (s : Instance) :
    s.Start.inst.running = true ∧ s.Start.inst.features = s.features ∧
    (∀ (k : Nat) (f : Feature) (e : GoError), s.features[k]? = some f → f.Start = some e →
      (∀ i g, i < k → s.features[i]? = some g → g.Start = none) →
      s.Start.err = some e ∧ s.Start.started = s.features.take (k + 1)) ∧
    ((∀ f ∈ s.features, f.Start = none) →
      s.Start.err = none ∧ s.Start.started = s.features) := by
  refine ⟨rfl, rfl, ?_, ?_⟩
  · intro k f e hk hf hbefore
    have h := startLoop_first_error s.features k f e hk hf hbefore
    simp [Instance.Start, h]
  · intro hall
    have h := startLoop_no_error s.features hall
    simp [Instance.Start, h]

/-- The statement of C15 at an instance whose second feature fails to start:
the error is returned and the third feature is not started. -/
theorem Start_in_order_witness :
    threeFeatures.Start.err = some (GoError.other 5) ∧
    threeFeatures.Start.started = threeFeatures.features.take 2 ∧
    threeFeatures.Start.started.map (fun f => f.ident) = [1, 2] := by
  have h := (Start_in_order threeFeatures).2.2.1 1
    (plainFeature 2 "routing.Router" (some (GoError.other 5)) (some (GoError.other 6)))
    (GoError.other 5) rfl rfl (by
      intro i g hi hg
      have hi0 : i = 0 := by omega
      subst hi0
      simp only [threeFeatures, List.getElem?_cons_zero, Option.some.injEq] at hg
      subst hg
      rfl)
  exact ⟨h.1, h.2, by rw [h.2]; rfl⟩

theorem closeLoop_closed (l : List Feature) : (closeLoop l).1 = l := by
  induction l with
  | nil => rfl
  | cons a rest ih => cases h : a.Close <;> simp [closeLoop, h, ih]

theorem closeLoop_errors (l : List Feature) :
    (closeLoop l).2 ≠ [] ↔ ∃ f ∈ l, f.Close ≠ none := by
  induction l with
  | nil => simp [closeLoop]
  | cons a rest ih =>
    cases h : a.Close with
    | none => simp [closeLoop, h, ih]
    | some e => simp [closeLoop, h]

/-- C16: `Instance.Close` sets `running` to false, calls `Close` on every
registered feature exactly once, whether or not an earlier `Close` failed (the
features closed are the registered features), and returns an error if and only
if the `Close` of at least one feature returned an error. -/
theorem Close_all_features (s : Instance) :
    s.Close.inst.running = false ∧ s.Close.inst.features = s.features ∧
    s.Close.closed = s.features ∧
    (s.Close.err ≠ none ↔ ∃ f ∈ s.features, f.Close ≠ none) := by
  refine ⟨rfl, rfl, closeLoop_closed s.features, ?_⟩
  rw [← closeLoop_errors]
  unfold Instance.Close
  cases h : (closeLoop s.features).2 with
  | nil => simp [h]
  | cons e es => simp [h]

/-- The statement of C16 at an instance whose second feature fails to close:
all three features are closed and an error is returned. -/
theorem Close_all_features_witness :
    threeFeatures.Close.closed.map (fun f => f.ident) = [1, 2, 3] ∧
    threeFeatures.Close.err ≠ none :=
  ⟨by rw [(Close_all_features threeFeatures).2.2.1]; rfl,
   (Close_all_features threeFeatures).2.2.2.2
     ⟨plainFeature 2 "routing.Router" (some (GoError.other 5)) (some (GoError.other 6)),
      by simp [threeFeatures], by simp [plainFeature]⟩⟩

/-- C17, the claim as stated fails: of three features registered in the order
1, 2, 3, `Instance.Close` closes 1 first and 3 last. -/
theorem Close_not_reversed :
    threeFeatures.features.map (fun f => f.ident) = [1, 2, 3] ∧
    threeFeatures.Close.closed.map (fun f => f.ident) = [1, 2, 3] ∧
    threeFeatures.Close.closed.map (fun f => f.ident) ≠ [3, 2, 1] := by
  refine ⟨by decide, by decide, by decide⟩

/-- C17, amended: `Instance.Close` closes the registered features in
registration order: for `i < j` the feature registered at position `i` is the
one closed at position `i` and the feature registered at position `j` is the
one closed at position `j`, so the former is closed before the latter. -/
theorem Close_in_order (s : Instance) (i j : Nat) (hij : i < j)
    (hj : j < s.features.length) :
    ∃ fi fj, s.features[i]? = some fi ∧ s.features[j]? = some fj ∧
      s.Close.closed[i]? = some fi ∧ s.Close.closed[j]? = some fj := by
  have hc : s.Close.closed = s.features := closeLoop_closed s.features
  have hi : i < s.features.length := by omega
  exact ⟨s.features[i], s.features[j], List.getElem?_eq_getElem hi,
    List.getElem?_eq_getElem hj, by rw [hc]; exact List.getElem?_eq_getElem hi,
    by rw [hc]; exact List.getElem?_eq_getElem hj⟩

/-- The amended C17 at the first and the third of three features. -/
theorem Close_in_order_witness :
    (0 : Nat) < 2 ∧ 2 < threeFeatures.features.length ∧
    ∃ fi fj, threeFeatures.features[0]? = some fi ∧ threeFeatures.features[2]? = some fj ∧
      threeFeatures.Close.closed[0]? = some fi ∧ threeFeatures.Close.closed[2]? = some fj :=
  ⟨by decide, by decide, Close_in_order threeFeatures 0 2 (by decide) (by decide)⟩

/-! ### Instance.AddFeature and Instance.RequireFeatures -/

theorem getFeature_mem (l : List Feature) (t : RType) (f : Feature)
    (h : getFeature l t = some f) : f ∈ l ∧ f.typeOfType = t := by
  induction l with
  | nil => simp [getFeature] at h
  | cons a rest ih =>
    unfold getFeature at h
    by_cases ha : a.typeOfType = t
    · simp only [ha, if_true, Option.some.injEq] at h
      subst h
      exact ⟨by simp, ha⟩
    · simp only [ha, if_false] at h
      exact ⟨by simp [(ih h).1], (ih h).2⟩

theorem getFeature_append_some (l m : List Feature) (t : RType) (f : Feature)
    (h : getFeature l t = some f) : getFeature (l ++ m) t = some f := by
  induction l with
  | nil => simp [getFeature] at h
  | cons a rest ih =>
    unfold getFeature at h
    by_cases ha : a.typeOfType = t
    · simp only [ha, if_true] at h
      simp [getFeature, ha, h]
    · simp only [ha, if_false] at h
      simp [getFeature, ha, ih h]

theorem getFeature_append_none (l m : List Feature) (t : RType)
    (h : getFeature l t = none) : getFeature (l ++ m) t = getFeature m t := by
  induction l with
  | nil => rfl
  | cons a rest ih =>
    unfold getFeature at h
    by_cases ha : a.typeOfType = t
    · simp [ha] at h
    · simp only [ha, if_false] at h
      simp [getFeature, ha, ih h]

theorem resolve_finished (r : resolution) (all : List Feature) (res : Resolved)
    (h : r.resolve all = some res) : res.finished = depsRegistered all r.deps := by
  unfold resolution.resolve at h
  unfold depsRegistered
  cases hd : resolveDeps all r.deps with
  | none =>
    simp only [hd, Option.some.injEq] at h
    subst h
    rfl
  | some fs =>
    simp only [hd] at h
    by_cases hl : (resolveInput fs r.callback.In).length ≠ r.callback.In.length
    · simp [hl] at h
    · simp only [hl, if_false, Option.some.injEq] at h
      subst h
      rfl

theorem rerunLoop_ok (all : List Feature) (l : List resolution) :
    ∀ out, rerunLoop all l = some out → out.err = none →
      out.pending = l.filter (fun r => !depsRegistered all r.deps) ∧
      out.fired.map (fun x => x.callback) =
        (l.filter (fun r => depsRegistered all r.deps)).map (fun r => r.callback) := by
  induction l with
  | nil =>
    intro out h _
    simp only [rerunLoop, Option.some.injEq] at h
    subst h
    simp
  | cons r rs ih =>
    intro out h herr
    unfold rerunLoop at h
    cases hr : r.resolve all with
    | none => simp [hr] at h
    | some res =>
      have hfin := resolve_finished r all res hr
      simp only [hr] at h
      by_cases hc : res.finished = true ∧ res.err ≠ none
      · rw [if_pos hc] at h
        simp only [Option.some.injEq] at h
        subst h
        exact absurd herr hc.2
      · rw [if_neg hc] at h
        cases hrest : rerunLoop all rs with
        | none => simp [hrest] at h
        | some o =>
          simp only [hrest] at h
          cases hf : res.finished with
          | false =>
            simp only [hf, Bool.not_false, if_true, Option.some.injEq] at h
            subst h
            have hi := ih o hrest herr
            rw [hf] at hfin
            simp [List.filter_cons, ← hfin, hi.1, hi.2]
          | true =>
            simp only [hf, Bool.not_true, Bool.false_eq_true, if_false,
              Option.some.injEq] at h
            subst h
            have hi := ih o hrest herr
            rw [hf] at hfin
            simp [List.filter_cons, ← hfin, hi.1, hi.2]

theorem AddFeature_features (s : Instance) (f : Feature) (out : Added)
    (h : s.AddFeature f = some out) :
    out.inst.features = s.features ++ [f] ∧ out.inst.running = s.running := by
  unfold Instance.AddFeature at h
  simp only at h
  split at h
  · simp only [Option.some.injEq] at h
    subst h
    exact ⟨rfl, rfl⟩
  · split at h
    · simp only [Option.some.injEq] at h
      subst h
      exact ⟨rfl, rfl⟩
    · split at h
      · simp at h
      · split at h
        · simp only [Option.some.injEq] at h
          subst h
          exact ⟨rfl, rfl⟩
        · repeat' split at h
          all_goals
            simp only [Option.some.injEq] at h
            subst h
            exact ⟨rfl, rfl⟩

/-- C18, the claim as stated fails: after `AddFeature` of two features whose
`Type()` is the DNS client type, both are in the feature list. -/
theorem AddFeature_same_type_twice :
    ((emptyInstance.AddFeature (plainFeature 1 "dns.Client" none none)).bind
        (fun o => o.inst.AddFeature (plainFeature 2 "dns.Client" none none))).map
      (fun o => o.inst.features.map (fun f => (f.ident, decide (f.typeOfType = dnsClientType))))
      = some [(1, true), (2, true)] := by
  decide

/-- C18, amended: `AddFeature` appends the feature whatever is registered, and
for every type a registered feature has, `GetFeature` returns after the call
the feature it returned before: the first registered of that type. -/
theorem AddFeature_keeps_first (s : Instance) (f g : Feature) (t : RType) (out : Added)
    (hg : s.GetFeature t = some g) (hout : s.AddFeature f = some out) :
    out.inst.features = s.features ++ [f] ∧ out.inst.GetFeature t = some g := by
  have h := (AddFeature_features s f out hout).1
  refine ⟨h, ?_⟩
  unfold Instance.GetFeature at hg ⊢
  rw [h]
  exact getFeature_append_some _ _ _ _ hg

/-- The amended C18 at an instance that has a DNS client, to which a second
feature of the DNS client type is added. -/
theorem AddFeature_keeps_first_witness :
    ∃ out,
      threeFeatures.GetFeature dnsClientType = some (plainFeature 1 "dns.Client" none none) ∧
      threeFeatures.AddFeature (plainFeature 4 "dns.Client" none none) = some out ∧
      out.inst.features = threeFeatures.features ++ [plainFeature 4 "dns.Client" none none] ∧
      out.inst.GetFeature dnsClientType = some (plainFeature 1 "dns.Client" none none) :=
  ⟨_, rfl, rfl,
    AddFeature_keeps_first threeFeatures (plainFeature 4 "dns.Client" none none)
      (plainFeature 1 "dns.Client" none none) dnsClientType _ rfl rfl⟩

theorem resolveDeps_found (all : List Feature) (ds : List RType) :
    ∀ fs, resolveDeps all ds = some fs →
      (∀ d ∈ ds, ∃ f ∈ fs, getFeature all d = some f) ∧ (∀ f ∈ fs, f ∈ all) := by
  induction ds with
  | nil =>
    intro fs h
    simp only [resolveDeps, Option.some.injEq] at h
    subst h
    simp
  | cons d rest ih =>
    intro fs h
    unfold resolveDeps at h
    cases hg : getFeature all d with
    | none => simp [hg] at h
    | some f =>
      simp only [hg] at h
      cases hr : resolveDeps all rest with
      | none => simp [hr] at h
      | some fs1 =>
        simp only [hr, Option.some.injEq] at h
        subst h
        obtain ⟨h1, h2⟩ := ih fs1 hr
        constructor
        · intro d1 hd1
          rcases List.mem_cons.1 hd1 with heq | hmem
          · subst heq
            exact ⟨f, by simp, hg⟩
          · obtain ⟨f1, hf1, hgf⟩ := h1 d1 hmem
            exact ⟨f1, by simp [hf1], hgf⟩
        · intro f1 hf1
          rcases List.mem_cons.1 hf1 with heq | hmem
          · subst heq
            exact (getFeature_mem all d f1 hg).1
          · exact h2 f1 hmem

theorem resolveInput_length (fs : List Feature) (l : List RType)
    (h : ∀ pt ∈ l, ∃ f ∈ fs, f.AssignableTo pt = true) :
    (resolveInput fs l).length = l.length := by
  induction l with
  | nil => rfl
  | cons pt rest ih =>
    unfold resolveInput
    obtain ⟨f, hf, ha⟩ := h pt (by simp)
    cases hfind : fs.find? (fun f => f.AssignableTo pt) with
    | none =>
      have := List.find?_eq_none.1 hfind f hf
      simp [ha] at this
    | some g =>
      simp [ih (fun pt1 h1 => h pt1 (by simp [h1]))]

theorem resolveInput_mem (fs : List Feature) (l : List RType) :
    ∀ g ∈ resolveInput fs l, g ∈ fs := by
  induction l with
  | nil => simp [resolveInput]
  | cons pt rest ih =>
    intro g hg
    unfold resolveInput at hg
    cases hfind : fs.find? (fun f => f.AssignableTo pt) with
    | none =>
      simp only [hfind] at hg
      exact ih g hg
    | some g1 =>
      simp only [hfind, List.mem_cons] at hg
      rcases hg with heq | hmem
      · subst heq
        exact List.mem_of_find?_eq_some hfind
      · exact ih g hmem

theorem wellTyped_assignable (f : Feature) (pt : RType) (hw : f.wellTyped = true)
    (ht : f.typeOfType = PtrTo pt) : f.AssignableTo pt = true := by
  unfold Feature.wellTyped at hw
  rw [ht] at hw
  exact hw

/-- On features that implement what they are registered under, the resolution
`RequireFeatures` makes for a callback does not panic; it calls the callback,
with one registered feature for each parameter, exactly when the dependencies
are all registered. -/
theorem resolve_made (all : List Feature) (r : resolution)
    (hw : ∀ f ∈ all, f.wellTyped = true) (hm : r.made = true) :
    ∃ res, r.resolve all = some res ∧ res.finished = depsRegistered all r.deps ∧
      (res.finished = true → res.err = r.callback.Call res.input ∧
        res.input.length = r.callback.In.length ∧ ∀ g ∈ res.input, g ∈ all) ∧
      (res.finished = false → res.err = none ∧ res.input = []) := by
  have hdeps : r.deps = r.callback.In.map PtrTo := by simpa [resolution.made] using hm
  unfold resolution.resolve depsRegistered
  cases hd : resolveDeps all r.deps with
  | none => exact ⟨_, rfl, rfl, by simp, by simp⟩
  | some fs =>
    obtain ⟨h1, h2⟩ := resolveDeps_found all r.deps fs hd
    have hlen : (resolveInput fs r.callback.In).length = r.callback.In.length := by
      apply resolveInput_length
      intro pt hpt
      obtain ⟨f, hf, hg⟩ := h1 (PtrTo pt) (by rw [hdeps]; exact List.mem_map_of_mem _ hpt)
      obtain ⟨hfa, hft⟩ := getFeature_mem all _ f hg
      exact ⟨f, hf, wellTyped_assignable f pt (hw f hfa) hft⟩
    simp only [hlen, ne_eq, not_true_eq_false, if_false]
    refine ⟨_, rfl, rfl, ?_, by simp⟩
    intro _
    exact ⟨rfl, hlen, fun g hg => h2 g (resolveInput_mem fs _ g hg)⟩

theorem rerunLoop_returns (all : List Feature) (l : List resolution)
    (hw : ∀ f ∈ all, f.wellTyped = true) (hm : ∀ r ∈ l, r.made = true) :
    ∃ out, rerunLoop all l = some out := by
  induction l with
  | nil => exact ⟨_, rfl⟩
  | cons r rs ih =>
    obtain ⟨res, hres, _⟩ := resolve_made all r hw (hm r (by simp))
    obtain ⟨o, ho⟩ := ih (fun r1 h1 => hm r1 (by simp [h1]))
    unfold rerunLoop
    simp only [hres, ho]
    repeat' split
    all_goals exact ⟨_, rfl⟩

theorem AddFeature_returns (s : Instance) (f : Feature)
    (hw : ∀ g ∈ s.features ++ [f], g.wellTyped = true)
    (hm : ∀ r ∈ s.featureResolutions, r.made = true) :
    ∃ out, s.AddFeature f = some out := by
  obtain ⟨o, ho⟩ := rerunLoop_returns (s.features ++ [f]) s.featureResolutions hw hm
  unfold Instance.AddFeature
  simp only [ho]
  repeat' split
  all_goals exact ⟨_, rfl⟩

theorem AddFeature_stopped (s : Instance) (f : Feature) (out : Added)
    (hr : s.running = false) (h : s.AddFeature f = some out) :
    out.started = [] ∧
    (out.err = none →
      out.inst.featureResolutions =
        s.featureResolutions.filter
          (fun r => !depsRegistered (s.features ++ [f]) r.deps) ∧
      out.fired.map (fun x => x.callback) =
        (s.featureResolutions.filter
          (fun r => depsRegistered (s.features ++ [f]) r.deps)).map
          (fun r => r.callback)) := by
  unfold Instance.AddFeature at h
  simp only [hr, Bool.false_eq_true, if_false] at h
  by_cases he : s.featureResolutions.isEmpty = true
  · rw [if_pos he] at h
    simp only [Option.some.injEq] at h
    subst h
    have hnil : s.featureResolutions = [] := List.isEmpty_iff.1 he
    simp [hnil]
  · rw [if_neg he] at h
    cases hl : rerunLoop (s.features ++ [f]) s.featureResolutions with
    | none => simp [hl] at h
    | some o =>
      simp only [hl] at h
      cases hoe : o.err with
      | some e =>
        simp only [hoe, Option.some.injEq] at h
        subst h
        simp
      | none =>
        obtain ⟨hp, hf⟩ := rerunLoop_ok _ _ o hl hoe
        simp only [hoe] at h
        by_cases h0 : o.pending.length = 0
        · rw [if_pos h0] at h
          simp only [Option.some.injEq] at h
          subst h
          refine ⟨rfl, fun _ => ⟨?_, hf⟩⟩
          rw [← hp]
          exact (List.length_eq_zero.1 h0).symm
        · rw [if_neg h0] at h
          by_cases hlt : o.pending.length < s.featureResolutions.length
          · rw [if_pos hlt] at h
            simp only [Option.some.injEq] at h
            subst h
            exact ⟨rfl, fun _ => ⟨hp, hf⟩⟩
          · rw [if_neg hlt] at h
            simp only [Option.some.injEq] at h
            subst h
            refine ⟨rfl, fun _ => ⟨?_, hf⟩⟩
            have hle := List.length_filter_le
              (fun r => !depsRegistered (s.features ++ [f]) r.deps) s.featureResolutions
            rw [← hp] at hle
            have heq : o.pending.length = s.featureResolutions.length := by omega
            rw [hp] at heq
            rw [List.filter_eq_self.2 (List.filter_length_eq_length.1 heq)]

/-- C14, the claim as stated fails: on a running instance with a callback
pending for the DNS client, `AddFeature` of a DNS client starts the feature,
calls no callback and leaves the resolution pending, though its dependency is
then registered. -/
theorem AddFeature_running_no_rerun :
    runningPending.running = true ∧
    depsRegistered (runningPending.features ++ [plainFeature 1 "dns.Client" none none])
      [dnsClientType] = true ∧
    (runningPending.AddFeature (plainFeature 1 "dns.Client" none none)).map
      (fun o => (o.started.map (fun f => f.ident), o.fired.length,
        o.inst.featureResolutions.map (fun r => r.callback.ident))) = some ([1], 0, [1]) := by
  refine ⟨rfl, by decide, by decide⟩

/-- C14, amended: `AddFeature(f)` appends `f` as the last registered feature and
keeps `running`.  On a running instance it starts `f` and returns nil, calling
no callback and leaving the pending resolutions as they are.  On an instance
that is not running it starts nothing and, when it returns nil, it has called
the callbacks of exactly the pending resolutions whose required types are all
registered after the addition, in their order, and the pending list is left
with exactly the others.  It returns whenever the features implement what they
are registered under and the pending resolutions are ones `RequireFeatures`
made. -/
theorem AddFeature_effect (s : Instance) (f : Feature) :
    (∀ out, s.AddFeature f = some out →
      out.inst.features = s.features ++ [f] ∧ out.inst.running = s.running) ∧
    (s.running = true →
      s.AddFeature f =
        some { err := none, inst := { s with features := s.features ++ [f] },
               started := [f], fired := [] }) ∧
    (s.running = false → ∀ out, s.AddFeature f = some out →
      out.started = [] ∧
      (out.err = none →
        out.inst.featureResolutions =
          s.featureResolutions.filter
            (fun r => !depsRegistered (s.features ++ [f]) r.deps) ∧
        out.fired.map (fun x => x.callback) =
          (s.featureResolutions.filter
            (fun r => depsRegistered (s.features ++ [f]) r.deps)).map
            (fun r => r.callback))) ∧
    ((∀ g ∈ s.features ++ [f], g.wellTyped = true) →
      (∀ r ∈ s.featureResolutions, r.made = true) →
      ∃ out, s.AddFeature f = some out) := by
  refine ⟨fun out h => AddFeature_features s f out h, ?_, ?_,
    fun hw hm => AddFeature_returns s f hw hm⟩
  · intro hr
    unfold Instance.AddFeature
    simp [hr]
  · intro hr out h
    exact AddFeature_stopped s f out hr h

/-- The amended C14 at an instance, not running, on which a callback is pending
for the DNS client: `AddFeature` of a DNS client calls the callback and empties
the pending list. -/
theorem AddFeature_effect_witness :
    ∃ out, stoppedPending.AddFeature (plainFeature 1 "dns.Client" none none) = some out ∧
      out.err = none ∧ out.started = [] ∧
      out.fired.map (fun x => x.callback.ident) = [1] ∧
      out.inst.featureResolutions =
        stoppedPending.featureResolutions.filter
          (fun r => !depsRegistered
            (stoppedPending.features ++ [plainFeature 1 "dns.Client" none none]) r.deps) ∧
      out.inst.featureResolutions.length = 0 := by
  have hval : stoppedPending.AddFeature (plainFeature 1 "dns.Client" none none) =
      some { err := none,
             inst := { features := [plainFeature 1 "dns.Client" none none],
                       featureResolutions := [], running := false },
             started := [],
             fired := [{ callback := clientCallback,
                         input := [plainFeature 1 "dns.Client" none none] }] } := rfl
  have h3 := (AddFeature_effect stoppedPending (plainFeature 1 "dns.Client" none none)).2.2.1
    rfl _ hval
  exact ⟨_, hval, rfl, h3.1, rfl, (h3.2 rfl).1, rfl⟩

theorem rerunLoop_reaches (all : List Feature) (r : resolution) (post : List resolution)
    (hw : ∀ f ∈ all, f.wellTyped = true) (hreg : depsRegistered all r.deps = true) :
    ∀ pre : List resolution, (∀ x ∈ pre ++ r :: post, x.made = true) →
      (∀ x ∈ pre, ∀ res, x.resolve all = some res → res.err = none) →
      ∃ out pf pl input, rerunLoop all (pre ++ r :: post) = some out ∧
        out.fired = pf ++ { callback := r.callback, input := input } :: pl ∧
        input.length = r.callback.In.length ∧ ∀ g ∈ input, g ∈ all := by
  intro pre
  induction pre with
  | nil =>
    intro hm _
    obtain ⟨res, hres, hfin, hcall, _⟩ := resolve_made all r hw (hm r (by simp))
    rw [hreg] at hfin
    obtain ⟨_, hlen, hmem⟩ := hcall hfin
    obtain ⟨o, ho⟩ := rerunLoop_returns all post hw (fun x hx => hm x (by simp [hx]))
    simp only [List.nil_append]
    unfold rerunLoop
    simp only [hres, ho, hfin]
    by_cases he : res.err ≠ none
    · exact ⟨{ err := res.err, pending := [],
               fired := [{ callback := r.callback, input := res.input }] },
        [], [], res.input, by simp [he], rfl, hlen, hmem⟩
    · exact ⟨{ o with fired := { callback := r.callback, input := res.input } :: o.fired },
        [], o.fired, res.input, by simp [he], rfl, hlen, hmem⟩
  | cons x pre ih =>
    intro hm hpre
    obtain ⟨resx, hresx, _⟩ := resolve_made all x hw (hm x (by simp))
    have hex : resx.err = none := hpre x (by simp) resx hresx
    obtain ⟨o, pf, pl, input, ho, hfired, hlen, hmem⟩ :=
      ih (fun y hy => hm y (by simp [hy])) (fun y hy => hpre y (by simp [hy]))
    simp only [List.cons_append]
    unfold rerunLoop
    simp only [hresx, ho, hex]
    cases hf : resx.finished with
    | false =>
      exact ⟨{ o with pending := x :: o.pending }, pf, pl, input, by simp, hfired, hlen, hmem⟩
    | true =>
      exact ⟨{ o with fired := { callback := x.callback, input := resx.input } :: o.fired },
        { callback := x.callback, input := resx.input } :: pf, pl, input, by simp,
        by simp [hfired], hlen, hmem⟩

theorem AddFeature_fired (s : Instance) (f : Feature) (o : Rerun)
    (hr : s.running = false) (hne : s.featureResolutions ≠ [])
    (ho : rerunLoop (s.features ++ [f]) s.featureResolutions = some o) :
    ∃ out, s.AddFeature f = some out ∧ out.fired = o.fired ∧ out.err = o.err := by
  have he : s.featureResolutions.isEmpty = false := by
    cases h : s.featureResolutions with
    | nil => exact absurd h hne
    | cons a l => rfl
  unfold Instance.AddFeature
  simp only [hr, Bool.false_eq_true, if_false, he, ho]
  cases hoe : o.err with
  | some e => exact ⟨_, rfl, rfl, rfl⟩
  | none =>
    simp only
    repeat' split
    all_goals exact ⟨_, rfl, rfl, rfl⟩

/-- C13, the claim as stated fails: on an empty instance, not running, a
callback that returns an error and then `clientCallback` are queued for the DNS
client; the `AddFeature` that registers the DNS client calls the first callback
only and returns its error, so `clientCallback` is not called by it. -/
theorem RequireFeatures_queued_not_called :
    (((emptyInstance.RequireFeatures failingCallback).bind
        (fun q1 => q1.inst.RequireFeatures clientCallback)).bind
        (fun q2 => q2.inst.AddFeature (plainFeature 1 "dns.Client" none none))).map
      (fun o => (o.err, o.fired.map (fun x => x.callback.ident),
        decide (clientCallback.ident ∈ o.fired.map (fun x => x.callback.ident)),
        depsRegistered o.inst.features (clientCallback.In.map PtrTo)))
      = some (some (GoError.other 9), [2], false, true) := by
  decide

/-- C13, amended: on features that implement what they are registered under,
`RequireFeatures(cb)` calls `cb` at once, with one registered feature for each
parameter, returns what `cb` returns and leaves the instance as it is when every
parameter type of `cb` is registered; otherwise it does not call `cb`, appends
one resolution for it to the pending list and returns nil.  A resolution so
queued, on an instance that is not running, has its callback called with one
registered feature for each parameter by the `AddFeature` after which its
dependencies are all registered, provided no resolution queued ahead of it
returns an error in that call. -/
theorem RequireFeatures_then_AddFeature (s : Instance) (cb : Callback) :
    ((∀ g ∈ s.features, g.wellTyped = true) →
      (depsRegistered s.features (cb.In.map PtrTo) = true →
        ∃ input, s.RequireFeatures cb =
            some { err := cb.Call input, inst := s, called := some input } ∧
          input.length = cb.In.length ∧ ∀ g ∈ input, g ∈ s.features) ∧
      (depsRegistered s.features (cb.In.map PtrTo) = false →
        s.RequireFeatures cb =
          some { err := none,
                 inst := { s with featureResolutions := s.featureResolutions ++
                   [{ deps := cb.In.map PtrTo, callback := cb }] },
                 called := none })) ∧
    (∀ (f : Feature) (pre post : List resolution), s.running = false →
      s.featureResolutions = pre ++ { deps := cb.In.map PtrTo, callback := cb } :: post →
      (∀ g ∈ s.features ++ [f], g.wellTyped = true) →
      (∀ r ∈ s.featureResolutions, r.made = true) →
      depsRegistered (s.features ++ [f]) (cb.In.map PtrTo) = true →
      (∀ r ∈ pre, ∀ res, r.resolve (s.features ++ [f]) = some res → res.err = none) →
      ∃ out pf pl input, s.AddFeature f = some out ∧
        out.fired = pf ++ { callback := cb, input := input } :: pl ∧
        input.length = cb.In.length ∧ ∀ g ∈ input, g ∈ s.features ++ [f]) := by
  constructor
  · intro hw
    obtain ⟨res, hres, hfin, hcall, hnot⟩ :=
      resolve_made s.features { deps := cb.In.map PtrTo, callback := cb } hw
        (by simp [resolution.made])
    constructor
    · intro hreg
      rw [hreg] at hfin
      obtain ⟨herr, hlen, hmem⟩ := hcall hfin
      refine ⟨res.input, ?_, hlen, hmem⟩
      unfold Instance.RequireFeatures
      simp only [hres, hfin, if_true, herr]
    · intro hreg
      rw [hreg] at hfin
      unfold Instance.RequireFeatures
      simp only [hres, hfin, Bool.false_eq_true, if_false]
  · intro f pre post hr hlist hw hm hreg hpre
    obtain ⟨o, pf, pl, input, ho, hfired, hlen, hmem⟩ :=
      rerunLoop_reaches (s.features ++ [f]) { deps := cb.In.map PtrTo, callback := cb } post
        hw hreg pre (by rw [← hlist]; exact hm) hpre
    rw [← hlist] at ho
    obtain ⟨out, hout, hf, _⟩ := AddFeature_fired s f o hr (by rw [hlist]; simp) ho
    exact ⟨out, pf, pl, input, hout, by rw [hf, hfired], hlen, hmem⟩

/-- The amended C13 at the scenario of `TestXrayDependency`: a callback for the
DNS client is queued on an empty instance and the `AddFeature` of a DNS client
calls it with that feature. -/
theorem RequireFeatures_then_AddFeature_witness :
    ∃ rq out,
      emptyInstance.RequireFeatures clientCallback = some rq ∧ rq.called = none ∧
      rq.inst.AddFeature (plainFeature 1 "dns.Client" none none) = some out ∧
      out.fired.map (fun x => (x.callback.ident, x.input.map (fun g => g.ident))) =
        [(1, [1])] := by
  have hq := ((RequireFeatures_then_AddFeature emptyInstance clientCallback).1
    (by decide)).2 (by decide)
  exact ⟨_, _, hq, rfl, rfl, rfl⟩

/-! ### Sequences of RequireFeatures and AddFeature calls -/

/-- C12, the claim as stated fails.  On an empty instance that is not running,
with two callbacks queued for the DNS client of which the second returns an
error, the `AddFeature` of a DNS client calls both and returns the error without
updating the pending list, and the next `AddFeature` calls both again: the first
callback is called twice.  On a running instance a callback queued for the DNS
client is never called, though a DNS client is registered afterwards. -/
theorem callbacks_fired_twice_or_never :
    (runInstanceCalls failingCalls emptyInstance).map
      (fun p => (p.2.map (fun x => x.callback.ident),
        (p.2.map (fun x => x.callback.ident)).count clientCallback.ident))
      = some ([1, 2, 1, 2], 2) ∧
    (runInstanceCalls dependencyCalls runningInstance).map
      (fun p => (p.2.map (fun x => x.callback.ident),
        depsRegistered p.1.features (clientCallback.In.map PtrTo)))
      = some ([], true) := by
  refine ⟨by decide, by decide⟩

theorem resolveDeps_append (l m : List Feature) (ds : List RType) :
    ∀ fs, resolveDeps l ds = some fs → resolveDeps (l ++ m) ds = some fs := by
  induction ds with
  | nil => intro fs h; simpa [resolveDeps] using h
  | cons d rest ih =>
    intro fs h
    unfold resolveDeps at h ⊢
    cases hg : getFeature l d with
    | none => simp [hg] at h
    | some f =>
      simp only [hg] at h
      cases hr : resolveDeps l rest with
      | none => simp [hr] at h
      | some fs1 =>
        simp only [hr] at h
        simp only [getFeature_append_some l m d f hg, ih fs1 hr]
        exact h

theorem depsRegistered_append (l m : List Feature) (ds : List RType)
    (h : depsRegistered l ds = true) : depsRegistered (l ++ m) ds = true := by
  unfold depsRegistered at h ⊢
  cases hr : resolveDeps l ds with
  | none => simp [hr] at h
  | some fs => simp [resolveDeps_append l m ds fs hr]

theorem resolve_err (r : resolution) (all : List Feature) (res : Resolved)
    (h : r.resolve all = some res) :
    res.err = none ∨ res.err = r.callback.Call res.input := by
  unfold resolution.resolve at h
  cases hd : resolveDeps all r.deps with
  | none =>
    simp only [hd, Option.some.injEq] at h
    subst h
    exact Or.inl rfl
  | some fs =>
    simp only [hd] at h
    by_cases hl : (resolveInput fs r.callback.In).length ≠ r.callback.In.length
    · simp [hl] at h
    · simp only [hl, if_false, Option.some.injEq] at h
      subst h
      exact Or.inr rfl

theorem rerunLoop_no_error (all : List Feature) (l : List resolution)
    (hok : ∀ r ∈ l, ∀ input, r.callback.Call input = none) :
    ∀ o, rerunLoop all l = some o → o.err = none := by
  induction l with
  | nil =>
    intro o h
    simp only [rerunLoop, Option.some.injEq] at h
    subst h
    rfl
  | cons r rs ih =>
    intro o h
    unfold rerunLoop at h
    cases hr : r.resolve all with
    | none => simp [hr] at h
    | some res =>
      have herr : res.err = none := by
        rcases resolve_err r all res hr with h1 | h1
        · exact h1
        · rw [h1]; exact hok r (by simp) _
      simp only [hr, herr, ne_eq, not_true_eq_false, and_false, if_false] at h
      cases hrest : rerunLoop all rs with
      | none => simp [hrest] at h
      | some o1 =>
        have hi := ih (fun r1 h1 => hok r1 (by simp [h1])) o1 hrest
        simp only [hrest] at h
        split at h
        all_goals
          simp only [Option.some.injEq] at h
          subst h
          exact hi

theorem AddFeature_no_error (s : Instance) (f : Feature) (out : Added)
    (hok : ∀ r ∈ s.featureResolutions, ∀ input, r.callback.Call input = none)
    (h : s.AddFeature f = some out) : out.err = none := by
  unfold Instance.AddFeature at h
  simp only at h
  split at h
  · simp only [Option.some.injEq] at h
    subst h
    rfl
  · split at h
    · simp only [Option.some.injEq] at h
      subst h
      rfl
    · cases hl : rerunLoop (s.features ++ [f]) s.featureResolutions with
      | none => simp [hl] at h
      | some o =>
        have hoe := rerunLoop_no_error _ _ hok o hl
        simp only [hl, hoe] at h
        repeat' split at h
        all_goals
          simp only [Option.some.injEq] at h
          subst h
          rfl

theorem RequireFeatures_made (s : Instance) (cb : Callback)
    (hw : ∀ g ∈ s.features, g.wellTyped = true) :
    (depsRegistered s.features (cb.In.map PtrTo) = true →
      ∃ input, s.RequireFeatures cb =
        some { err := cb.Call input, inst := s, called := some input }) ∧
    (depsRegistered s.features (cb.In.map PtrTo) = false →
      s.RequireFeatures cb =
        some { err := none,
               inst := { s with featureResolutions := s.featureResolutions ++
                 [{ deps := cb.In.map PtrTo, callback := cb }] },
               called := none }) := by
  obtain ⟨res, hres, hfin, hcall, _⟩ :=
    resolve_made s.features { deps := cb.In.map PtrTo, callback := cb } hw
      (by simp [resolution.made])
  constructor
  · intro hreg
    rw [hreg] at hfin
    obtain ⟨herr, _, _⟩ := hcall hfin
    refine ⟨res.input, ?_⟩
    unfold Instance.RequireFeatures
    simp only [hres, hfin, if_true, herr]
  · intro hreg
    rw [hreg] at hfin
    unfold Instance.RequireFeatures
    simp only [hres, hfin, Bool.false_eq_true, if_false]

theorem made_deps (r : resolution) (h : r.made = true) :
    r.deps = r.callback.In.map PtrTo := by
  simpa [resolution.made] using h

/-- The invariant of a run on an instance that is not running, whose features
implement what they are registered under and whose callbacks return no error:
the pending resolutions are those whose dependencies are not yet registered, and
the callbacks called are, up to order, the pending and required ones whose
dependencies are registered at the end. -/
theorem runInstanceCalls_inv (calls : List InstanceCall) :
    ∀ s : Instance, s.running = false →
      (∀ g ∈ s.features ++ addedFeatures calls, g.wellTyped = true) →
      (∀ r ∈ s.featureResolutions,
        r.made = true ∧ depsRegistered s.features r.deps = false) →
      (∀ cb ∈ s.featureResolutions.map (fun r => r.callback) ++ requiredCallbacks calls,
        ∀ input, cb.Call input = none) →
      ∃ s1 fired, runInstanceCalls calls s = some (s1, fired) ∧
        s1.features = s.features ++ addedFeatures calls ∧
        List.Perm (fired.map (fun x => x.callback))
          ((s.featureResolutions.map (fun r => r.callback) ++ requiredCallbacks calls).filter
            (fun cb => depsRegistered s1.features (cb.In.map PtrTo))) := by
  induction calls with
  | nil =>
    intro s _ _ hp _
    refine ⟨s, [], rfl, by simp [addedFeatures], ?_⟩
    have hnil : (s.featureResolutions.map (fun r => r.callback) ++ requiredCallbacks []).filter
        (fun cb => depsRegistered s.features (cb.In.map PtrTo)) = [] := by
      rw [List.filter_eq_nil_iff]
      intro cb hcb
      simp only [requiredCallbacks, List.append_nil, List.mem_map] at hcb
      obtain ⟨r, hr, rfl⟩ := hcb
      obtain ⟨hm, hd⟩ := hp r hr
      rw [← made_deps r hm, hd]
      simp
    rw [hnil]
    exact List.Perm.refl _
  | cons c cs ih =>
    intro s hr hw hp hok
    cases c with
    | RequireFeatures cb =>
      have hws : ∀ g ∈ s.features, g.wellTyped = true := fun g hg => hw g (by simp [hg])
      obtain ⟨h1, h2⟩ := RequireFeatures_made s cb hws
      cases hreg : depsRegistered s.features (cb.In.map PtrTo) with
      | true =>
        obtain ⟨input, hrq⟩ := h1 hreg
        obtain ⟨s1, fired, hrun, hfeat, hperm⟩ := ih s hr
          (by simpa [addedFeatures] using hw) hp
          (by
            intro cb1 hcb1
            apply hok
            simp only [requiredCallbacks, List.mem_append, List.mem_cons] at hcb1 ⊢
            tauto)
        refine ⟨s1, { callback := cb, input := input } :: fired, ?_,
          by simpa [addedFeatures] using hfeat, ?_⟩
        · simp [runInstanceCalls, hrq, hrun]
        · have hreg1 : depsRegistered s1.features (cb.In.map PtrTo) = true := by
            rw [hfeat]
            exact depsRegistered_append _ _ _ hreg
          have hmid0 : List.Perm
              (s.featureResolutions.map (fun r => r.callback) ++ cb :: requiredCallbacks cs)
              (cb :: (s.featureResolutions.map (fun r => r.callback) ++ requiredCallbacks cs)) :=
            List.perm_middle
          have hmid := hmid0.filter (fun cb => depsRegistered s1.features (cb.In.map PtrTo))
          simp only [List.filter_cons, hreg1, if_true] at hmid
          simp only [requiredCallbacks, List.map_cons]
          exact (hperm.cons cb).trans hmid.symm
      | false =>
        have hrq := h2 hreg
        obtain ⟨s1, fired, hrun, hfeat, hperm⟩ := ih
          { s with featureResolutions := s.featureResolutions ++
            [{ deps := cb.In.map PtrTo, callback := cb }] } hr
          (by simpa [addedFeatures] using hw)
          (by
            intro r hrm
            simp only [List.mem_append, List.mem_singleton] at hrm
            rcases hrm with hrm | hrm
            · exact hp r hrm
            · subst hrm
              exact ⟨by simp [resolution.made], hreg⟩)
          (by
            intro cb1 hcb1
            apply hok
            simp only [requiredCallbacks, List.map_append, List.map_cons, List.map_nil,
              List.mem_append, List.mem_cons, List.mem_singleton, List.not_mem_nil,
              or_false] at hcb1 ⊢
            tauto)
        refine ⟨s1, fired, ?_, by simpa [addedFeatures] using hfeat, ?_⟩
        · simp [runInstanceCalls, hrq, hrun]
        · simpa [requiredCallbacks, List.append_assoc] using hperm
    | AddFeature f =>
      have hwf : ∀ g ∈ s.features ++ [f], g.wellTyped = true := by
        intro g hg
        apply hw
        simp only [addedFeatures, List.mem_append, List.mem_cons, List.mem_singleton,
          List.not_mem_nil, or_false] at hg ⊢
        tauto
      have hmade : ∀ r ∈ s.featureResolutions, r.made = true := fun r h => (hp r h).1
      obtain ⟨out, hout⟩ := AddFeature_returns s f hwf hmade
      have herr := AddFeature_no_error s f out
        (fun r h input => hok r.callback
          (List.mem_append_left _ (List.mem_map_of_mem _ h)) input) hout
      obtain ⟨hfeat0, hrun0⟩ := AddFeature_features s f out hout
      obtain ⟨hpend, hfired⟩ := (AddFeature_stopped s f out hr hout).2 herr
      obtain ⟨s1, fired, hrun, hfeat, hperm⟩ := ih out.inst (by rw [hrun0]; exact hr)
        (by
          intro g hg
          apply hw
          rw [hfeat0] at hg
          simpa [addedFeatures] using hg)
        (by
          intro r hrm
          rw [hpend] at hrm
          obtain ⟨hrP, hrf⟩ := List.mem_filter.1 hrm
          refine ⟨(hp r hrP).1, ?_⟩
          rw [hfeat0]
          simpa using hrf)
        (by
          intro cb1 hcb1
          apply hok
          rw [hpend] at hcb1
          simp only [requiredCallbacks, List.mem_append, List.mem_map, List.mem_filter]
            at hcb1 ⊢
          rcases hcb1 with ⟨r, ⟨hrP, _⟩, hrc⟩ | hcb1
          · exact Or.inl ⟨r, hrP, hrc⟩
          · exact Or.inr hcb1)
      refine ⟨s1, out.fired ++ fired, by simp [runInstanceCalls, hout, hrun],
        by rw [hfeat, hfeat0]; simp [addedFeatures], ?_⟩
      have hA : ((s.featureResolutions.filter
            (fun r => depsRegistered (s.features ++ [f]) r.deps)).map
            (fun r => r.callback)).filter
            (fun cb => depsRegistered s1.features (cb.In.map PtrTo)) =
          (s.featureResolutions.filter
            (fun r => depsRegistered (s.features ++ [f]) r.deps)).map
            (fun r => r.callback) := by
        rw [List.filter_eq_self]
        intro cb1 hcb1
        obtain ⟨r, hrm, hrc⟩ := List.mem_map.1 hcb1
        obtain ⟨hrP, hrf⟩ := List.mem_filter.1 hrm
        subst hrc
        rw [← made_deps r (hp r hrP).1, hfeat, hfeat0]
        exact depsRegistered_append _ _ _ hrf
      have hsplit := ((List.filter_append_perm
        (fun r => depsRegistered (s.features ++ [f]) r.deps) s.featureResolutions).map
        (fun r => r.callback)).append_right (requiredCallbacks cs)
      have hfilt := hsplit.filter (fun cb => depsRegistered s1.features (cb.In.map PtrTo))
      simp only [List.map_append, List.filter_append, hA, List.append_assoc] at hfilt
      rw [hpend] at hperm
      simp only [List.filter_append] at hperm
      simp only [List.map_append, hfired, requiredCallbacks, List.filter_append]
      exact (hperm.append_left _).trans hfilt

theorem requiredCallbacks_append (a b : List InstanceCall) :
    requiredCallbacks (a ++ b) = requiredCallbacks a ++ requiredCallbacks b := by
  induction a with
  | nil => rfl
  | cons c cs ih => cases c <;> simp [requiredCallbacks, ih]

theorem addedFeatures_append (a b : List InstanceCall) :
    addedFeatures (a ++ b) = addedFeatures a ++ addedFeatures b := by
  induction a with
  | nil => rfl
  | cons c cs ih => cases c <;> simp [addedFeatures, ih]

theorem count_ident_filter (l : List Callback) (p : Callback → Bool) (cb : Callback)
    (hmem : cb ∈ l) (hid : (l.map (fun c => c.ident)).Nodup) :
    ((l.filter p).map (fun c => c.ident)).count cb.ident = if p cb = true then 1 else 0 := by
  have hnd : ((l.filter p).map (fun c => c.ident)).Nodup :=
    List.Nodup.sublist (List.Sublist.map _ (List.filter_sublist l)) hid
  by_cases hp : p cb = true
  · rw [if_pos hp]
    exact List.count_eq_one_of_mem hnd
      (List.mem_map_of_mem _ (List.mem_filter.2 ⟨hmem, hp⟩))
  · rw [if_neg hp]
    apply List.count_eq_zero_of_not_mem
    intro hin
    obtain ⟨c, hc, hci⟩ := List.mem_map.1 hin
    obtain ⟨hcl, hcp⟩ := List.mem_filter.1 hc
    have heq : c = cb := List.inj_on_of_nodup_map hid hcl hmem hci
    subst heq
    exact hp hcp

/-- C12, amended: take an instance that is not running, has no pending
resolution and whose features, like those added later, implement what they are
registered under, and a sequence of `RequireFeatures` and `AddFeature` calls
whose callbacks are distinct and return no error.  After every initial part of
the sequence the run has not panicked and each callback passed to
`RequireFeatures` so far has been called once if its required feature types are
all registered by then, and not at all otherwise; so it is called at most once,
and exactly once, by the first call after which they are all registered, when
they are eventually. -/
theorem callbacks_fire_once (calls : List InstanceCall) (s0 : Instance)
    (hr : s0.running = false) (hp : s0.featureResolutions = [])
    (hw : ∀ g ∈ s0.features ++ addedFeatures calls, g.wellTyped = true)
    (hok : ∀ cb ∈ requiredCallbacks calls, ∀ input, cb.Call input = none)
    (hid : ((requiredCallbacks calls).map (fun c => c.ident)).Nodup) :
    ∀ n, ∃ s fired, runInstanceCalls (calls.take n) s0 = some (s, fired) ∧
      s.features = s0.features ++ addedFeatures (calls.take n) ∧
      ∀ cb ∈ requiredCallbacks (calls.take n),
        (fired.map (fun x => x.callback.ident)).count cb.ident =
          if depsRegistered s.features (cb.In.map PtrTo) = true then 1 else 0 := by
  intro n
  have hreq : requiredCallbacks calls =
      requiredCallbacks (calls.take n) ++ requiredCallbacks (calls.drop n) := by
    rw [← requiredCallbacks_append, List.take_append_drop]
  have hadd : addedFeatures calls =
      addedFeatures (calls.take n) ++ addedFeatures (calls.drop n) := by
    rw [← addedFeatures_append, List.take_append_drop]
  obtain ⟨s, fired, hrun, hfeat, hperm⟩ := runInstanceCalls_inv (calls.take n) s0 hr
    (by
      intro g hg
      apply hw
      rw [hadd]
      simp only [List.mem_append] at hg ⊢
      tauto)
    (by rw [hp]; simp)
    (by
      intro cb hcb
      apply hok
      rw [hp] at hcb
      rw [hreq]
      simp only [List.map_nil, List.nil_append] at hcb
      exact List.mem_append_left _ hcb)
  refine ⟨s, fired, hrun, hfeat, ?_⟩
  intro cb hcb
  rw [hp] at hperm
  simp only [List.map_nil, List.nil_append] at hperm
  have hnd : ((requiredCallbacks (calls.take n)).map (fun c => c.ident)).Nodup := by
    rw [hreq, List.map_append] at hid
    exact (List.nodup_append.1 hid).1
  have hcount := (hperm.map (fun c => c.ident)).count_eq cb.ident
  rw [List.map_map] at hcount
  have hfun : ((fun c : Callback => c.ident) ∘ fun x : Fired => x.callback) =
      fun x => x.callback.ident := rfl
  rw [hfun] at hcount
  rw [hcount]
  exact count_ident_filter _ _ cb hcb hnd

/-- The amended C12 at the scenario of `TestXrayDependency`: after the
`RequireFeatures` alone the callback has not been called, and after the
`AddFeature` of the DNS client it has been called once. -/
theorem callbacks_fire_once_witness :
    emptyInstance.running = false ∧ emptyInstance.featureResolutions = [] ∧
    (∃ s fired, runInstanceCalls (dependencyCalls.take 1) emptyInstance = some (s, fired) ∧
      (fired.map (fun x => x.callback.ident)).count clientCallback.ident = 0) ∧
    (∃ s fired, runInstanceCalls (dependencyCalls.take 2) emptyInstance = some (s, fired) ∧
      (fired.map (fun x => x.callback.ident)).count clientCallback.ident = 1) := by
  have h := callbacks_fire_once dependencyCalls emptyInstance rfl rfl (by decide)
    (by
      intro cb hcb input
      simp only [dependencyCalls, requiredCallbacks, List.mem_singleton] at hcb
      subst hcb
      rfl)
    (by decide)
  refine ⟨rfl, rfl, ?_, ?_⟩
  · obtain ⟨s, fired, hrun, hfeat, hc⟩ := h 1
    refine ⟨s, fired, hrun, ?_⟩
    rw [hc clientCallback (by simp [dependencyCalls, requiredCallbacks]), hfeat]
    decide
  · obtain ⟨s, fired, hrun, hfeat, hc⟩ := h 2
    refine ⟨s, fired, hrun, ?_⟩
    rw [hc clientCallback (by simp [dependencyCalls, requiredCallbacks]), hfeat]
    decide

/-! ### initInstanceWithConfig -/

theorem getFeature_singleton (f : Feature) (t : RType) :
    getFeature [f] t = if f.typeOfType = t then some f else none := by
  simp [getFeature]

theorem essentialLoop_features (L : List Essential)
    (hty : ∀ e ∈ L, e.inst.typeOfType = e.typ)
    (hpw : L.Pairwise (fun a b => a.typ ≠ b.typ)) :
    ∀ s s2, essentialLoop L s = some (none, s2) →
      s2.features = s.features ++
        (L.filter (fun e => (s.GetFeature e.typ).isNone)).map (fun e => e.inst) := by
  induction L with
  | nil =>
    intro s s2 h
    simp only [essentialLoop, Option.some.injEq, Prod.mk.injEq, true_and] at h
    subst h
    simp
  | cons e rest ih =>
    intro s s2 h
    have hpw1 := List.pairwise_cons.1 hpw
    have ih1 := ih (fun x hx => hty x (by simp [hx])) hpw1.2
    unfold essentialLoop at h
    cases hG : s.GetFeature e.typ with
    | some g =>
      simp only [hG] at h
      rw [ih1 s s2 h]
      simp [List.filter_cons, hG]
    | none =>
      simp only [hG] at h
      cases hA : s.AddFeature e.inst with
      | none => simp [hA] at h
      | some out =>
        simp only [hA] at h
        cases hE : out.err with
        | some err => simp [hE] at h
        | none =>
          simp only [hE] at h
          have hf := (AddFeature_features s e.inst out hA).1
          rw [ih1 out.inst s2 h, hf]
          have hcongr : rest.filter (fun x => (out.inst.GetFeature x.typ).isNone) =
              rest.filter (fun x => (s.GetFeature x.typ).isNone) := by
            apply List.filter_congr
            intro x hx
            unfold Instance.GetFeature
            rw [hf]
            cases hs : getFeature s.features x.typ with
            | some g => rw [getFeature_append_some _ _ _ _ hs]
            | none =>
              rw [getFeature_append_none _ _ _ hs, getFeature_singleton,
                hty e (by simp), if_neg (hpw1.1 x hx)]
          rw [hcongr]
          simp [List.filter_cons, hG]

theorem getFeature_map_inst (L : List Essential)
    (hty : ∀ e ∈ L, e.inst.typeOfType = e.typ)
    (hpw : L.Pairwise (fun a b => a.typ ≠ b.typ)) :
    ∀ e ∈ L, getFeature (L.map (fun x => x.inst)) e.typ = some e.inst := by
  induction L with
  | nil => intro e he; simp at he
  | cons a rest ih =>
    intro e he
    have hpw1 := List.pairwise_cons.1 hpw
    rcases List.mem_cons.1 he with heq | hmem
    · subst heq
      simp [getFeature, hty e (by simp)]
    · have hne : a.inst.typeOfType ≠ e.typ := by
        rw [hty a (by simp)]
        exact hpw1.1 e hmem
      simp only [List.map_cons, getFeature, hne, if_false]
      exact ih (fun x hx => hty x (by simp [hx])) hpw1.2 e hmem

theorem essentialFeatures_typed : ∀ e ∈ essentialFeatures, e.inst.typeOfType = e.typ := by
  intro e he
  simp only [essentialFeatures, List.mem_cons, List.mem_singleton, List.not_mem_nil,
    or_false] at he
  rcases he with h | h | h | h <;> subst h <;> rfl

theorem essentialFeatures_distinct :
    essentialFeatures.Pairwise (fun a b => a.typ ≠ b.typ) := by
  simp only [essentialFeatures, List.pairwise_cons, List.mem_cons, List.mem_singleton,
    List.not_mem_nil, or_false, List.Pairwise.nil, and_true]
  refine ⟨?_, ?_, ?_, ?_⟩
  · rintro b (h | h | h) <;> subst h <;> decide
  · rintro b (h | h) <;> subst h <;> decide
  · rintro b h
    subst h
    decide
  · intro b h
    exact absurd h (by simp)

/-- After the loop over `essentialFeatures` every essential type has a feature:
the one registered before the loop when there was one, its default otherwise. -/
theorem essentialLoop_GetFeature (s s2 : Instance)
    (h : essentialLoop essentialFeatures s = some (none, s2)) :
    ∀ e ∈ essentialFeatures,
      (∀ g, s.GetFeature e.typ = some g → s2.GetFeature e.typ = some g) ∧
      (s.GetFeature e.typ = none → s2.GetFeature e.typ = some e.inst) := by
  have hf := essentialLoop_features essentialFeatures essentialFeatures_typed
    essentialFeatures_distinct s s2 h
  intro e he
  constructor
  · intro g hg
    unfold Instance.GetFeature at hg ⊢
    rw [hf]
    exact getFeature_append_some _ _ _ _ hg
  · intro hn
    unfold Instance.GetFeature at hn ⊢
    rw [hf, getFeature_append_none _ _ _ hn]
    apply getFeature_map_inst
    · intro x hx
      exact essentialFeatures_typed x (List.mem_filter.1 hx).1
    · exact List.Pairwise.sublist (List.filter_sublist _) essentialFeatures_distinct
    · exact List.mem_filter.2 ⟨he, by simp [Instance.GetFeature, hn]⟩

theorem AddHandler_features (mgr : HandlerManagers) (b : Bool) (s : Instance)
    (added : List Nat) (hc : HandlerConfig)
    (hpres : ∀ s1 c, hc.CreateObject s1 = some c → c.inst.features = s1.features)
    (r : Option GoError × Instance × List Nat)
    (h : AddHandler mgr b s added hc = some r) : r.2.1.features = s.features := by
  unfold AddHandler at h
  repeat' split at h
  all_goals first
    | (simp only [Option.some.injEq] at h
       subst h
       exact hpres _ _ (by assumption))
    | simp at h

theorem addHandlers_features (mgr : HandlerManagers) (b : Bool) (l : List HandlerConfig)
    (hpres : ∀ hc ∈ l, ∀ s1 c, hc.CreateObject s1 = some c → c.inst.features = s1.features) :
    ∀ (s : Instance) (added : List Nat) (r : Option GoError × Instance × List Nat),
      addHandlers mgr b l s added = some r → r.2.1.features = s.features := by
  induction l with
  | nil =>
    intro s added r h
    simp only [addHandlers, Option.some.injEq] at h
    subst h
    rfl
  | cons hc rest ih =>
    intro s added r h
    unfold addHandlers at h
    cases hA : AddHandler mgr b s added hc with
    | none => simp [hA] at h
    | some r1 =>
      have hf := AddHandler_features mgr b s added hc (hpres hc (by simp)) r1 hA
      rcases r1 with ⟨e1, s1, a1⟩
      cases e1 with
      | some err =>
        simp only [hA, Option.some.injEq] at h
        subst h
        exact hf
      | none =>
        simp only [hA] at h
        rw [ih (fun x hx => hpres x (by simp [hx])) s1 a1 r h]
        exact hf

theorem initHandlers_features (mgr : HandlerManagers) (config : Config) (s : Instance)
    (hpres : ∀ hc ∈ config.Inbound ++ config.Outbound, ∀ s1 c,
      hc.CreateObject s1 = some c → c.inst.features = s1.features)
    (out : Inited) (h : initHandlers mgr config s = some out) :
    out.server.features = s.features := by
  unfold initHandlers at h
  cases hI : addHandlers mgr true config.Inbound s [] with
  | none => simp [hI] at h
  | some r1 =>
    have hf1 := addHandlers_features mgr true config.Inbound
      (fun x hx => hpres x (by simp [hx])) s [] r1 hI
    rcases r1 with ⟨e1, s1, a1⟩
    cases e1 with
    | some err =>
      simp only [hI, Option.some.injEq] at h
      subst h
      exact hf1
    | none =>
      simp only [hI] at h
      cases hO : addHandlers mgr false config.Outbound s1 [] with
      | none => simp [hO] at h
      | some r2 =>
        have hf2 := addHandlers_features mgr false config.Outbound
          (fun x hx => hpres x (by simp [hx])) s1 [] r2 hO
        rcases r2 with ⟨e2, s2, a2⟩
        cases e2 with
        | some err =>
          simp only [hO, Option.some.injEq] at h
          subst h
          exact hf2.trans hf1
        | none =>
          simp only [hO, Option.some.injEq] at h
          subst h
          exact hf2.trans hf1

/-- C19: when `initInstanceWithConfig` succeeds, on handler creators that leave
the feature list as it is, the loop over `config.App` ended without error on a
server `s1`, and the features of the server at the end are those of `s1`
followed by the defaults of exactly the essential types (DNS client, policy
manager, router, stats manager) that `s1` has no feature for.  For each
essential type `GetFeature` then returns a feature: the one `s1` had, so the
one supplied by the user, when there was one, and the default otherwise. -/
theorem init_essentials (mgr : HandlerManagers) (config : Config) (server : Instance)
    (out : Inited)
    (h : initInstanceWithConfig mgr config server = some out) (hd : out.done = false)
    (hpres : ∀ hc ∈ config.Inbound ++ config.Outbound, ∀ s1 c,
      hc.CreateObject s1 = some c → c.inst.features = s1.features) :
    essentialFeatures.map (fun e => e.typ) =
      [dnsClientType, policyManagerType, routerType, statsManagerType] ∧
    ∃ s1, appLoop config.App server = some (none, s1) ∧
      out.server.features = s1.features ++
        (essentialFeatures.filter (fun e => (s1.GetFeature e.typ).isNone)).map
          (fun e => e.inst) ∧
      ∀ e ∈ essentialFeatures,
        (∃ f, out.server.GetFeature e.typ = some f) ∧
        (∀ g, s1.GetFeature e.typ = some g → out.server.GetFeature e.typ = some g) ∧
        (s1.GetFeature e.typ = none → out.server.GetFeature e.typ = some e.inst) := by
  refine ⟨rfl, ?_⟩
  unfold initInstanceWithConfig at h
  cases hT : config.TransportApply with
  | some err =>
    simp only [hT, Option.some.injEq] at h
    subst h
    simp at hd
  | none =>
    simp only [hT] at h
    cases hA : appLoop config.App server with
    | none => simp [hA] at h
    | some r1 =>
      rcases r1 with ⟨e1, s1⟩
      cases e1 with
      | some err =>
        simp only [hA, Option.some.injEq] at h
        subst h
        simp at hd
      | none =>
        simp only [hA] at h
        cases hE : essentialLoop essentialFeatures s1 with
        | none => simp [hE] at h
        | some r2 =>
          rcases r2 with ⟨e2, s2⟩
          cases e2 with
          | some err =>
            simp only [hE, Option.some.injEq] at h
            subst h
            simp at hd
          | none =>
            simp only [hE] at h
            cases hG : s2.GetFeature dnsClientType with
            | none => simp [hG] at h
            | some client =>
              simp only [hG] at h
              split at h
              · simp at h
              · split at h
                · simp only [Option.some.injEq] at h
                  subst h
                  simp at hd
                · have hf := initHandlers_features mgr config s2 hpres out h
                  have hfe := essentialLoop_features essentialFeatures essentialFeatures_typed
                    essentialFeatures_distinct s1 s2 hE
                  have hget := essentialLoop_GetFeature s1 s2 hE
                  have hsame : ∀ t, out.server.GetFeature t = s2.GetFeature t := by
                    intro t
                    unfold Instance.GetFeature
                    rw [hf]
                  refine ⟨s1, rfl, by rw [hf, hfe], ?_⟩
                  intro e he
                  obtain ⟨h1, h2⟩ := hget e he
                  refine ⟨?_, ?_, ?_⟩
                  · cases hs : s1.GetFeature e.typ with
                    | some g => exact ⟨g, by rw [hsame]; exact h1 g hs⟩
                    | none => exact ⟨e.inst, by rw [hsame]; exact h2 hs⟩
                  · intro g hg
                    rw [hsame]
                    exact h1 g hg
                  · intro hn
                    rw [hsame]
                    exact h2 hn

/-- The statement of C19 at a configuration whose only app is a router: the
initialisation succeeds, the defaults of the three other essential types are
added after the router, and `GetFeature` returns the router of the user. -/
theorem init_essentials_witness :
    ∃ out, initInstanceWithConfig acceptingManagers routerConfig newInstance = some out ∧
      out.done = false ∧
      out.server.features.map (fun f => f.ident) = [1, 101, 102, 104] ∧
      out.server.GetFeature routerType = some (plainFeature 1 "routing.Router" none none) ∧
      ∃ f, out.server.GetFeature statsManagerType = some f := by
  have hval : initInstanceWithConfig acceptingManagers routerConfig newInstance =
      some { done := false, err := none,
             server :=
               { features :=
                   [plainFeature 1 "routing.Router" none none,
                    defaultFeature 101 "dns.Client",
                    defaultFeature 102 "policy.Manager",
                    defaultFeature 104 "stats.Manager"]
                 featureResolutions := []
                 running := false },
             inbound := [], outbound := [] } := rfl
  obtain ⟨_, s1, hs1, _, hall⟩ :=
    init_essentials acceptingManagers routerConfig newInstance _ hval rfl
      (by intro hc hmem; simp [routerConfig] at hmem)
  have hs1val : appLoop routerConfig.App newInstance =
      some (none, { features := [plainFeature 1 "routing.Router" none none],
                    featureResolutions := [], running := false }) := rfl
  rw [hs1val] at hs1
  simp only [Option.some.injEq, Prod.mk.injEq, true_and] at hs1
  subst hs1
  refine ⟨_, hval, rfl, rfl, ?_, ?_⟩
  · exact (hall { typ := routerType, inst := defaultFeature 103 "routing.Router" }
      (by simp [essentialFeatures])).2.1 _ rfl
  · exact (hall { typ := statsManagerType, inst := defaultFeature 104 "stats.Manager" }
      (by simp [essentialFeatures])).1

/-- C20: when the transport settings apply, the loop over `config.App` and the
loop over `essentialFeatures` end without error on a server `s2`, and the DNS
client of `s2` implements `dns.Client`: if a resolution is pending in `s2`,
`initInstanceWithConfig` is done with the error "not all dependency are
resolved." having added no inbound and no outbound handler, and `New` returns no
instance and that error; if none is pending, `initInstanceWithConfig` goes on
to add the handlers and returns what that returns. -/
theorem init_pending_check (mgr : HandlerManagers) (config : Config) (server s1 s2 : Instance)
    (hT : config.TransportApply = none)
    (happ : appLoop config.App server = some (none, s1))
    (hess : essentialLoop essentialFeatures s1 = some (none, s2))
    (hdns : ∀ g, s2.GetFeature dnsClientType = some g →
      g.AssignableTo (RType.named "dns.Client") = true) :
    (s2.featureResolutions ≠ [] →
      initInstanceWithConfig mgr config server =
        some { done := true,
               err := some (GoError.newError "not all dependency are resolved."),
               server := s2, inbound := [], outbound := [] } ∧
      (server = newInstance →
        New mgr config =
          some (none, some (GoError.newError "not all dependency are resolved.")))) ∧
    (s2.featureResolutions = [] →
      initInstanceWithConfig mgr config server = initHandlers mgr config s2) := by
  have hget := (essentialLoop_GetFeature s1 s2 hess
    { typ := dnsClientType, inst := defaultFeature 101 "dns.Client" }
    (by simp [essentialFeatures]))
  obtain ⟨client, hclient⟩ : ∃ c, s2.GetFeature dnsClientType = some c := by
    cases hs : s1.GetFeature dnsClientType with
    | some g => exact ⟨g, hget.1 g hs⟩
    | none => exact ⟨_, hget.2 hs⟩
  have hassign := hdns client hclient
  have hinit : initInstanceWithConfig mgr config server =
      if !s2.featureResolutions.isEmpty then
        some { done := true,
               err := some (GoError.newError "not all dependency are resolved."),
               server := s2, inbound := [], outbound := [] }
      else initHandlers mgr config s2 := by
    unfold initInstanceWithConfig
    simp only [hT, happ, hess, hclient, hassign, Bool.not_true, Bool.false_eq_true, if_false]
  constructor
  · intro hne
    have he : s2.featureResolutions.isEmpty = false := by
      cases hl : s2.featureResolutions with
      | nil => exact absurd hl hne
      | cons a l => rfl
    have h1 : initInstanceWithConfig mgr config server =
        some { done := true,
               err := some (GoError.newError "not all dependency are resolved."),
               server := s2, inbound := [], outbound := [] } := by
      rw [hinit]
      simp [he]
    refine ⟨h1, ?_⟩
    intro hnew
    subst hnew
    unfold New
    rw [h1]
    rfl
  · intro hnil
    rw [hinit]
    simp [hnil]

/-- The statement of C20 at a configuration whose only app requires an inbound
manager that no app provides: the resolution is still pending after the
defaults are added, and `New` returns no instance and the error. -/
theorem init_pending_check_witness :
    ∃ s1 s2, appLoop unresolvedConfig.App newInstance = some (none, s1) ∧
      essentialLoop essentialFeatures s1 = some (none, s2) ∧
      s2.featureResolutions.length = 1 ∧
      New acceptingManagers unresolvedConfig =
        some (none, some (GoError.newError "not all dependency are resolved.")) := by
  have h1 : appLoop unresolvedConfig.App newInstance =
      some (none, { features := []
                    featureResolutions :=
                      [{ deps := [inboundManagerType], callback := managerCallback }]
                    running := false }) := rfl
  have h2 : essentialLoop essentialFeatures
      { features := []
        featureResolutions := [{ deps := [inboundManagerType], callback := managerCallback }]
        running := false } =
      some (none, { features := essentialFeatures.map (fun e => e.inst)
                    featureResolutions :=
                      [{ deps := [inboundManagerType], callback := managerCallback }]
                    running := false }) := rfl
  have h := (init_pending_check acceptingManagers unresolvedConfig newInstance _ _ rfl h1 h2
    (by
      intro g hg
      have hg1 : g = defaultFeature 101 "dns.Client" := by
        have : some (defaultFeature 101 "dns.Client") = some g := hg
        exact (Option.some.inj this).symm
      subst hg1
      decide)).1 (by simp)
  exact ⟨_, _, h1, h2, rfl, h.2 rfl⟩

/-! ### Instance.AddFeature: the error of a callback -/

theorem resolve_finished_err (r : resolution) (all : List Feature) (res : Resolved)
    (h : r.resolve all = some res) (hf : res.finished = true) :
    res.err = r.callback.Call res.input := by
  unfold resolution.resolve at h
  cases hd : resolveDeps all r.deps with
  | none =>
    simp only [hd, Option.some.injEq] at h
    subst h
    simp at hf
  | some fs =>
    simp only [hd] at h
    by_cases hl : (resolveInput fs r.callback.In).length ≠ r.callback.In.length
    · simp [hl] at h
    · simp only [hl, if_false, Option.some.injEq] at h
      subst h
      rfl

theorem rerunLoop_fired_error (all : List Feature) (l : List resolution) :
    ∀ out, rerunLoop all l = some out →
      ∀ fd ∈ out.fired, ∀ e, fd.callback.Call fd.input = some e → out.err = some e := by
  induction l with
  | nil =>
    intro out h fd hfd
    simp only [rerunLoop, Option.some.injEq] at h
    subst h
    simp at hfd
  | cons r rs ih =>
    intro out h fd hfd e he
    unfold rerunLoop at h
    cases hr : r.resolve all with
    | none => simp [hr] at h
    | some res =>
      simp only [hr] at h
      by_cases hc : res.finished = true ∧ res.err ≠ none
      · rw [if_pos hc] at h
        simp only [Option.some.injEq] at h
        subst h
        simp only [List.mem_singleton] at hfd
        subst hfd
        have h1 := resolve_finished_err r all res hr hc.1
        simp only at he ⊢
        rw [h1, he]
      · rw [if_neg hc] at h
        cases hrest : rerunLoop all rs with
        | none => simp [hrest] at h
        | some o =>
          simp only [hrest] at h
          cases hf : res.finished with
          | false =>
            simp only [hf, Bool.not_false, if_true, Option.some.injEq] at h
            subst h
            exact ih o hrest fd hfd e he
          | true =>
            simp only [hf, Bool.not_true, Bool.false_eq_true, if_false,
              Option.some.injEq] at h
            subst h
            simp only [List.mem_cons] at hfd
            rcases hfd with hfd | hfd
            · subst hfd
              have h1 := resolve_finished_err r all res hr hf
              simp only at he
              rw [he] at h1
              exact absurd ⟨hf, by simp [h1]⟩ hc
            · exact ih o hrest fd hfd e he

/-- C21: on an instance that is not running, when a call of `AddFeature`
returns, every callback of a pending resolution it called whose call returned
an error `e` makes `AddFeature` return `e`; and when the features are well
typed and the pending resolutions were made by `RequireFeatures`, a pending
resolution whose dependencies are registered after the addition, that is
preceded by resolutions whose callbacks return no error and whose callback
returns `e` on every input, makes `AddFeature` return `e`. -/
theorem AddFeature_callback_error (s : Instance) (f : Feature) (hr : s.running = false) :
    (∀ out, s.AddFeature f = some out →
      ∀ fd ∈ out.fired, ∀ e, fd.callback.Call fd.input = some e → out.err = some e) ∧
    (∀ pre post r e, s.featureResolutions = pre ++ r :: post →
      (∀ g ∈ s.features ++ [f], g.wellTyped = true) →
      (∀ x ∈ s.featureResolutions, x.made = true) →
      depsRegistered (s.features ++ [f]) r.deps = true →
      (∀ x ∈ pre, ∀ input, x.callback.Call input = none) →
      (∀ input, r.callback.Call input = some e) →
      ∃ out, s.AddFeature f = some out ∧ out.err = some e ∧
        ∃ input, { callback := r.callback, input := input } ∈ out.fired) := by
  constructor
  · intro out h fd hfd e he
    cases hl : s.featureResolutions with
    | nil =>
      unfold Instance.AddFeature at h
      simp only [hr, Bool.false_eq_true, if_false, hl, List.isEmpty_nil, if_true,
        Option.some.injEq] at h
      subst h
      simp at hfd
    | cons a l =>
      have hne : s.featureResolutions ≠ [] := by simp [hl]
      cases ho : rerunLoop (s.features ++ [f]) s.featureResolutions with
      | none =>
        unfold Instance.AddFeature at h
        simp [hr, hl] at h
        rw [hl] at ho
        simp [ho] at h
      | some o =>
        obtain ⟨out1, h1, hf1, he1⟩ := AddFeature_fired s f o hr hne ho
        rw [h] at h1
        simp only [Option.some.injEq] at h1
        subst h1
        rw [he1]
        rw [hf1] at hfd
        exact rerunLoop_fired_error _ _ o ho fd hfd e he
  · intro pre post r e hl hw hm hreg hpre hre
    have hne : s.featureResolutions ≠ [] := by simp [hl]
    obtain ⟨o, pf, pl, input, ho, hfired, _, _⟩ :=
      rerunLoop_reaches (s.features ++ [f]) r post hw hreg pre
        (fun x hx => hm x (by rw [hl]; exact hx))
        (fun x hx res hres => by
          rcases resolve_err x _ res hres with h0 | h0
          · exact h0
          · rw [h0]
            exact hpre x hx _)
    rw [← hl] at ho
    obtain ⟨out, h1, hf1, he1⟩ := AddFeature_fired s f o hr hne ho
    have hmem : ({ callback := r.callback, input := input } : Fired) ∈ o.fired := by
      rw [hfired]
      simp
    refine ⟨out, h1, ?_, input, by rw [hf1]; exact hmem⟩
    rw [he1]
    exact rerunLoop_fired_error _ _ o ho _ hmem e (hre input)

/-- C21 at a concrete input: `clientCallback` and then `failingCallback` are
pending for the DNS client; adding a DNS client calls both and returns the error
of the second. -/
theorem AddFeature_callback_error_witness :
    failingPending.running = false ∧
    ∃ out, failingPending.AddFeature (plainFeature 1 "dns.Client" none none) = some out ∧
      out.err = some (GoError.other 9) ∧
      out.fired.map (fun x => x.callback.ident) = [1, 2] := by
  have h := (AddFeature_callback_error failingPending
    (plainFeature 1 "dns.Client" none none) rfl).1
  have hval : ∃ out, failingPending.AddFeature (plainFeature 1 "dns.Client" none none)
      = some out ∧ out.fired.map (fun x => x.callback.ident) = [1, 2] ∧
      ∃ fd ∈ out.fired, fd.callback.Call fd.input = some (GoError.other 9) :=
    ⟨_, rfl, rfl, { callback := failingCallback,
                    input := [plainFeature 1 "dns.Client" none none] },
      List.Mem.tail _ (List.Mem.head _), rfl⟩
  obtain ⟨out, h1, h2, fd, hfd, he⟩ := hval
  exact ⟨rfl, out, h1, h _ h1 fd hfd _ he, h2⟩

/-! ### sniffer: the rounds of the payload loop -/

theorem contentLoop_bounds (lib : Lib) (done : Nat → Option GoError) (sn : Sniffer) :
    ∀ (fuel totalAttempt : Nat) (st : SniffState) res st1,
      contentLoop lib done sn fuel totalAttempt st = some (res, st1) →
      st1.cacheCalls ≤ st.cacheCalls + (2 - totalAttempt) ∧
      st1.sniffed.length ≤ st.sniffed.length + (2 - totalAttempt) := by
  intro fuel
  induction fuel with
  | zero =>
    intro totalAttempt st res st1 h
    simp [contentLoop] at h
  | succ fuel ih =>
    intro totalAttempt st res st1 h
    unfold contentLoop at h
    cases hd : done totalAttempt with
    | some e =>
      simp only [hd, Option.some.injEq, Prod.mk.injEq] at h
      obtain ⟨_, h2⟩ := h
      subst h2
      constructor <;> omega
    | none =>
      simp only [hd] at h
      by_cases hgt : totalAttempt + 1 > 2
      · rw [if_pos hgt] at h
        simp only [Option.some.injEq, Prod.mk.injEq] at h
        obtain ⟨_, h2⟩ := h
        subst h2
        constructor <;> omega
      · rw [if_neg hgt] at h
        cases hc : st.cReader with
        | none => simp [hc] at h
        | some cr =>
          simp only [hc] at h
          revert h
          rcases cr.Cache lib with ⟨cr1, payload⟩
          simp only
          intro h
          by_cases hp : payload ≠ []
          · rw [if_pos hp] at h
            by_cases he : (sn.Sniff st.sniffed payload).2 ≠ some GoError.ErrNoClue
            · rw [if_pos he] at h
              simp only [Option.some.injEq, Prod.mk.injEq] at h
              obtain ⟨_, h2⟩ := h
              subst h2
              simp only [List.length_append, List.length_singleton]
              constructor <;> omega
            · rw [if_neg he] at h
              by_cases hfull : payload.length = lib.Size
              · rw [if_pos hfull] at h
                simp only [Option.some.injEq, Prod.mk.injEq] at h
                obtain ⟨_, h2⟩ := h
                subst h2
                simp only [List.length_append, List.length_singleton]
                constructor <;> omega
              · rw [if_neg hfull] at h
                have hi := ih _ _ _ _ h
                simp only [List.length_append, List.length_singleton] at hi
                constructor <;> omega
          · rw [if_neg hp] at h
            by_cases hfull : payload.length = lib.Size
            · rw [if_pos hfull] at h
              simp only [Option.some.injEq, Prod.mk.injEq] at h
              obtain ⟨_, h2⟩ := h
              subst h2
              constructor <;> simp only <;> omega
            · rw [if_neg hfull] at h
              have hi := ih _ _ _ _ h
              simp only at hi
              constructor <;> omega

/-- C22: in payload mode, whatever the classifiers return and whatever the pipe
holds or whenever the context ends, `sniffer` on a reader that is not nil
returns, and it has then called `cachedReader.Cache` at most twice and the
payload `Sniff` at most twice. -/
theorem sniffer_at_most_two_rounds (lib : Lib) (done : Nat → Option GoError) (sn : Sniffer)
    (cReader : cachedReader) :
    ∃ run, sniffer lib done sn (some cReader) false = some run ∧
      run.state.cacheCalls ≤ 2 ∧ run.state.sniffed.length ≤ 2 := by
  obtain ⟨⟨cres, cerr⟩, st, hloop⟩ :=
    contentLoop_returns lib done sn 2 0
      { cReader := some cReader, sniffed := [], cacheCalls := 0 } rfl (by omega)
  have hb := contentLoop_bounds lib done sn 3 0 _ _ _ hloop
  simp only [List.length_nil] at hb
  have hst : ∀ run : SniffRun, run.state = st →
      run.state.cacheCalls ≤ 2 ∧ run.state.sniffed.length ≤ 2 := by
    intro run hrun
    rw [hrun]
    constructor <;> omega
  unfold sniffer
  rcases sn.SniffMetadata with ⟨mr, me⟩
  simp only [hloop, Bool.false_eq_true, if_false]
  repeat' split
  all_goals exact ⟨_, rfl, hst _ rfl⟩

theorem contentLoop_round (lib : Lib) (done : Nat → Option GoError) (sn : Sniffer)
    (fuel totalAttempt : Nat) (st : SniffState) (cr : cachedReader)
    (hst : st.cReader = some cr) (hd : done totalAttempt = none) (hlt : totalAttempt < 2)
    (hno : roundWithoutResult sn st.sniffed (cr.Cache lib).2) :
    contentLoop lib done sn (fuel + 1) totalAttempt st =
      if (cr.Cache lib).2.length = lib.Size then
        some ((none, some GoError.errUnknownContent),
          { cReader := some (cr.Cache lib).1
            sniffed := sniffedAfter st.sniffed (cr.Cache lib).2
            cacheCalls := st.cacheCalls + 1 })
      else
        contentLoop lib done sn fuel (totalAttempt + 1)
          { cReader := some (cr.Cache lib).1
            sniffed := sniffedAfter st.sniffed (cr.Cache lib).2
            cacheCalls := st.cacheCalls + 1 } := by
  have hgt : ¬ (totalAttempt + 1 > 2) := by omega
  conv_lhs => unfold contentLoop
  simp only [hd, hst, hgt, if_false]
  unfold sniffedAfter
  unfold roundWithoutResult at hno
  by_cases hp : (cr.Cache lib).2 = []
  · have hp1 : ¬ ((cr.Cache lib).2 ≠ []) := by simp [hp]
    simp only [hp1, if_false]
  · have hp1 : (cr.Cache lib).2 ≠ [] := hp
    have he : ¬ ((sn.Sniff st.sniffed (cr.Cache lib).2).2 ≠ some GoError.ErrNoClue) := by
      rcases hno with h | h
      · exact absurd h hp
      · simp [h]
    simp only [hp1, if_true, he, if_false, ne_eq, not_false_eq_true]

theorem contentLoop_after_two (lib : Lib) (done : Nat → Option GoError) (sn : Sniffer)
    (fuel : Nat) (st : SniffState) (hd : done 2 = none) :
    contentLoop lib done sn (fuel + 1) 2 st =
      some ((none, some GoError.errSniffingTimeout), st) := by
  unfold contentLoop
  simp [hd]

/-- C23, the claim as stated fails: on a pipe that holds three bytes, with a
buffer of eight bytes and classifiers that never have a clue, both rounds of the
payload loop end with no-clue, and payload sniffing then fails with
`errSniffingTimeout`, which is not the unknown-content error; `sniffer` returns
that error. -/
theorem sniffing_two_rounds_timeout :
    contentLoop exampleLib (fun _ => none) cluelessSniffer 3 0
        { cReader := some { reader := examplePipe, cache := [] }, sniffed := [],
          cacheCalls := 0 } =
      some ((none, some GoError.errSniffingTimeout),
        { cReader := some { reader := { reads := [] }, cache := [[22, 3, 1]] }
          sniffed := [[22, 3, 1], [22, 3, 1]]
          cacheCalls := 2 }) ∧
    GoError.errSniffingTimeout ≠ GoError.errUnknownContent ∧
    (sniffer exampleLib (fun _ => none) cluelessSniffer
        (some { reader := examplePipe, cache := [] }) false).map (fun run => run.err) =
      some (some GoError.errSniffingTimeout) :=
  ⟨rfl, by decide, rfl⟩

/-- C23, amended: in payload mode, while the context is not done, when the
first two rounds each end with no-clue or an empty payload and the payload
buffer is full after neither, payload sniffing fails with `errSniffingTimeout`
after two calls of `Cache`; when the first round ends so with a full buffer, or
the first ends so with a buffer that is not full and the second ends so with a
full buffer, payload sniffing fails with the unknown-content error. -/
theorem contentLoop_timeout_or_unknown (lib : Lib) (done : Nat → Option GoError)
    (sn : Sniffer) (cr : cachedReader) (hdone : ∀ k, done k = none) :
    (roundWithoutResult sn [] (cr.Cache lib).2 → (cr.Cache lib).2.length ≠ lib.Size →
      roundWithoutResult sn (sniffedAfter [] (cr.Cache lib).2)
        (((cr.Cache lib).1).Cache lib).2 →
      (((cr.Cache lib).1).Cache lib).2.length ≠ lib.Size →
      ∃ st, contentLoop lib done sn 3 0 { cReader := some cr, sniffed := [], cacheCalls := 0 } =
          some ((none, some GoError.errSniffingTimeout), st) ∧ st.cacheCalls = 2) ∧
    (roundWithoutResult sn [] (cr.Cache lib).2 → (cr.Cache lib).2.length = lib.Size →
      ∃ st, contentLoop lib done sn 3 0 { cReader := some cr, sniffed := [], cacheCalls := 0 } =
          some ((none, some GoError.errUnknownContent), st) ∧ st.cacheCalls = 1) ∧
    (roundWithoutResult sn [] (cr.Cache lib).2 → (cr.Cache lib).2.length ≠ lib.Size →
      roundWithoutResult sn (sniffedAfter [] (cr.Cache lib).2)
        (((cr.Cache lib).1).Cache lib).2 →
      (((cr.Cache lib).1).Cache lib).2.length = lib.Size →
      ∃ st, contentLoop lib done sn 3 0 { cReader := some cr, sniffed := [], cacheCalls := 0 } =
          some ((none, some GoError.errUnknownContent), st) ∧ st.cacheCalls = 2) := by
  refine ⟨?_, ?_, ?_⟩
  · intro h1 hf1 h2 hf2
    rw [contentLoop_round lib done sn 2 0 _ cr rfl (hdone 0) (by omega) h1, if_neg hf1,
      contentLoop_round lib done sn 1 1 _ _ rfl (hdone 1) (by omega) h2, if_neg hf2,
      contentLoop_after_two lib done sn 0 _ (hdone 2)]
    exact ⟨_, rfl, rfl⟩
  · intro h1 hf1
    rw [contentLoop_round lib done sn 2 0 _ cr rfl (hdone 0) (by omega) h1, if_pos hf1]
    exact ⟨_, rfl, rfl⟩
  · intro h1 hf1 h2 hf2
    rw [contentLoop_round lib done sn 2 0 _ cr rfl (hdone 0) (by omega) h1, if_neg hf1,
      contentLoop_round lib done sn 1 1 _ _ rfl (hdone 1) (by omega) h2, if_pos hf2]
    exact ⟨_, rfl, rfl⟩

/-- C23, amended, at concrete inputs: with classifiers that never have a clue
and a buffer of eight bytes, a pipe of three bytes makes payload sniffing fail
with `errSniffingTimeout`, and a pipe whose first read fills the buffer makes
it fail with the unknown-content error. -/
theorem contentLoop_timeout_or_unknown_witness :
    (∃ st, contentLoop exampleLib (fun _ => none) cluelessSniffer 3 0
        { cReader := some { reader := examplePipe, cache := [] }, sniffed := [],
          cacheCalls := 0 } =
      some ((none, some GoError.errSniffingTimeout), st) ∧ st.cacheCalls = 2) ∧
    (∃ st, contentLoop exampleLib (fun _ => none) cluelessSniffer 3 0
        { cReader := some { reader := fullPipe, cache := [] }, sniffed := [],
          cacheCalls := 0 } =
      some ((none, some GoError.errUnknownContent), st) ∧ st.cacheCalls = 1) :=
  ⟨(contentLoop_timeout_or_unknown exampleLib (fun _ => none) cluelessSniffer
      { reader := examplePipe, cache := [] } (fun _ => rfl)).1
      (Or.inr rfl) (by decide) (Or.inr rfl) (by decide),
   (contentLoop_timeout_or_unknown exampleLib (fun _ => none) cluelessSniffer
      { reader := fullPipe, cache := [] } (fun _ => rfl)).2.1
      (Or.inr rfl) (by decide)⟩

/-! ### Dispatch: the protocol of the content -/

theorem afterSniff_protocol (lib : Lib) (d : DefaultDispatcher) (ctx : Context)
    (inbound outbound : Link) (stats : StatsManager) (ob : Outbound) (content : Content)
    (run : SniffRun) (destination : Destination) (r : SniffResult) (b : Bool) (s1 : Instance)
    (herr : run.err = none) (hres : run.result = some r)
    (hso : shouldOverride lib ctx.server r content.SniffingRequest destination =
      some (b, s1)) :
    ∃ ob1 dest1,
      afterSniff lib d ctx inbound outbound stats ob content run destination =
        some (dispatchTail d ctx inbound outbound stats ob1
          { content with Protocol := r.Protocol } s1 (some run) dest1) ∧
      (b = false → ob1 = ob ∧ dest1 = destination) := by
  unfold afterSniff
  cases b with
  | true =>
    simp only [herr, hres, if_true, hso]
    exact ⟨_, _, rfl, by simp⟩
  | false =>
    simp only [herr, hres, if_true, hso]
    exact ⟨_, _, rfl, fun _ => ⟨rfl, rfl⟩⟩

theorem shouldOverride_of_excluded (lib : Lib) (s : Instance) (result : SniffResult)
    (request : SniffingRequest) (destination : Destination)
    (h : lib.ToLower result.Domain ∈ request.ExcludeForDomain) :
    shouldOverride lib s result request destination = some (false, s) := by
  unfold shouldOverride
  simp only [(excludeLoop_iff lib result.Domain request.ExcludeForDomain).2 h, if_true]

theorem Dispatch_afterSniff (lib : Lib) (sn : Sniffer) (uplink : PipeReader)
    (d : DefaultDispatcher) (ctx : Context) (destination : Destination) (run : SniffRun)
    (hv : lib.IsValid destination = true) (hen : (requestOf ctx).Enabled = true)
    (hsn : dispatchSniffer lib sn uplink ctx (requestOf ctx) destination = some run) :
    ∃ inbound outbound stats,
      d.Dispatch lib sn uplink ctx destination =
        afterSniff lib d
          { ctx with outbound := some { Target := destination },
                     content := some (contentOf ctx) }
          inbound outbound stats { Target := destination } (contentOf ctx) run destination := by
  have hc : contentOf { ctx with outbound := some { Target := destination } } =
      contentOf ctx := rfl
  unfold DefaultDispatcher.Dispatch
  unfold requestOf at hen hsn
  unfold dispatchSniffer at hsn
  have hen1 : ¬ ((!(contentOf ctx).SniffingRequest.Enabled) = true) := by simp [hen]
  have hv1 : ¬ ((!lib.IsValid destination) = true) := by simp [hv]
  rw [if_neg hv1]
  simp only [hc]
  rw [if_neg hen1]
  by_cases hnet : destination.Network ≠ Network.TCP
  · rw [if_pos hnet] at hsn
    rw [if_pos hnet, hsn]
    exact ⟨_, _, _, rfl⟩
  · rw [if_neg hnet] at hsn
    rw [if_neg hnet, hsn]
    exact ⟨_, _, _, rfl⟩

/-- C24: in a `Dispatch` of a valid destination with sniffing enabled whose
sniffer call returns a result `r` without error, whatever `shouldOverride`
returns, true or false, `Dispatch` returns, `content.Protocol` is
`r.Protocol()` and `routedDispatch` is called once on a context that holds
this content; when the lower-cased sniffed domain is in `ExcludeForDomain`,
`routedDispatch` gets the destination passed to `Dispatch`, which stays the
target of the outbound record, and `content.Protocol` is `r.Protocol()`. -/
theorem Dispatch_sets_protocol (lib : Lib) (sn : Sniffer) (uplink : PipeReader)
    (d : DefaultDispatcher) (ctx : Context) (destination : Destination) (run : SniffRun)
    (r : SniffResult)
    (hv : lib.IsValid destination = true) (hen : (requestOf ctx).Enabled = true)
    (hsn : dispatchSniffer lib sn uplink ctx (requestOf ctx) destination = some run)
    (herr : run.err = none) (hres : run.result = some r) :
    (∀ b s1, shouldOverride lib ctx.server r (requestOf ctx) destination = some (b, s1) →
      ∃ out call, d.Dispatch lib sn uplink ctx destination = some out ∧
        out.content.Protocol = r.Protocol ∧
        out.calls = [call] ∧ call.ctx.content = some out.content ∧
        (b = false → call.destination = destination ∧ out.ob.Target = destination)) ∧
    (lib.ToLower r.Domain ∈ (requestOf ctx).ExcludeForDomain →
      ∃ out call, d.Dispatch lib sn uplink ctx destination = some out ∧
        out.calls = [call] ∧ call.destination = destination ∧
        out.ob.Target = destination ∧ out.content.Protocol = r.Protocol ∧
        call.ctx.content = some out.content) := by
  obtain ⟨inbound, outbound, stats, hd⟩ :=
    Dispatch_afterSniff lib sn uplink d ctx destination run hv hen hsn
  have key : ∀ b s1, shouldOverride lib ctx.server r (requestOf ctx) destination = some (b, s1) →
      ∃ out call, d.Dispatch lib sn uplink ctx destination = some out ∧
        out.content.Protocol = r.Protocol ∧
        out.calls = [call] ∧ call.ctx.content = some out.content ∧
        (b = false → call.destination = destination ∧ out.ob.Target = destination) := by
    intro b s1 hso
    obtain ⟨ob1, dest1, ha, hb⟩ := afterSniff_protocol lib d
      { ctx with outbound := some { Target := destination }, content := some (contentOf ctx) }
      inbound outbound stats { Target := destination } (contentOf ctx) run destination r b s1
      herr hres hso
    rw [hd, ha]
    refine ⟨_, _, rfl, rfl, rfl, rfl, ?_⟩
    intro hb0
    obtain ⟨h1, h2⟩ := hb hb0
    subst h1
    subst h2
    exact ⟨rfl, rfl⟩
  refine ⟨key, ?_⟩
  intro hex
  obtain ⟨out, call, h1, h2, h3, h4, h5⟩ :=
    key false ctx.server (shouldOverride_of_excluded lib ctx.server r _ destination hex)
  exact ⟨out, call, h1, h3, (h5 rfl).1, (h5 rfl).2, h2, h4⟩

/-- C24 at a dispatch whose payload sniffer finds TLS with the name
`example.org`, which the request excludes: the destination 1.2.3.4:443 is
handed on as it is and the protocol of the content is `tls`. -/
theorem Dispatch_sets_protocol_witness :
    ∃ out call,
      exampleDispatcher.Dispatch exampleLib exampleSniffer examplePipe excludingContext
        exampleDestination = some out ∧
      out.calls = [call] ∧ call.destination = exampleDestination ∧
      out.ob.Target = exampleDestination ∧ out.content.Protocol = "tls" ∧
      call.ctx.content = some out.content :=
  (Dispatch_sets_protocol exampleLib exampleSniffer examplePipe exampleDispatcher
    excludingContext exampleDestination exampleRun tlsResult rfl rfl rfl rfl rfl).2
    (by decide)

/-! ### routedDispatch: the detour on the default handler -/

/-- C25, the claim as stated fails: the router returns a route to `missing`,
no handler has that tag, `routedDispatch` falls back to the default handler
`direct`, the inbound tag is `socks-in`, and the recorded detour is
`socks-in -> direct`, with the separator of a picked route. -/
theorem routedDispatch_missing_tag_detour :
    missingTagDispatcher.ohm.GetHandler "missing" = none ∧
    (routePick missingTagDispatcher exampleContext).1 = none ∧
    (missingTagDispatcher.routedDispatch exampleContext exampleLink exampleDestination).handler =
      missingTagDispatcher.ohm.GetDefaultHandler ∧
    (missingTagDispatcher.routedDispatch exampleContext exampleLink
        exampleDestination).accessMessage =
      some { Detour := "socks-in -> direct", rest := "accepted" } ∧
    "socks-in -> direct" ≠ "socks-in" ++ " >> " ++ "direct" := by
  refine ⟨rfl, rfl, rfl, ?_, by decide⟩
  decide

/-- C25, amended: with an access message attached and a tagged inbound, when
the router block of `routedDispatch` selects no handler and the default handler
exists with a non-empty tag `T`, the default handler is used and the recorded
detour is `inTag ++ " >> " ++ T` when there is no router, the router is skipped
or the router returned an error, and `inTag ++ " -> " ++ T` when the router
returned a route, whose outbound tag then has no registered handler. -/
theorem routedDispatch_default_detour (d : DefaultDispatcher) (ctx : Context) (link : Link)
    (destination : Destination) (m : AccessMessage) (h : Handler)
    (hm : ctx.accessMessage = some m)
    (hp : (routePick d ctx).1 = none)
    (hd : d.ohm.GetDefaultHandler = some h)
    (ht : h.Tag ≠ "") (hin : GetInboundTag ctx ≠ "") :
    (d.routedDispatch ctx link destination).handler = some h ∧
    ∃ m1, (d.routedDispatch ctx link destination).accessMessage = some m1 ∧
      Event.Record m1 ∈ (d.routedDispatch ctx link destination).events ∧
      m1.rest = m.rest ∧
      ((d.router = none ∨ skipRoutePick ctx = true ∨
          ∃ router e, d.router = some router ∧ router.PickRoute ctx = Except.error e) →
        m1.Detour = GetInboundTag ctx ++ " >> " ++ h.Tag) ∧
      (∀ router route, d.router = some router → skipRoutePick ctx = false →
          router.PickRoute ctx = Except.ok route →
        d.ohm.GetHandler route.OutboundTag = none ∧
        m1.Detour = GetInboundTag ctx ++ " -> " ++ h.Tag) := by
  have hb := routePick_isPickRoute d ctx
  have hmiss : ∀ router route, d.router = some router → skipRoutePick ctx = false →
      router.PickRoute ctx = Except.ok route → d.ohm.GetHandler route.OutboundTag = none := by
    intro router route h1 h2 h3
    unfold routePick at hp
    simp only [h1, h2, h3, Bool.not_false, if_true] at hp
    cases hg : d.ohm.GetHandler route.OutboundTag with
    | none => rfl
    | some h1 => simp [hg] at hp
  revert hp hb
  unfold DefaultDispatcher.routedDispatch
  rcases routePick d ctx with ⟨h0, b, ev⟩
  intro hp hb
  simp only at hp hb
  subst hp
  simp only [hd, hm]
  refine ⟨trivial, _, rfl, by simp, ?_⟩
  simp only [ht, ne_eq, not_false_eq_true, if_true, detourOf]
  refine ⟨trivial, ?_, ?_⟩
  · intro hno
    have hbf : b = false := by
      cases b with
      | false => rfl
      | true =>
        obtain ⟨router, route, h1, h2, h3⟩ := hb.1 rfl
        rcases hno with h4 | h4 | ⟨r2, e, h4, h5⟩
        · rw [h4] at h1
          cases h1
        · rw [h4] at h2
          cases h2
        · rw [h4] at h1
          cases h1
          rw [h5] at h3
          cases h3
    subst hbf
    simp [hin]
  · intro router route h1 h2 h3
    have hbt : b = true := hb.2 ⟨router, route, h1, h2, h3⟩
    subst hbt
    exact ⟨hmiss router route h1 h2 h3, by simp [hin]⟩

/-- C25, amended, at a dispatcher whose router finds no rule: the default
handler `direct` is used and the recorded detour is `socks-in >> direct`. -/
theorem routedDispatch_default_detour_witness :
    (noRuleDispatcher.routedDispatch exampleContext exampleLink exampleDestination).handler =
      some directHandler ∧
    ∃ m1, (noRuleDispatcher.routedDispatch exampleContext exampleLink
        exampleDestination).accessMessage = some m1 ∧
      m1.Detour = "socks-in >> direct" := by
  obtain ⟨h1, m1, h2, _, _, h5, _⟩ :=
    routedDispatch_default_detour noRuleDispatcher exampleContext exampleLink
      exampleDestination exampleMessage directHandler rfl rfl rfl (by decide) (by decide)
  exact ⟨h1, m1, h2, (h5 (Or.inr (Or.inr ⟨_, _, rfl, rfl⟩))).trans (by decide)⟩

/-! ### shouldOverride: the pending resolutions of the instance -/

/-- C29: `shouldOverride` leaves the feature list as it is, but when the
lower-cased sniffed domain is not excluded and no FakeDNS engine is registered,
its call of `core.RequireFeatures` appends a resolution for its callback to the
pending resolutions of the instance, which are one more after the call. -/
theorem shouldOverride_queues_resolution (lib : Lib) (s : Instance) (result : SniffResult)
    (request : SniffingRequest) (destination : Destination)
    (hex : lib.ToLower result.Domain ∉ request.ExcludeForDomain)
    (hno : getFeature s.features (PtrTo fakeDNSEngineType) = none) :
    ∃ b s1, shouldOverride lib s result request destination = some (b, s1) ∧
      s1.features = s.features ∧
      s1.featureResolutions = s.featureResolutions ++
        [{ deps := [PtrTo fakeDNSEngineType], callback := fakeDNSCallback }] ∧
      s1.featureResolutions.length = s.featureResolutions.length + 1 := by
  have hx : ¬ (excludeLoop lib result.Domain request.ExcludeForDomain = true) :=
    fun h => hex ((excludeLoop_iff lib result.Domain request.ExcludeForDomain).1 h)
  unfold shouldOverride
  simp only [hx, if_false, RequireFeatures_fakeDNS s, hno]
  exact ⟨_, _, rfl, rfl, rfl, by simp⟩

/-- C29 at a concrete input: on the empty instance, which has no FakeDNS engine
and no pending resolution, a call of `shouldOverride` for a TLS result leaves
one pending resolution behind. -/
theorem shouldOverride_queues_resolution_witness :
    emptyInstance.featureResolutions = [] ∧
    ∃ b s1, shouldOverride exampleLib emptyInstance tlsResult
        { ExcludeForDomain := [], OverrideDestinationForProtocol := ["tls"],
          Enabled := true, MetadataOnly := false } exampleDestination = some (b, s1) ∧
      s1.featureResolutions.length = 1 := by
  obtain ⟨b, s1, h1, _, _, h4⟩ :=
    shouldOverride_queues_resolution exampleLib emptyInstance tlsResult
      { ExcludeForDomain := [], OverrideDestinationForProtocol := ["tls"],
        Enabled := true, MetadataOnly := false } exampleDestination (by simp) rfl
  exact ⟨rfl, b, s1, h1, h4⟩

/-! ### proxy/vmess/encoding/commands.go -/

theorem getElem?_none_iff_le (data : List Nat) (i : Nat) :
    data[i]? = none ↔ data.length ≤ i := by
  simp

theorem Unmarshal_short (wire : WireLib) (data : List Nat)
    (h : ∀ lenHost, data[0]? = some lenHost → data.length < lenHost + 22) :
    CommandSwitchAccountFactory.Unmarshal wire data =
      some (none, some (GoError.newError "insufficient length.")) := by
  unfold CommandSwitchAccountFactory.Unmarshal
  by_cases h0 : data.length = 0
  · rw [if_pos h0]
  · rw [if_neg h0]
    cases hd : data[0]? with
    | none =>
      have := (getElem?_none_iff_le data 0).1 hd
      omega
    | some lenHost =>
      have hlt := h lenHost hd
      simp only
      by_cases h1 : data.length < lenHost + 1
      · rw [if_pos h1]
      · rw [if_neg h1]
        by_cases h2 : data.length < 1 + lenHost + 2
        · rw [if_pos h2]
        · rw [if_neg h2]
          by_cases h3 : data.length < 1 + lenHost + 2 + 16
          · rw [if_pos h3]
          · rw [if_neg h3]
            by_cases h4 : data.length < 1 + lenHost + 2 + 16 + 2
            · rw [if_pos h4]
            · rw [if_neg h4]
              by_cases h5 : data.length < 1 + lenHost + 2 + 16 + 2 + 1
              · rw [if_pos h5]
              · omega

/-- C26: `CommandSwitchAccountFactory.Unmarshal` rejects with the
insufficient-length error every input that is empty or shorter than 22 bytes
more than its first byte, but it panics with an index out of range exactly on
the inputs that hold the host, the port, the ID, the alterIds and the level
and not the byte of `ValidMin`, their length being 22 more than their first
byte: the last length check admits them.  So it does on the 22 bytes of
`truncatedBody`, and so does `UnmarshalCommand` on these bytes behind their
checksum. -/
theorem Unmarshal_index_out_of_range :
    (∀ (wire : WireLib) (data : List Nat),
      (∀ lenHost, data[0]? = some lenHost → data.length < lenHost + 22) →
      CommandSwitchAccountFactory.Unmarshal wire data =
        some (none, some (GoError.newError "insufficient length."))) ∧
    (∀ (wire : WireLib) (data : List Nat),
      CommandSwitchAccountFactory.Unmarshal wire data = none ↔
        ∃ lenHost, data[0]? = some lenHost ∧ data.length = lenHost + 22) ∧
    truncatedBody.length = 22 ∧
    CommandSwitchAccountFactory.Unmarshal exampleWire truncatedBody = none ∧
    UnmarshalCommand exampleWire 1 truncatedCommand = none := by
  refine ⟨Unmarshal_short, ?_, by decide, by decide, by decide⟩
  intro wire data
  unfold CommandSwitchAccountFactory.Unmarshal
  by_cases h0 : data.length = 0
  · simp only [h0, if_true]
    constructor
    · intro h
      cases h
    · rintro ⟨lenHost, _, h2⟩
      omega
  · rw [if_neg h0]
    cases hd : data[0]? with
    | none =>
      have := (getElem?_none_iff_le data 0).1 hd
      omega
    | some lenHost =>
      simp only
      by_cases h1 : data.length < lenHost + 1
      · rw [if_pos h1]
        constructor
        · intro h
          cases h
        · rintro ⟨l, hl, h2⟩
          cases hl
          omega
      · rw [if_neg h1]
        by_cases h2 : data.length < 1 + lenHost + 2
        · rw [if_pos h2]
          constructor
          · intro h
            cases h
          · rintro ⟨l, hl, h3⟩
            cases hl
            omega
        · rw [if_neg h2]
          by_cases h3 : data.length < 1 + lenHost + 2 + 16
          · rw [if_pos h3]
            constructor
            · intro h
              cases h
            · rintro ⟨l, hl, h4⟩
              cases hl
              omega
          · rw [if_neg h3]
            by_cases h4 : data.length < 1 + lenHost + 2 + 16 + 2
            · rw [if_pos h4]
              constructor
              · intro h
                cases h
              · rintro ⟨l, hl, h5⟩
                cases hl
                omega
            · rw [if_neg h4]
              by_cases h5 : data.length < 1 + lenHost + 2 + 16 + 2 + 1
              · rw [if_pos h5]
                constructor
                · intro h
                  cases h
                · rintro ⟨l, hl, h6⟩
                  cases hl
                  omega
              · rw [if_neg h5]
                cases hlev : data[1 + lenHost + 2 + 16 + 2]? with
                | none =>
                  have := (getElem?_none_iff_le data _).1 hlev
                  omega
                | some Level =>
                  simp only
                  have h6 : ¬ (data.length < 1 + lenHost + 2 + 16 + 2 + 1) := h5
                  rw [if_neg h6]
                  cases hv : data[1 + lenHost + 2 + 16 + 2 + 1]? with
                  | none =>
                    have := (getElem?_none_iff_le data _).1 hv
                    simp only [true_iff]
                    exact ⟨lenHost, rfl, by omega⟩
                  | some ValidMin =>
                    simp only
                    constructor
                    · intro h
                      cases h
                    · rintro ⟨l, hl, h7⟩
                      cases hl
                      have hlt : data.length ≤ 1 + lenHost + 2 + 16 + 2 + 1 := by omega
                      have hnone := (getElem?_none_iff_le data _).2 hlt
                      rw [hnone] at hv
                      cases hv

theorem Marshal_switchAccount (wire : WireLib) (cmd : CommandSwitchAccount) :
    CommandSwitchAccountFactory.Marshal wire (Command.switchAccount cmd) [] =
      (none, serialisedBody wire cmd) := rfl

/-- C28: for a `CommandSwitchAccount` whose serialised body has length `n`,
`MarshalCommand` returns nil if and only if `n + 4 ≤ 255`, and it then appends
to the writer the byte 1, the byte `n + 4`, the four big-endian bytes of
`Authenticate(body)` and the body; when `n + 4 > 255` it returns
`ErrCommandTooLarge`, and for a nil command or a command of another type it
returns `ErrUnknownCommand`, the writer being as it was in these error cases. -/
theorem MarshalCommand_writes (wire : WireLib) (writer : List Nat) :
    (∀ cmd : CommandSwitchAccount,
      ((MarshalCommand wire (some (Command.switchAccount cmd)) writer).1 = none ↔
        (serialisedBody wire cmd).length + 4 ≤ 255) ∧
      ((serialisedBody wire cmd).length + 4 ≤ 255 →
        MarshalCommand wire (some (Command.switchAccount cmd)) writer =
          (none, writer ++ [1, (serialisedBody wire cmd).length + 4] ++
            bigEndianBytes32 (wire.Authenticate (serialisedBody wire cmd) % 4294967296) ++
            serialisedBody wire cmd) ∧
        BigEndianUint32
            (bigEndianBytes32 (wire.Authenticate (serialisedBody wire cmd) % 4294967296)) =
          wire.Authenticate (serialisedBody wire cmd) % 4294967296) ∧
      ((serialisedBody wire cmd).length + 4 > 255 →
        MarshalCommand wire (some (Command.switchAccount cmd)) writer =
          (some ErrCommandTooLarge, writer))) ∧
    MarshalCommand wire none writer = (some ErrUnknownCommand, writer) ∧
    MarshalCommand wire (some Command.other) writer = (some ErrUnknownCommand, writer) := by
  refine ⟨?_, rfl, rfl⟩
  intro cmd
  have hgen : ∀ a : Nat, a < 4294967296 → BigEndianUint32 (bigEndianBytes32 a) = a := by
    intro a ha
    simp only [BigEndianUint32, bigEndianBytes32, List.getD_cons_zero, List.getD_cons_succ]
    omega
  by_cases hle : (serialisedBody wire cmd).length + 4 ≤ 255
  · have hgt : ¬ ((serialisedBody wire cmd).length + 4 > 255) := by omega
    have hval : MarshalCommand wire (some (Command.switchAccount cmd)) writer =
        (none, writer ++ [1, (serialisedBody wire cmd).length + 4] ++
          bigEndianBytes32 (wire.Authenticate (serialisedBody wire cmd) % 4294967296) ++
          serialisedBody wire cmd) := by
      unfold MarshalCommand
      simp only [Marshal_switchAccount, hgt, if_false, bigEndianBytes32]
      have hmod : ((serialisedBody wire cmd).length + 4) % 256 =
          (serialisedBody wire cmd).length + 4 := by omega
      rw [hmod]
      simp
    refine ⟨⟨fun _ => hle, fun _ => by rw [hval]⟩, fun _ => ⟨hval, hgen _ (by omega)⟩, ?_⟩
    intro h
    omega
  · have hgt : (serialisedBody wire cmd).length + 4 > 255 := by omega
    have hval : MarshalCommand wire (some (Command.switchAccount cmd)) writer =
        (some ErrCommandTooLarge, writer) := by
      unfold MarshalCommand
      simp only [Marshal_switchAccount, hgt, if_true]
    refine ⟨⟨fun h => ?_, fun h => absurd h hle⟩, fun h => absurd h hle, fun _ => hval⟩
    rw [hval] at h
    cases h

theorem slice_mid (pre mid post : List Nat) (lo hi : Nat) (hlo : lo = pre.length)
    (hhi : hi = pre.length + mid.length) : slice (pre ++ (mid ++ post)) lo hi = mid := by
  subst hlo
  subst hhi
  simp [slice]

theorem getElem?_mid (pre : List Nat) (x : Nat) (post : List Nat) (i : Nat)
    (hi : i = pre.length) : (pre ++ x :: post)[i]? = some x := by
  subst hi
  rw [List.getElem?_append_right (le_refl _)]
  simp

theorem Unmarshal_of_fields (wire : WireLib) (data : List Nat) (lenHost : Nat)
    (host p id a : List Nat) (l v : Nat)
    (h0 : data[0]? = some lenHost) (hlen : data.length = lenHost + 23)
    (hhost : slice data 1 (1 + lenHost) = host)
    (hp : slice data (1 + lenHost) (1 + lenHost + 2) = p)
    (hid : slice data (1 + lenHost + 2) (1 + lenHost + 2 + 16) = id)
    (ha : slice data (1 + lenHost + 2 + 16) (1 + lenHost + 2 + 16 + 2) = a)
    (hl : data[1 + lenHost + 2 + 16 + 2]? = some l)
    (hv : data[1 + lenHost + 2 + 16 + 2 + 1]? = some v) :
    CommandSwitchAccountFactory.Unmarshal wire data =
      some (some { Host := if lenHost > 0 then some (wire.ParseAddress host) else none
                   Port := wire.PortFromBytes p
                   ID := wire.ParseBytes id
                   AlterIds := BigEndianUint16 a
                   Level := l
                   ValidMin := v }, none) := by
  unfold CommandSwitchAccountFactory.Unmarshal
  rw [if_neg (by omega)]
  simp only [h0]
  rw [if_neg (by omega), if_neg (by omega), if_neg (by omega), if_neg (by omega),
    if_neg (by omega)]
  simp only [hl]
  rw [if_neg (by omega)]
  simp only [hv, hhost, hp, hid, ha]

theorem serialisedBody_eq (wire : WireLib) (cmd : CommandSwitchAccount) (hostStr : List Nat)
    (hh : hostStr = match cmd.Host with
      | some h => wire.AddressString h
      | none => []) :
    serialisedBody wire cmd =
      (hostStr.length % 256) :: (hostStr ++ (wire.WriteUint16 cmd.Port ++ (cmd.ID ++
        (wire.WriteUint16 cmd.AlterIds ++ [cmd.Level % 256, cmd.ValidMin])))) := by
  unfold serialisedBody CommandSwitchAccountFactory.Marshal
  simp only [← hh]
  cases hostStr with
  | nil => simp
  | cons x xs => simp

/-- C27, the claim as stated fails: the host of `emptyHostCommand` is the empty
domain name, which is not nil; its string is empty, `MarshalCommand` succeeds
and writes the host length 0, and `UnmarshalCommand` on the bytes from the
third on returns a command whose host is nil, the other fields being those of
the command. -/
theorem MarshalCommand_empty_host_lost :
    emptyHostCommand.Host = some (Address.domain "") ∧
    emptyHostCommand.Level ≤ 255 ∧
    MarshalCommand exampleWire (some (Command.switchAccount emptyHostCommand)) [] =
      (none, emptyHostCommandBytes) ∧
    UnmarshalCommand exampleWire 1 (emptyHostCommandBytes.drop 2) =
      some (some { emptyHostCommand with Host := none }, none) ∧
    UnmarshalCommand exampleWire 1 (emptyHostCommandBytes.drop 2) ≠
      some (some emptyHostCommand, none) := by
  refine ⟨rfl, by decide, by decide, by decide, by decide⟩

/-- C27, amended: for a command whose fields are in the ranges of their types
and whose `Level` is at most 255, when `serial.WriteUint16` writes the two
big-endian bytes of a 16-bit value, `net.PortFromBytes` reads the port back
from them and `uuid.ParseBytes` returns the UUID of the 16 bytes of the ID: if
`MarshalCommand` succeeds on the empty writer, writing the bytes `w`, then
`w[0]` is 1 and `UnmarshalCommand(w[0], w[2:])` returns, without error, a
command with the same Port, ID, AlterIds, Level and ValidMin, whose Host is nil
when the host of the command is nil or has an empty string, and is
`net.ParseAddress` of that string otherwise. -/
theorem MarshalCommand_roundtrip (wire : WireLib) (cmd : CommandSwitchAccount) (w : List Nat)
    (hlevel : cmd.Level ≤ 255) (hrange : cmd.inRange = true)
    (hw16 : ∀ v, v < 65536 → wire.WriteUint16 v = [v / 256, v % 256])
    (hport : wire.PortFromBytes (wire.WriteUint16 cmd.Port) = cmd.Port)
    (huuid : wire.ParseBytes cmd.ID = cmd.ID)
    (hm : MarshalCommand wire (some (Command.switchAccount cmd)) [] = (none, w)) :
    w[0]? = some 1 ∧
    UnmarshalCommand wire 1 (w.drop 2) =
      some (some { cmd with Host := hostReadBack wire cmd }, none) ∧
    (cmd.Host = none → hostReadBack wire cmd = none) ∧
    (∀ h, cmd.Host = some h → wire.AddressString h = [] → hostReadBack wire cmd = none) ∧
    (∀ h, cmd.Host = some h → wire.AddressString h ≠ [] →
      hostReadBack wire cmd = some (wire.ParseAddress (wire.AddressString h))) := by
  have hr1 : cmd.Host = none → hostReadBack wire cmd = none := by
    intro h
    unfold hostReadBack
    rw [h]
  have hr2 : ∀ h, cmd.Host = some h → wire.AddressString h = [] →
      hostReadBack wire cmd = none := by
    intro h hc he
    unfold hostReadBack
    rw [hc]
    simp [he]
  have hr3 : ∀ h, cmd.Host = some h → wire.AddressString h ≠ [] →
      hostReadBack wire cmd = some (wire.ParseAddress (wire.AddressString h)) := by
    intro h hc hne
    unfold hostReadBack
    rw [hc]
    have hpos : (wire.AddressString h).length > 0 := List.length_pos.2 hne
    simp only [hpos, if_true]
  simp only [CommandSwitchAccount.inRange, Bool.and_eq_true, decide_eq_true_eq] at hrange
  obtain ⟨⟨⟨⟨hP, hID⟩, hA⟩, _⟩, _⟩ := hrange
  -- the body and its length
  obtain ⟨hostStr, hh⟩ : ∃ hostStr : List Nat, hostStr = match cmd.Host with
      | some h => wire.AddressString h
      | none => [] := ⟨_, rfl⟩
  have hbody := serialisedBody_eq wire cmd hostStr hh
  rw [hw16 _ hP, hw16 _ hA] at hbody
  have hport1 : wire.PortFromBytes [cmd.Port / 256, cmd.Port % 256] = cmd.Port := by
    rw [← hw16 _ hP]
    exact hport
  have hblen : (serialisedBody wire cmd).length = hostStr.length + 23 := by
    rw [hbody]
    simp [hID]
  -- what MarshalCommand wrote
  have hle : (serialisedBody wire cmd).length + 4 ≤ 255 := by
    by_contra hgt
    have hgt1 : (serialisedBody wire cmd).length + 4 > 255 := by omega
    unfold MarshalCommand at hm
    simp only [Marshal_switchAccount, hgt1, if_true] at hm
    cases hm
  have hgt : ¬ ((serialisedBody wire cmd).length + 4 > 255) := by omega
  unfold MarshalCommand at hm
  simp only [Marshal_switchAccount, hgt, if_false, Prod.mk.injEq, true_and,
    List.nil_append] at hm
  subst hm
  refine ⟨rfl, ?_, hr1, hr2, hr3⟩
  have hdrop : List.drop 2 ([1, ((serialisedBody wire cmd).length + 4) % 256,
      wire.Authenticate (serialisedBody wire cmd) % 4294967296 / 16777216 % 256,
      wire.Authenticate (serialisedBody wire cmd) % 4294967296 / 65536 % 256,
      wire.Authenticate (serialisedBody wire cmd) % 4294967296 / 256 % 256,
      wire.Authenticate (serialisedBody wire cmd) % 4294967296 % 256] ++
        serialisedBody wire cmd) =
      [wire.Authenticate (serialisedBody wire cmd) % 4294967296 / 16777216 % 256,
       wire.Authenticate (serialisedBody wire cmd) % 4294967296 / 65536 % 256,
       wire.Authenticate (serialisedBody wire cmd) % 4294967296 / 256 % 256,
       wire.Authenticate (serialisedBody wire cmd) % 4294967296 % 256] ++
        serialisedBody wire cmd := rfl
  rw [hdrop]
  unfold UnmarshalCommand
  have hlen4 : ¬ (([wire.Authenticate (serialisedBody wire cmd) % 4294967296 / 16777216 % 256,
       wire.Authenticate (serialisedBody wire cmd) % 4294967296 / 65536 % 256,
       wire.Authenticate (serialisedBody wire cmd) % 4294967296 / 256 % 256,
       wire.Authenticate (serialisedBody wire cmd) % 4294967296 % 256] ++
        serialisedBody wire cmd).length ≤ 4) := by
    simp only [List.length_append, List.length_cons, List.length_nil]
    omega
  rw [if_neg hlen4]
  have hd4 : List.drop 4
      ([wire.Authenticate (serialisedBody wire cmd) % 4294967296 / 16777216 % 256,
       wire.Authenticate (serialisedBody wire cmd) % 4294967296 / 65536 % 256,
       wire.Authenticate (serialisedBody wire cmd) % 4294967296 / 256 % 256,
       wire.Authenticate (serialisedBody wire cmd) % 4294967296 % 256] ++
        serialisedBody wire cmd) = serialisedBody wire cmd := rfl
  have hs4 : BigEndianUint32 (slice
      ([wire.Authenticate (serialisedBody wire cmd) % 4294967296 / 16777216 % 256,
       wire.Authenticate (serialisedBody wire cmd) % 4294967296 / 65536 % 256,
       wire.Authenticate (serialisedBody wire cmd) % 4294967296 / 256 % 256,
       wire.Authenticate (serialisedBody wire cmd) % 4294967296 % 256] ++
        serialisedBody wire cmd) 0 4) =
      wire.Authenticate (serialisedBody wire cmd) % 4294967296 := by
    have hsl : slice
      ([wire.Authenticate (serialisedBody wire cmd) % 4294967296 / 16777216 % 256,
       wire.Authenticate (serialisedBody wire cmd) % 4294967296 / 65536 % 256,
       wire.Authenticate (serialisedBody wire cmd) % 4294967296 / 256 % 256,
       wire.Authenticate (serialisedBody wire cmd) % 4294967296 % 256] ++
        serialisedBody wire cmd) 0 4 =
      [wire.Authenticate (serialisedBody wire cmd) % 4294967296 / 16777216 % 256,
       wire.Authenticate (serialisedBody wire cmd) % 4294967296 / 65536 % 256,
       wire.Authenticate (serialisedBody wire cmd) % 4294967296 / 256 % 256,
       wire.Authenticate (serialisedBody wire cmd) % 4294967296 % 256] := rfl
    rw [hsl]
    simp only [BigEndianUint32, List.getD_cons_zero, List.getD_cons_succ]
    omega
  simp only [hd4, hs4, ne_eq, not_true_eq_false, if_false, if_true]
  -- the body read back
  have hhl : hostStr.length % 256 = hostStr.length := by omega
  have hfields := Unmarshal_of_fields wire (serialisedBody wire cmd) hostStr.length hostStr
    [cmd.Port / 256, cmd.Port % 256] cmd.ID [cmd.AlterIds / 256, cmd.AlterIds % 256]
    (cmd.Level % 256) cmd.ValidMin
    (by rw [hbody, hhl]; simp) hblen
    (by
      rw [hbody]
      exact slice_mid [hostStr.length % 256] hostStr _ _ _ (by simp) (by simp))
    (by
      rw [hbody]
      have h := slice_mid (hostStr.length % 256 :: hostStr) [cmd.Port / 256, cmd.Port % 256]
        (cmd.ID ++ ([cmd.AlterIds / 256, cmd.AlterIds % 256] ++ [cmd.Level % 256, cmd.ValidMin]))
        (1 + hostStr.length) (1 + hostStr.length + 2) (by simp; omega) (by simp; omega)
      simpa using h)
    (by
      rw [hbody]
      have h := slice_mid (hostStr.length % 256 :: (hostStr ++ [cmd.Port / 256, cmd.Port % 256]))
        cmd.ID ([cmd.AlterIds / 256, cmd.AlterIds % 256] ++ [cmd.Level % 256, cmd.ValidMin])
        (1 + hostStr.length + 2) (1 + hostStr.length + 2 + 16) (by simp; omega)
        (by simp [hID]; omega)
      simpa using h)
    (by
      rw [hbody]
      have h := slice_mid
        (hostStr.length % 256 :: (hostStr ++ ([cmd.Port / 256, cmd.Port % 256] ++ cmd.ID)))
        [cmd.AlterIds / 256, cmd.AlterIds % 256] [cmd.Level % 256, cmd.ValidMin]
        (1 + hostStr.length + 2 + 16) (1 + hostStr.length + 2 + 16 + 2)
        (by simp [hID]; omega) (by simp [hID]; omega)
      simpa using h)
    (by
      rw [hbody]
      have h := getElem?_mid
        (hostStr.length % 256 :: (hostStr ++ ([cmd.Port / 256, cmd.Port % 256] ++
          (cmd.ID ++ [cmd.AlterIds / 256, cmd.AlterIds % 256]))))
        (cmd.Level % 256) [cmd.ValidMin] (1 + hostStr.length + 2 + 16 + 2)
        (by simp [hID]; omega)
      simpa using h)
    (by
      rw [hbody]
      have h := getElem?_mid
        (hostStr.length % 256 :: (hostStr ++ ([cmd.Port / 256, cmd.Port % 256] ++
          (cmd.ID ++ ([cmd.AlterIds / 256, cmd.AlterIds % 256] ++ [cmd.Level % 256])))))
        cmd.ValidMin [] (1 + hostStr.length + 2 + 16 + 2 + 1)
        (by simp [hID]; omega)
      simpa using h)
  rw [hfields]
  have hlev : cmd.Level % 256 = cmd.Level := by omega
  have hbe : BigEndianUint16 [cmd.AlterIds / 256, cmd.AlterIds % 256] = cmd.AlterIds := by
    simp only [BigEndianUint16, List.getD_cons_zero, List.getD_cons_succ]
    omega
  have hH : (if hostStr.length > 0 then some (wire.ParseAddress hostStr) else none) =
      hostReadBack wire cmd := by
    unfold hostReadBack
    cases hc : cmd.Host with
    | none =>
      rw [hc] at hh
      subst hh
      rfl
    | some h =>
      rw [hc] at hh
      simp only at hh
      subst hh
      rfl
  rw [hH, hport1, huuid, hbe, hlev]

/-- C27, amended, at `exampleCommand`, whose host is the domain `a.io`: the
bytes written are `exampleCommandBytes`, and the bytes from the third on are
read back as the command, its host being what the string `a.io` parses to. -/
theorem MarshalCommand_roundtrip_witness :
    MarshalCommand exampleWire (some (Command.switchAccount exampleCommand)) [] =
      (none, exampleCommandBytes) ∧
    exampleCommandBytes[0]? = some 1 ∧
    UnmarshalCommand exampleWire 1 (exampleCommandBytes.drop 2) =
      some (some exampleCommand, none) ∧
    hostReadBack exampleWire exampleCommand = some (Address.domain "a.io") := by
  have h := MarshalCommand_roundtrip exampleWire exampleCommand exampleCommandBytes
    (by decide) (by decide)
    (by
      intro v hv
      simp only [exampleWire]
      have h : v / 256 % 256 = v / 256 := by omega
      rw [h])
    (by decide) rfl (by decide)
  exact ⟨by decide, h.1, h.2.1.trans (by decide), by decide⟩

/-! ### infra/conf/vless.go: the fallbacks of VLessInboundConfig.Build -/

theorem pathAccepted_false_iff (fb : Fallback) :
    pathAccepted fb = false ↔ fb.Path ≠ "" ∧ firstByte fb.Path ≠ some '/' := by
  unfold pathAccepted
  simp

theorem buildFallback_eq (lib : ConfLib) (fb : Fallback) (hT : fb.Type_ = "") :
    buildFallback lib fb =
      if pathAccepted fb = false then Except.error errFallbackPath
      else if fb.Dest = "" then Except.error errFallbackDest
      else if fb.Dest = "serve-ws-none" then
        if fb.Xver > 2 then Except.error errFallbackXver
        else Except.ok { fb with Type_ := "serve" }
      else if firstByte fb.Dest = some '@' ∨ firstByte fb.Dest = some '/' then
        if fb.Xver > 2 then Except.error errFallbackXver
        else Except.ok { fb with Type_ := "unix", Dest := unixDest lib fb.Dest }
      else if lib.SplitHostPort (tcpDest lib fb.Dest) = true then
        if fb.Xver > 2 then Except.error errFallbackXver
        else Except.ok { fb with Type_ := "tcp", Dest := tcpDest lib fb.Dest }
      else Except.error errFallbackDest := by
  unfold buildFallback
  by_cases hp : pathAccepted fb = false
  · rw [if_pos hp, if_pos ((pathAccepted_false_iff fb).1 hp)]
  · rw [if_neg hp, if_neg (fun h => hp ((pathAccepted_false_iff fb).2 h))]
    by_cases hd : fb.Dest = ""
    · simp [hd, hT]
    · by_cases hs : fb.Dest = "serve-ws-none"
      · simp [hs, hT]
      · by_cases hu : firstByte fb.Dest = some '@' ∨ firstByte fb.Dest = some '/'
        · simp [hd, hs, hu, hT]
        · by_cases hsp : lib.SplitHostPort (tcpDest lib fb.Dest) = true
          · simp [hd, hs, hu, hsp, hT]
          · simp [hd, hs, hu, hsp, hT]

theorem fallbackLoop_ok (lib : ConfLib) (l : List Fallback) :
    ∀ out, fallbackLoop lib l = Except.ok out ↔
      List.Forall₂ (fun fb o => buildFallback lib fb = Except.ok o) l out := by
  induction l with
  | nil =>
    intro out
    unfold fallbackLoop
    constructor
    · intro h
      cases h
      exact List.Forall₂.nil
    · intro h
      cases h
      rfl
  | cons fb rest ih =>
    intro out
    unfold fallbackLoop
    cases hb : buildFallback lib fb with
    | error e =>
      simp only
      constructor
      · intro h
        cases h
      · intro h
        cases h with
        | cons h1 _ =>
          rw [hb] at h1
          cases h1
    | ok fb1 =>
      simp only
      cases hr : fallbackLoop lib rest with
      | error e =>
        simp only
        constructor
        · intro h
          cases h
        · intro h
          cases h with
          | cons _ h2 =>
            have := (ih _).2 h2
            rw [hr] at this
            cases this
      | ok o =>
        simp only
        constructor
        · intro h
          cases h
          exact List.Forall₂.cons hb ((ih o).1 hr)
        · intro h
          cases h with
          | cons h1 h2 =>
            rw [hb] at h1
            cases h1
            have := (ih _).2 h2
            rw [hr] at this
            cases this
            rfl

theorem fallbackLoop_error (lib : ConfLib) (fb : Fallback) (post : List Fallback) (e : GoError)
    (he : buildFallback lib fb = Except.error e) :
    ∀ pre : List Fallback, (∀ p ∈ pre, ∃ o, buildFallback lib p = Except.ok o) →
      fallbackLoop lib (pre ++ fb :: post) = Except.error e := by
  intro pre
  induction pre with
  | nil =>
    intro _
    simp only [List.nil_append]
    unfold fallbackLoop
    simp only [he]
  | cons p pre ih =>
    intro hpre
    obtain ⟨o, ho⟩ := hpre p (by simp)
    simp only [List.cons_append]
    unfold fallbackLoop
    simp only [ho, ih (fun q hq => hpre q (by simp [hq]))]

theorem fallbackLoop_fails (lib : ConfLib) (l : List Fallback) (fb : Fallback)
    (hmem : fb ∈ l) (hno : ∀ o, buildFallback lib fb ≠ Except.ok o) :
    ∃ e, fallbackLoop lib l = Except.error e := by
  cases h : fallbackLoop lib l with
  | error e => exact ⟨e, rfl⟩
  | ok out =>
    have hf := (fallbackLoop_ok lib l out).1 h
    exfalso
    clear h
    induction hf with
    | nil => cases hmem
    | cons h1 _ ih =>
      rcases List.mem_cons.1 hmem with h2 | h2
      · subst h2
        exact hno _ h1
      · exact ih h2

theorem Build_ok_iff (lib : ConfLib) (c : VLessInboundConfig) (cfg : InboundConfig) :
    c.Build lib = Except.ok cfg ↔
      clientsLoop c.Clients = none ∧ c.Decryption = "none" ∧ c.Fallback = none ∧
      ∃ fbs, fallbackLoop lib (c.Fallbacks.map decodeFallback) = Except.ok fbs ∧
        cfg = { Clients := c.Clients, Decryption := c.Decryption, Fallbacks := fbs } := by
  unfold VLessInboundConfig.Build
  cases hc : clientsLoop c.Clients with
  | some e => simp
  | none =>
    by_cases hd : c.Decryption = "none"
    · cases hf : c.Fallback with
      | some f => simp [hd]
      | none =>
        cases hl : fallbackLoop lib (c.Fallbacks.map decodeFallback) with
        | error e => simp [hd]
        | ok fbs =>
          simp only [hd, ne_eq, not_true_eq_false, if_false, Except.ok.injEq, true_and]
          constructor
          · intro h
            exact ⟨fbs, rfl, h.symm⟩
          · rintro ⟨fbs1, h1, h2⟩
            cases h1
            exact h2.symm
    · simp [hd]

theorem Build_error (lib : ConfLib) (c : VLessInboundConfig) (e : GoError)
    (hc : clientsLoop c.Clients = none) (hd : c.Decryption = "none") (hf : c.Fallback = none)
    (hl : fallbackLoop lib (c.Fallbacks.map decodeFallback) = Except.error e) :
    c.Build lib = Except.error e := by
  unfold VLessInboundConfig.Build
  simp only [hc, hd, hf, hl, ne_eq, not_true_eq_false, if_false]

theorem Build_returns (lib : ConfLib) (c : VLessInboundConfig) :
    (∃ cfg, c.Build lib = Except.ok cfg) ∨ ∃ e, c.Build lib = Except.error e := by
  cases h : c.Build lib with
  | error e => exact Or.inr ⟨e, rfl⟩
  | ok cfg => exact Or.inl ⟨cfg, rfl⟩

/-- C30, the claim as stated fails: `Build` accepts as `tcp` the dest
`example.com:99999` and the bare number `99999`, rewritten to
`127.0.0.1:99999`, whose ports exceed 65535, and the bare number `-5`. -/
theorem Build_accepts_port_out_of_range :
    (fallbackConfig [fallbackTo (RawDest.other "example.com:99999")]).Build linuxConf =
      Except.ok { Clients := [], Decryption := "none",
                  Fallbacks := [{ Name := "", Alpn := "", Path := "", Type_ := "tcp",
                                  Dest := "example.com:99999", Xver := 0 }] } ∧
    (fallbackConfig [fallbackTo (RawDest.other "99999")]).Build linuxConf =
      Except.ok { Clients := [], Decryption := "none",
                  Fallbacks := [{ Name := "", Alpn := "", Path := "", Type_ := "tcp",
                                  Dest := "127.0.0.1:99999", Xver := 0 }] } ∧
    (fallbackConfig [fallbackTo (RawDest.other "-5")]).Build linuxConf =
      Except.ok { Clients := [], Decryption := "none",
                  Fallbacks := [{ Name := "", Alpn := "", Path := "", Type_ := "tcp",
                                  Dest := "127.0.0.1:-5", Xver := 0 }] } ∧
    65535 < 99999 :=
  ⟨rfl, rfl, rfl, by decide⟩

/-- C30, amended: for a fallback whose type is empty, whose path is empty or
starts with a slash and whose `xver` is at most 2, the loop of `Build` sets the
type to `serve` when the dest is `serve-ws-none`, to `unix` when the dest
starts with `@` or `/`, and to `tcp` when `net.SplitHostPort` returns no error
on the dest, a dest that `strconv.Atoi` accepts being first rewritten to
`127.0.0.1:` followed by it; for every other dest, the empty one included, it
returns the valid-dest error.  It returns the path error for every fallback
whose path is not empty and does not start with a slash, and an error for every
fallback whose `xver` exceeds 2.  A `Build` that succeeds has accepted every
fallback so, in order; `Build` fails when one of its fallbacks is not accepted,
and it returns the error of the first such fallback when the checks before the
fallbacks pass. -/
theorem Build_fallbacks (lib : ConfLib) :
    (∀ fb : Fallback, fb.Type_ = "" → pathAccepted fb = true → fb.Xver ≤ 2 →
      (fb.Dest = "serve-ws-none" →
        buildFallback lib fb = Except.ok { fb with Type_ := "serve" }) ∧
      (fb.Dest ≠ "serve-ws-none" →
        (firstByte fb.Dest = some '@' ∨ firstByte fb.Dest = some '/') →
        buildFallback lib fb =
          Except.ok { fb with Type_ := "unix", Dest := unixDest lib fb.Dest }) ∧
      (fb.Dest ≠ "" → fb.Dest ≠ "serve-ws-none" → firstByte fb.Dest ≠ some '@' →
        firstByte fb.Dest ≠ some '/' → lib.SplitHostPort (tcpDest lib fb.Dest) = true →
        buildFallback lib fb =
          Except.ok { fb with Type_ := "tcp", Dest := tcpDest lib fb.Dest })) ∧
    (∀ dest, tcpDest lib dest = if lib.Atoi dest then "127.0.0.1:" ++ dest else dest) ∧
    (∀ fb : Fallback, fb.Type_ = "" → pathAccepted fb = true →
      (fb.Dest = "" ∨
        (fb.Dest ≠ "serve-ws-none" ∧ firstByte fb.Dest ≠ some '@' ∧
          firstByte fb.Dest ≠ some '/' ∧ lib.SplitHostPort (tcpDest lib fb.Dest) = false)) →
      buildFallback lib fb = Except.error errFallbackDest) ∧
    (∀ fb : Fallback, pathAccepted fb = false →
      buildFallback lib fb = Except.error errFallbackPath) ∧
    (∀ fb : Fallback, fb.Xver > 2 → ∃ e, buildFallback lib fb = Except.error e) ∧
    (∀ (c : VLessInboundConfig) cfg, c.Build lib = Except.ok cfg →
      List.Forall₂ (fun raw out => buildFallback lib (decodeFallback raw) = Except.ok out)
        c.Fallbacks cfg.Fallbacks) ∧
    (∀ (c : VLessInboundConfig) raw, raw ∈ c.Fallbacks →
      (∀ out, buildFallback lib (decodeFallback raw) ≠ Except.ok out) →
      ∃ e, c.Build lib = Except.error e) ∧
    (∀ (c : VLessInboundConfig) pre raw post e, c.Fallbacks = pre ++ raw :: post →
      clientsLoop c.Clients = none → c.Decryption = "none" → c.Fallback = none →
      (∀ p ∈ pre, ∃ out, buildFallback lib (decodeFallback p) = Except.ok out) →
      buildFallback lib (decodeFallback raw) = Except.error e →
      c.Build lib = Except.error e) := by
  refine ⟨?_, fun _ => rfl, ?_, ?_, ?_, ?_, ?_, ?_⟩
  · intro fb hT hp hx
    have hp1 : ¬ (pathAccepted fb = false) := by simp [hp]
    have hx1 : ¬ (fb.Xver > 2) := by omega
    refine ⟨?_, ?_, ?_⟩
    · intro hs
      have hne : ¬ (fb.Dest = "") := by
        rw [hs]
        decide
      rw [buildFallback_eq lib fb hT, if_neg hp1, if_neg hne, if_pos hs, if_neg hx1]
    · intro hs hu
      have hne : ¬ (fb.Dest = "") := by
        intro h0
        rw [h0] at hu
        rcases hu with h | h <;> cases h
      rw [buildFallback_eq lib fb hT, if_neg hp1, if_neg hne, if_neg hs, if_pos hu,
        if_neg hx1]
    · intro hne hs h1 h2 hsp
      have hu : ¬ (firstByte fb.Dest = some '@' ∨ firstByte fb.Dest = some '/') := by
        rintro (h | h)
        · exact h1 h
        · exact h2 h
      rw [buildFallback_eq lib fb hT, if_neg hp1, if_neg hne, if_neg hs, if_neg hu,
        if_pos hsp, if_neg hx1]
  · intro fb hT hp hd
    have hp1 : ¬ (pathAccepted fb = false) := by simp [hp]
    rcases hd with hd | ⟨hs, h1, h2, hsp⟩
    · rw [buildFallback_eq lib fb hT, if_neg hp1, if_pos hd]
    · have hu : ¬ (firstByte fb.Dest = some '@' ∨ firstByte fb.Dest = some '/') := by
        rintro (h | h)
        · exact h1 h
        · exact h2 h
      have hsp1 : ¬ (lib.SplitHostPort (tcpDest lib fb.Dest) = true) := by simp [hsp]
      rw [buildFallback_eq lib fb hT, if_neg hp1]
      by_cases hd : fb.Dest = ""
      · rw [if_pos hd]
      · rw [if_neg hd, if_neg hs, if_neg hu, if_neg hsp1]
  · intro fb hp
    unfold buildFallback
    rw [if_pos ((pathAccepted_false_iff fb).1 hp)]
  · intro fb hx
    unfold buildFallback
    by_cases hp : fb.Path ≠ "" ∧ firstByte fb.Path ≠ some '/'
    · rw [if_pos hp]
      exact ⟨_, rfl⟩
    · rw [if_neg hp]
      simp only
      repeat' split
      all_goals exact ⟨_, rfl⟩
  · intro c cfg h
    obtain ⟨_, _, _, fbs, hl, hcfg⟩ := (Build_ok_iff lib c cfg).1 h
    subst hcfg
    have hf := (fallbackLoop_ok lib _ fbs).1 hl
    exact (List.forall₂_map_left_iff.1 hf)
  · intro c raw hmem hno
    rcases Build_returns lib c with ⟨cfg, h⟩ | h
    · exfalso
      obtain ⟨_, _, _, fbs, hl, _⟩ := (Build_ok_iff lib c cfg).1 h
      obtain ⟨e, he⟩ := fallbackLoop_fails lib (c.Fallbacks.map decodeFallback)
        (decodeFallback raw) (List.mem_map_of_mem _ hmem) hno
      rw [he] at hl
      cases hl
    · exact h
  · intro c pre raw post e hsplit hc hd hf hpre he
    apply Build_error lib c e hc hd hf
    rw [hsplit, List.map_append, List.map_cons]
    apply fallbackLoop_error lib _ _ e he
    intro p hp
    obtain ⟨q, hq, hqp⟩ := List.mem_map.1 hp
    subst hqp
    exact hpre q hq

/-- C30, amended, at the fallbacks of a linux build whose dest is the JSON
number 8080 and the empty string: the first is accepted as `tcp` with the dest
`127.0.0.1:8080`, the second is refused with the valid-dest error. -/
theorem Build_fallbacks_witness :
    buildFallback linuxConf (decodeFallback (fallbackTo (RawDest.uint16 8080))) =
      Except.ok { Name := "", Alpn := "", Path := "", Type_ := "tcp",
                  Dest := "127.0.0.1:8080", Xver := 0 } ∧
    buildFallback linuxConf (decodeFallback (fallbackTo (RawDest.other ""))) =
      Except.error errFallbackDest :=
  ⟨((Build_fallbacks linuxConf).1 (decodeFallback (fallbackTo (RawDest.uint16 8080)))
      rfl rfl (by decide)).2.2 (by decide) (by decide) (by decide) (by decide) rfl,
   (Build_fallbacks linuxConf).2.2.1 (decodeFallback (fallbackTo (RawDest.other "")))
      rfl rfl (Or.inl rfl)⟩

end Xray
